import Mathlib

/-!
# Fluxgate: admission-and-release control plane

A shallow embedding of the queue service (`internal/services/queue_service.go`),
the release scheduler (`internal/services/release_scheduler.go`) and the key
schema (`pkg/keys/keys.go`), followed by theorems about them.

Conventions of the embedding.

* Go `int64` / `int` values are `Int`; every Go arithmetic operation that can
  overflow is wrapped with `wrap64`.
* A `time.Time` is an `Int`: nanoseconds since the Unix epoch. One call of a
  service method reads the clock once (`Env.now`).
* Redis is an explicit value of type `Redis`, threaded through every operation.
  A transport failure of Redis during a call is the field `Env.redisErr`.
* The Postgres registry is the read-only function `Env.db`.
* Go `error` values are their message strings.
-/

namespace Fluxgate

/-! ## Machine integers -/

/-- Largest `int64`. -/
def maxInt64 : Int := 9223372036854775807

/-- Smallest `int64`. -/
def minInt64 : Int := -9223372036854775808

/-- Two's complement wrap-around of an integer to the `int64` range. -/
def wrap64 (x : Int) : Int :=
  (x + 9223372036854775808) % 18446744073709551616 - 9223372036854775808

/-- Membership in the `int64` range. -/
def isInt64 (x : Int) : Prop := minInt64 ≤ x ∧ x ≤ maxInt64

instance (x : Int) : Decidable (isInt64 x) := by
  unfold isInt64; exact inferInstance

/-- Go `fmt.Sprintf("%d", n)`. -/
def fmtInt (n : Int) : String := toString n

/-! ## SHA-256 (`crypto/sha256`) and hex encoding (`encoding/hex`) -/

namespace Sha256

/-- Modulus of 32-bit words. -/
def mask32 : Nat := 4294967296

/-- Right rotation of a 32-bit word. -/
def rotr (x n : Nat) : Nat := (x >>> n) ||| ((x <<< (32 - n)) % mask32)

/-- Round constants. -/
def kTable : List Nat := [
  1116352408, 1899447441, 3049323471, 3921009573, 961987163, 1508970993,
  2453635748, 2870763221, 3624381080, 310598401, 607225278, 1426881987,
  1925078388, 2162078206, 2614888103, 3248222580, 3835390401, 4022224774,
  264347078, 604807628, 770255983, 1249150122, 1555081692, 1996064986,
  2554220882, 2821834349, 2952996808, 3210313671, 3336571891, 3584528711,
  113926993, 338241895, 666307205, 773529912, 1294757372, 1396182291,
  1695183700, 1986661051, 2177026350, 2456956037, 2730485921, 2820302411,
  3259730800, 3345764771, 3516065817, 3600352804, 4094571909, 275423344,
  430227734, 506948616, 659060556, 883997877, 958139571, 1322822218,
  1537002063, 1747873779, 1955562222, 2024104815, 2227730452, 2361852424,
  2428436474, 2756734187, 3204031479, 3329325298]

/-- Initial hash value. -/
def initHash : List Nat :=
  [1779033703, 3144134277, 1013904242, 2773480762,
   1359893119, 2600822924, 528734635, 1541459225]

/-- Message padding: a byte 128, zeros, and the bit length as 8 big-endian bytes. -/
def pad (msg : List Nat) : List Nat :=
  let l := msg.length
  let z := (119 - l % 64) % 64
  let bits := 8 * l
  msg ++ [128] ++ List.replicate z 0 ++
    (List.range 8).map (fun i => (bits >>> (8 * (7 - i))) % 256)

/-- Big-endian 32-bit words of a byte list. -/
def wordsOf : List Nat → List Nat
  | a :: b :: c :: d :: rest => (a * 16777216 + b * 65536 + c * 256 + d) :: wordsOf rest
  | _ => []

/-- Message schedule extension; `ws` holds the words most recent first. -/
def extend : Nat → List Nat → List Nat
  | 0, ws => ws
  | n + 1, ws =>
    let w2 := ws.getD 1 0
    let w7 := ws.getD 6 0
    let w15 := ws.getD 14 0
    let w16 := ws.getD 15 0
    let s0 := rotr w15 7 ^^^ rotr w15 18 ^^^ (w15 >>> 3)
    let s1 := rotr w2 17 ^^^ rotr w2 19 ^^^ (w2 >>> 10)
    extend n (((w16 + s0 + w7 + s1) % mask32) :: ws)

/-- One compression round on the eight working variables. -/
def round (st : List Nat) (kw : Nat × Nat) : List Nat :=
  match st with
  | [a, b, c, d, e, f, g, h] =>
    let s1 := rotr e 6 ^^^ rotr e 11 ^^^ rotr e 25
    let ch := (e &&& f) ^^^ ((mask32 - 1 - e) &&& g)
    let t1 := (h + s1 + ch + kw.1 + kw.2) % mask32
    let s0 := rotr a 2 ^^^ rotr a 13 ^^^ rotr a 22
    let maj := (a &&& b) ^^^ (a &&& c) ^^^ (b &&& c)
    let t2 := (s0 + maj) % mask32
    [(t1 + t2) % mask32, a, b, c, (d + t1) % mask32, e, f, g]
  | _ => st

/-- Compression of one 64-byte block into the running hash. -/
def compress (h : List Nat) (block : List Nat) : List Nat :=
  let ws := (extend 48 (wordsOf block).reverse).reverse
  let st := (kTable.zip ws).foldl round h
  List.zipWith (fun x y => (x + y) % mask32) h st

/-- Split a byte list into `n` blocks of 64 bytes. -/
def blocks : Nat → List Nat → List (List Nat)
  | 0, _ => []
  | n + 1, bs => bs.take 64 :: blocks n (bs.drop 64)

/-- The function `sha256.Sum256`: the 32 digest bytes of a message. -/
def sum256 (msg : List Nat) : List Nat :=
  let p := pad msg
  let h := (blocks (p.length / 64) p).foldl compress initHash
  h.flatMap (fun w => [(w >>> 24) % 256, (w >>> 16) % 256, (w >>> 8) % 256, w % 256])

/-- One lowercase hexadecimal digit. -/
def hexDigit (n : Nat) : Char := "0123456789abcdef".data.getD n '0'

/-- The function `hex.EncodeToString`. -/
def hexEncode (bs : List Nat) : String :=
  String.mk (bs.flatMap (fun b => [hexDigit (b / 16), hexDigit (b % 16)]))

/-- The bytes of a Go string (`[]byte(s)`): its UTF-8 encoding. -/
def bytesOf (s : String) : List Nat :=
  s.data.flatMap (fun c => (String.utf8EncodeChar c).map UInt8.toNat)

end Sha256

/-! ## Key schema (`pkg/keys/keys.go`) -/

namespace keys

/-- Key of a session binding: `user:queue:%s:%d:%s`. -/
def UserQueueKey (tenantID : String) (activityID : Int) (sessionID : String) : String :=
  "user:queue:" ++ tenantID ++ ":" ++ fmtInt activityID ++ ":" ++ sessionID

/-- Key of the queue counter: `queue:seq:%s:%d`. -/
def QueueSeqKey (tenantID : String) (activityID : Int) : String :=
  "queue:seq:" ++ tenantID ++ ":" ++ fmtInt activityID

/-- Key of the release cursor: `release:seq:%s:%d`. -/
def ReleaseSeqKey (tenantID : String) (activityID : Int) : String :=
  "release:seq:" ++ tenantID ++ ":" ++ fmtInt activityID

/-- Key of the active-user sketch: `active:users:%s:%d`. -/
def ActiveUsersKey (tenantID : String) (activityID : Int) : String :=
  "active:users:" ++ tenantID ++ ":" ++ fmtInt activityID

/-- Key of an IP throttle counter: `throttle:ip:%s:%d:%s`. -/
def IPThrottleKey (tenantID : String) (activityID : Int) (ipHash : String) : String :=
  "throttle:ip:" ++ tenantID ++ ":" ++ fmtInt activityID ++ ":" ++ ipHash

/-- Key of the dedupe set: `dedupe:user:%s:%d`. -/
def UserDedupeKey (tenantID : String) (activityID : Int) : String :=
  "dedupe:user:" ++ tenantID ++ ":" ++ fmtInt activityID

/-- Key of a metric: `metrics:%s:%d:%s`. -/
def MetricsKey (tenantID : String) (activityID : Int) (metric : String) : String :=
  "metrics:" ++ tenantID ++ ":" ++ fmtInt activityID ++ ":" ++ metric

end keys

/-! ## Models (`internal/models/activity.go`) -/

/-- The struct `models.ActivityConfig`. -/
structure ActivityConfig where
  ReleaseRate : Int
  MaxConcurrent : Int
  EnableThrottle : Bool
  PollInterval : Int
  deriving DecidableEq, Repr

/-- The struct `models.Activity`; `Status` is the Go string type `ActivityStatus`. -/
structure Activity where
  ID : Int
  TenantID : String
  Name : String
  SKU : String
  InitialStock : Int
  StartAt : Int
  EndAt : Int
  Status : String
  Config : ActivityConfig
  CreatedAt : Int
  UpdatedAt : Int
  deriving DecidableEq, Repr

/-- The constant `models.StatusActive`. -/
def StatusActive : String := "active"

/-- The struct `ReleaseEvent` of the scheduler. -/
structure ReleaseEvent where
  ActivityID : Int
  TenantID : String
  PrevSeq : Int
  NewSeq : Int
  ReleaseCount : Int
  Timestamp : Int
  ReleaseRate : Int
  deriving DecidableEq, Repr

/-! ## The counter store (Redis) -/

/-- Point update of a keyed map. -/
def upd {α : Type} (f : String → α) (k : String) (v : α) : String → α :=
  fun x => if x = k then v else f x

/-- Contents of the Redis instance. Keys of the four Redis types used by the
program live in separate maps; `ttl` records the time-to-live (in seconds) last
attached to a key. Expiry itself is an action of Redis between calls and is not
part of any operation below. -/
structure Redis where
  ints : String → Option Int
  sets : String → List String
  hlls : String → List String
  lists : String → List ReleaseEvent
  ttl : String → Option Int

/-- The empty store. -/
def Redis.empty : Redis :=
  { ints := fun _ => none, sets := fun _ => [], hlls := fun _ => [],
    lists := fun _ => [], ttl := fun _ => none }

/-- A go-redis error: `redis.Nil` (key absent) or any other error with its message. -/
inductive RedisError where
  | Nil
  | other (msg : String)
  deriving DecidableEq, Repr

/-- The message of a go-redis error (`err.Error()`). -/
def RedisError.msg : RedisError → String
  | .Nil => "redis: nil"
  | .other m => m

/-- Redis `SET key value EX ttl`. -/
def Redis.setEx (r : Redis) (k : String) (v : Int) (secs : Int) : Redis :=
  { r with ints := upd r.ints k (some v), ttl := upd r.ttl k (some secs) }

/-- Redis `EXPIRE key ttl`: attaches a time-to-live to an existing key. -/
def Redis.expire (r : Redis) (k : String) (secs : Int) : Redis :=
  if (r.ints k).isSome || !(r.sets k).isEmpty || !(r.hlls k).isEmpty || !(r.lists k).isEmpty then
    { r with ttl := upd r.ttl k (some secs) }
  else r

/-- Redis `INCRBY key d`: an absent key counts as 0; a result outside the signed
64-bit range is refused and the key keeps its value. -/
def Redis.incrBy (r : Redis) (k : String) (d : Int) : Except RedisError Int × Redis :=
  let v := (r.ints k).getD 0 + d
  if minInt64 ≤ v ∧ v ≤ maxInt64 then
    (.ok v, { r with ints := upd r.ints k (some v) })
  else
    (.error (.other "ERR increment or decrement would overflow"), r)

/-- Redis `SADD key member`. -/
def Redis.sadd (r : Redis) (k : String) (m : String) : Redis :=
  if m ∈ r.sets k then r else { r with sets := upd r.sets k (m :: r.sets k) }

/-- Redis `PFADD key element`; the sketch is modelled by the elements added. -/
def Redis.pfadd (r : Redis) (k : String) (m : String) : Redis :=
  if m ∈ r.hlls k then r else { r with hlls := upd r.hlls k (m :: r.hlls k) }

/-- Redis `LPUSH key value` followed by `LTRIM key 0 n-1`. -/
def Redis.lpushTrim (r : Redis) (k : String) (e : ReleaseEvent) (n : Nat) : Redis :=
  { r with lists := upd r.lists k ((e :: r.lists k).take n) }

/-! ## Environment of one service call -/

/-- The Redis commands issued by the program, by call site. -/
inductive RedisCall where
  | getExistingSeq
  | getReleaseSeq
  | getCurrentQueueSeq
  | throttleIncr
  | throttleExpire
  | dedupeIsMember
  | dedupeAdd
  | dedupeExpire
  | assignExec
  | assignSet
  | assignPFAdd
  | metricsIncr
  | metricsExpire
  | schedGetQueueSeq
  | schedGetReleaseSeq
  | schedSetReleaseSeq
  | schedEvent
  | schedMetrics
  | etaGetReleaseSeq
  | etaLRange
  | adminPipeline
  | adminGetEnterTotal
  deriving DecidableEq, Repr

/-- What a service call reads from outside the counter store: the clock, the
fresh UUID, the registry (`getActivity` returns the row or the error of the
query) and, per Redis command, whether the command fails in transport (with the
error message) or reaches the store. -/
structure Env where
  now : Int
  requestID : String
  db : Int → Except String Activity
  redisErr : RedisCall → Option String

/-- Redis `GET` of an integer value through go-redis: `redis.Nil` when absent. -/
def redisGet (env : Env) (c : RedisCall) (r : Redis) (k : String) : Except RedisError Int :=
  match env.redisErr c with
  | some m => .error (.other m)
  | none =>
    match r.ints k with
    | some v => .ok v
    | none => .error .Nil

/-- Redis `INCRBY` through go-redis. -/
def redisIncrBy (env : Env) (c : RedisCall) (r : Redis) (k : String) (d : Int) :
    Except RedisError Int × Redis :=
  match env.redisErr c with
  | some m => (.error (.other m), r)
  | none => r.incrBy k d

/-- Redis `EXPIRE` through go-redis, its error ignored by every caller. -/
def redisExpire (env : Env) (c : RedisCall) (r : Redis) (k : String) (secs : Int) : Redis :=
  match env.redisErr c with
  | some _ => r
  | none => r.expire k secs

/-- Redis `SET` with expiry through go-redis; returns the error, if any. -/
def redisSetEx (env : Env) (c : RedisCall) (r : Redis) (k : String) (v : Int) (secs : Int) :
    Option RedisError × Redis :=
  match env.redisErr c with
  | some m => (some (.other m), r)
  | none => (none, r.setEx k v secs)

/-! ## Queue service (`internal/services/queue_service.go`) -/

/-- The struct `EnterQueueRequest`. -/
structure EnterQueueRequest where
  ActivityID : Int
  UserHash : String
  Fingerprint : String
  IPAddress : String
  deriving DecidableEq, Repr

/-- The struct `EnterQueueResponse`. -/
structure EnterQueueResponse where
  RequestID : String
  Seq : Int
  EstimatedWait : Int
  PollingInterval : Int
  SessionID : String
  QueueLength : Int
  deriving DecidableEq, Repr

/-- The struct `QueueStatusRequest`. -/
structure QueueStatusRequest where
  ActivityID : Int
  Seq : Int
  SessionID : String
  deriving DecidableEq, Repr

/-- The string type `QueueState` with its three constants. -/
inductive QueueState where
  | StateWaiting
  | StateEligible
  | StateExpired
  deriving DecidableEq, Repr

/-- The struct `QueueStatusResponse` as filled by `GetQueueStatus` (its
`ETADetails` pointer stays nil there). -/
structure QueueStatusResponse where
  RequestID : String
  ReleaseSeq : Int
  QueueSeq : Int
  Position : Int
  ETA : Int
  State : QueueState
  QueueLength : Int
  NextPollMs : Int
  deriving DecidableEq, Repr

/-- The helper `max` on `int64`. -/
def max64 (a b : Int) : Int := if a > b then a else b

/-- The helper `minInt64` of the scheduler. -/
def min64 (a b : Int) : Int := if a < b then a else b

/-- The method `getActivity`: the registry row, or the error of the query. -/
def getActivity (env : Env) (activityID : Int) : Except String Activity :=
  env.db activityID

/-- The method `isActivityActive`: `now.After(StartAt)` and `now.Before(EndAt)`. -/
def isActivityActive (env : Env) (activity : Activity) : Bool :=
  activity.Status == StatusActive &&
    decide (env.now > activity.StartAt) &&
    decide (env.now < activity.EndAt)

/-- Go `t.Unix()`: whole seconds since the epoch. -/
def unixSeconds (t : Int) : Int := t / 1000000000

/-- The method `generateSessionID`: the first 16 hex characters of the SHA-256
of `userHash:activityID:hour`, where `hour` is `time.Now().Unix()/3600` in Go
integer division. -/
def generateSessionID (env : Env) (userHash : String) (activityID : Int) : String :=
  let data := userHash ++ ":" ++ fmtInt activityID ++ ":" ++
    fmtInt (Int.tdiv (unixSeconds env.now) 3600)
  String.mk ((Sha256.hexEncode (Sha256.sum256 (Sha256.bytesOf data))).data.take 16)

/-- The method `hashIP`. -/
def hashIP (ip : String) : String :=
  String.mk ((Sha256.hexEncode (Sha256.sum256 (Sha256.bytesOf (ip ++ "salt")))).data.take 16)

/-- The method `getExistingSeq`. -/
def getExistingSeq (env : Env) (r : Redis) (tenantID : String) (activityID : Int)
    (sessionID : String) : Except RedisError Int :=
  redisGet env .getExistingSeq r (keys.UserQueueKey tenantID activityID sessionID)

/-- The method `getReleaseSeq`: an absent key reads as 0. -/
def getReleaseSeq (env : Env) (r : Redis) (tenantID : String) (activityID : Int) :
    Except RedisError Int :=
  match redisGet env .getReleaseSeq r (keys.ReleaseSeqKey tenantID activityID) with
  | .error .Nil => .ok 0
  | .error e => .error e
  | .ok v => .ok v

/-- The method `getCurrentQueueSeq`: an absent key reads as 0. -/
def getCurrentQueueSeq (env : Env) (r : Redis) (tenantID : String) (activityID : Int) :
    Except RedisError Int :=
  match redisGet env .getCurrentQueueSeq r (keys.QueueSeqKey tenantID activityID) with
  | .error .Nil => .ok 0
  | .error e => .error e
  | .ok v => .ok v

/-- The method `getQueueLength`. -/
def getQueueLength (env : Env) (r : Redis) (tenantID : String) (activityID : Int) :
    Except RedisError Int :=
  match getCurrentQueueSeq env r tenantID activityID with
  | .error e => .error e
  | .ok queueSeq =>
    match getReleaseSeq env r tenantID activityID with
    | .error e => .error e
    | .ok releaseSeq => .ok (max64 0 (wrap64 (queueSeq - releaseSeq)))

/-- The method `calculateETA` of the queue service. -/
def calculateETA (userSeq : Int) (activity : Activity) : Int :=
  if activity.Config.ReleaseRate ≤ 0 then -1
  else Int.tdiv userSeq activity.Config.ReleaseRate

/-- The method `checkIPThrottle`. -/
def checkIPThrottle (env : Env) (r : Redis) (tenantID : String) (activityID : Int)
    (ipAddress : String) : Except String Unit × Redis :=
  if ipAddress = "" then (.ok (), r)
  else
    let key := keys.IPThrottleKey tenantID activityID (hashIP ipAddress)
    match redisIncrBy env .throttleIncr r key 1 with
    | (.error e, r1) => (.error ("throttle check failed: " ++ e.msg), r1)
    | (.ok count, r1) =>
      let r2 := if count = 1 then redisExpire env .throttleExpire r1 key 60 else r1
      if count > 10 then (.error "rate limit exceeded", r2)
      else (.ok (), r2)

/-- The method `checkUserDedupe`. -/
def checkUserDedupe (env : Env) (r : Redis) (tenantID : String) (activityID : Int)
    (userHash : String) : Except String Unit × Redis :=
  let key := keys.UserDedupeKey tenantID activityID
  match env.redisErr .dedupeIsMember with
  | some m => (.error ("dedupe check failed: " ++ m), r)
  | none =>
    if userHash ∈ r.sets key then (.error "user already in queue", r)
    else
      let r1 := match env.redisErr .dedupeAdd with
        | some _ => r
        | none => r.sadd key userHash
      (.ok (), redisExpire env .dedupeExpire r1 key (4 * 3600))

/-- The method `assignSequenceNumber`: the transaction holds the single `INCR`;
the binding and the sketch are written afterwards, their errors ignored. -/
def assignSequenceNumber (env : Env) (r : Redis) (tenantID : String) (activityID : Int)
    (sessionID : String) : Except RedisError Int × Redis :=
  let queueSeqKey := keys.QueueSeqKey tenantID activityID
  let userQueueKey := keys.UserQueueKey tenantID activityID sessionID
  match redisIncrBy env .assignExec r queueSeqKey 1 with
  | (.error e, r1) => (.error e, r1)
  | (.ok seq, r1) =>
    let r2 := (redisSetEx env .assignSet r1 userQueueKey seq (4 * 3600)).2
    let activeUsersKey := keys.ActiveUsersKey tenantID activityID
    let r3 := match env.redisErr .assignPFAdd with
      | some _ => r2
      | none => r2.pfadd activeUsersKey sessionID
    (.ok seq, r3)

/-- The method `updateMetrics`. -/
def updateMetrics (env : Env) (r : Redis) (tenantID : String) (activityID : Int)
    (action : String) : Redis :=
  let key := keys.MetricsKey tenantID activityID (action ++ "_total")
  let r1 := (redisIncrBy env .metricsIncr r key 1).2
  redisExpire env .metricsExpire r1 key (24 * 3600)

/-- Whether `EnterQueue` takes its rejoin branch: the condition
`err == nil && existingSeq > 0` on the binding of the derived session. -/
def rejoinSeq (env : Env) (r : Redis) (activity : Activity) (req : EnterQueueRequest) :
    Option Int :=
  match getExistingSeq env r activity.TenantID req.ActivityID
      (generateSessionID env req.UserHash req.ActivityID) with
  | .ok existingSeq => if existingSeq > 0 then some existingSeq else none
  | .error _ => none

/-- The method `EnterQueue`. The asynchronous insert into the `queue_entries`
table touches no state that any modelled operation reads and is left out. -/
def EnterQueue (env : Env) (req : EnterQueueRequest) (r : Redis) :
    Except String EnterQueueResponse × Redis :=
  match getActivity env req.ActivityID with
  | .error e => (.error ("activity not found: " ++ e), r)
  | .ok activity =>
    if !isActivityActive env activity then (.error "activity is not active", r)
    else
      let sessionID := generateSessionID env req.UserHash req.ActivityID
      match rejoinSeq env r activity req with
      | some existingSeq =>
        let queueLength := match getQueueLength env r activity.TenantID req.ActivityID with
          | .ok n => n
          | .error _ => 0
        (.ok { RequestID := env.requestID, Seq := existingSeq,
               EstimatedWait := calculateETA existingSeq activity,
               PollingInterval := activity.Config.PollInterval,
               SessionID := sessionID, QueueLength := queueLength }, r)
      | none =>
        match checkIPThrottle env r activity.TenantID req.ActivityID req.IPAddress with
        | (.error e, r1) => (.error e, r1)
        | (.ok _, r1) =>
          match checkUserDedupe env r1 activity.TenantID req.ActivityID req.UserHash with
          | (.error e, r2) => (.error e, r2)
          | (.ok _, r2) =>
            match assignSequenceNumber env r2 activity.TenantID req.ActivityID sessionID with
            | (.error e, r3) =>
              (.error ("failed to assign sequence number: " ++ e.msg), r3)
            | (.ok seq, r3) =>
              let r4 := updateMetrics env r3 activity.TenantID req.ActivityID "enter"
              let queueLength :=
                match getQueueLength env r4 activity.TenantID req.ActivityID with
                | .ok n => n
                | .error _ => 0
              (.ok { RequestID := env.requestID, Seq := seq,
                     EstimatedWait := calculateETA seq activity,
                     PollingInterval := activity.Config.PollInterval,
                     SessionID := sessionID, QueueLength := queueLength }, r4)

/-- The method `GetQueueStatus`. -/
def GetQueueStatus (env : Env) (req : QueueStatusRequest) (r : Redis) :
    Except String QueueStatusResponse :=
  match getActivity env req.ActivityID with
  | .error e => .error ("activity not found: " ++ e)
  | .ok activity =>
    match getExistingSeq env r activity.TenantID req.ActivityID req.SessionID with
    | .error _ => .error "invalid sequence number"
    | .ok userSeq =>
      if userSeq ≠ req.Seq then .error "invalid sequence number"
      else
        let releaseSeq := match getReleaseSeq env r activity.TenantID req.ActivityID with
          | .ok v => v
          | .error _ => 0
        match getCurrentQueueSeq env r activity.TenantID req.ActivityID with
        | .error e => .error ("failed to get queue length: " ++ e.msg)
        | .ok queueSeq =>
          let position := wrap64 (req.Seq - releaseSeq)
          let state0 := if position ≤ 0 then QueueState.StateEligible
            else QueueState.StateWaiting
          let nextPollMs := if position ≤ 0 then 0 else activity.Config.PollInterval
          let state := if env.now > activity.EndAt then QueueState.StateExpired else state0
          .ok { RequestID := env.requestID, ReleaseSeq := releaseSeq, QueueSeq := queueSeq,
                Position := max64 0 position, ETA := calculateETA req.Seq activity,
                State := state, QueueLength := wrap64 (queueSeq - releaseSeq),
                NextPollMs := nextPollMs }

/-! ## Release scheduler (`internal/services/release_scheduler.go`) -/

/-- The struct `SchedulerTask`; `Stopped` records that `StopChan` has been closed. -/
structure SchedulerTask where
  ActivityID : Int
  TenantID : String
  ReleaseRate : Int
  Stopped : Bool
  LastRelease : Int
  TotalReleased : Int
  deriving DecidableEq, Repr

/-- The struct `ReleaseScheduler`: its map `running` from activity id to task. -/
structure ReleaseScheduler where
  running : List (Int × SchedulerTask)
  deriving DecidableEq, Repr

/-- The scheduler method `getCurrentQueueSeq`. -/
def schedGetCurrentQueueSeq (env : Env) (r : Redis) (tenantID : String) (activityID : Int) :
    Except RedisError Int :=
  match redisGet env .schedGetQueueSeq r (keys.QueueSeqKey tenantID activityID) with
  | .error .Nil => .ok 0
  | .error e => .error e
  | .ok v => .ok v

/-- The scheduler method `getCurrentReleaseSeq`. -/
def getCurrentReleaseSeq (env : Env) (r : Redis) (tenantID : String) (activityID : Int) :
    Except RedisError Int :=
  match redisGet env .schedGetReleaseSeq r (keys.ReleaseSeqKey tenantID activityID) with
  | .error .Nil => .ok 0
  | .error e => .error e
  | .ok v => .ok v

/-- The scheduler method `updateReleaseSeq`: `SET` with a 24 h expiry. -/
def updateReleaseSeq (env : Env) (r : Redis) (tenantID : String) (activityID : Int)
    (newSeq : Int) : Option RedisError × Redis :=
  redisSetEx env .schedSetReleaseSeq r (keys.ReleaseSeqKey tenantID activityID) newSeq (24 * 3600)

/-- The scheduler method `isActivityStillActive`: the count query
`status = active AND start_at <= NOW() AND end_at > NOW()` on the row of the id. -/
def isActivityStillActive (env : Env) (activityID : Int) : Bool :=
  match env.db activityID with
  | .ok a => a.Status == "active" && decide (a.StartAt ≤ env.now) && decide (a.EndAt > env.now)
  | .error _ => false

/-- The scheduler method `recordReleaseEvent` (run in its own goroutine; modelled
as completing at once): push to the ring, keep 100 entries, expire in 1 h. -/
def recordReleaseEvent (env : Env) (r : Redis) (event : ReleaseEvent) : Redis :=
  let eventKey := "t:" ++ event.TenantID ++ ":a:" ++ fmtInt event.ActivityID ++ ":events:release"
  match env.redisErr .schedEvent with
  | some _ => r
  | none => (r.lpushTrim eventKey event 100).expire eventKey 3600

/-- The scheduler method `updateReleaseMetrics` (run in its own goroutine;
modelled as completing at once); the hour of day is taken in UTC. -/
def updateReleaseMetrics (env : Env) (r : Redis) (tenantID : String) (activityID : Int)
    (releaseCount : Int) : Redis :=
  match env.redisErr .schedMetrics with
  | some _ => r
  | none =>
    let totalKey := keys.MetricsKey tenantID activityID "release_total"
    let r1 := ((r.incrBy totalKey releaseCount).2).expire totalKey (24 * 3600)
    let hourKey := keys.MetricsKey tenantID activityID
      ("release_hourly_" ++ fmtInt ((unixSeconds env.now / 3600) % 24))
    ((r1.incrBy hourKey releaseCount).2).expire hourKey (2 * 3600)

/-- Go `t.Sub(u)` on nanosecond readings: the difference, saturated to the range
of `time.Duration`. -/
def timeSub (t u : Int) : Int :=
  if t - u > maxInt64 then maxInt64
  else if t - u < minInt64 then minInt64
  else t - u

/-! ## IEEE 754 binary64 arithmetic (Go `float64`)

A finite `float64` is given by the rational number it denotes. Every operation
rounds the exact result to the nearest `float64`, ties to the even significand.
The operands of the program are `int64` values and durations, so no result
reaches `2^1024` in magnitude and no operation yields an infinity or a NaN. -/

/-- The power `2^e` for an integer exponent. -/
def pow2 (e : Int) : Rat :=
  if 0 ≤ e then ((2 ^ e.toNat : Nat) : Rat) else 1 / ((2 ^ (-e).toNat : Nat) : Rat)

/-- The number of binary digits of `n`, computed with `fuel ≥ n` halvings. -/
def bitLen : Nat → Nat → Nat
  | 0, _ => 0
  | fuel + 1, n => if n = 0 then 0 else bitLen fuel (n / 2) + 1

/-- The binary exponent of a positive rational `x`: the `e` with
`2^e ≤ x < 2^(e+1)`. -/
def binExp (x : Rat) : Int :=
  let e0 : Int := (bitLen x.num.natAbs x.num.natAbs : Int) - (bitLen x.den x.den : Int)
  if pow2 e0 ≤ x then e0 else e0 - 1

/-- Rounding of a rational number to the nearest integer, ties to the even one. -/
def roundHalfEven (m : Rat) : Int :=
  if m - (⌊m⌋ : Rat) < 1 / 2 then ⌊m⌋
  else if 1 / 2 < m - (⌊m⌋ : Rat) then ⌊m⌋ + 1
  else if ⌊m⌋ % 2 = 0 then ⌊m⌋ else ⌊m⌋ + 1

/-- The `float64` nearest to a rational number: 53 significant bits, the unit in
the last place not below `2^-1074`. -/
def f64Round (x : Rat) : Rat :=
  if x = 0 then 0
  else if 0 < x then
    (roundHalfEven (x / pow2 (max (binExp x - 52) (-1074))) : Rat) *
      pow2 (max (binExp x - 52) (-1074))
  else
    -((roundHalfEven (-x / pow2 (max (binExp (-x) - 52) (-1074))) : Rat) *
      pow2 (max (binExp (-x) - 52) (-1074)))

/-- Go conversion `float64(n)` of an integer. -/
def f64OfInt (n : Int) : Rat := f64Round (n : Rat)

/-- Go `x + y` on `float64`. -/
def f64Add (x y : Rat) : Rat := f64Round (x + y)

/-- Go `x * y` on `float64`. -/
def f64Mul (x y : Rat) : Rat := f64Round (x * y)

/-- Go `x / y` on `float64`, for `y ≠ 0`. -/
def f64Div (x y : Rat) : Rat := f64Round (x / y)

/-- Go conversion `int64(x)` (and `int(x)`) of a `float64`: truncation toward
zero; for a value outside `int64` the result is implementation-specific, and is
`-2^63` on amd64, which is the value taken here. -/
def f64ToInt64 (x : Rat) : Int :=
  if minInt64 ≤ Int.tdiv x.num x.den ∧ Int.tdiv x.num x.den ≤ maxInt64 then
    Int.tdiv x.num x.den
  else minInt64

/-- Go `d.Seconds()` of a duration in nanoseconds:
`float64(d / Second) + float64(d % Second) / 1e9`. -/
def durationSeconds (d : Int) : Rat :=
  f64Add (f64OfInt (Int.tdiv d 1000000000))
    (f64Div (f64OfInt (Int.tmod d 1000000000)) 1000000000)

/-- The credit `int64(float64(rate) * elapsed.Seconds())` of `performRelease`;
`elapsed` is in nanoseconds. -/
def expectedReleases (rate : Int) (elapsed : Int) : Int :=
  f64ToInt64 (f64Mul (f64OfInt rate) (durationSeconds elapsed))

/-- The method `performRelease`: one tick of the task of an activity. -/
def performRelease (env : Env) (task : SchedulerTask) (r : Redis) :
    Except String Unit × SchedulerTask × Redis :=
  if !isActivityStillActive env task.ActivityID then
    (.ok (), { task with Stopped := true }, r)
  else
    match schedGetCurrentQueueSeq env r task.TenantID task.ActivityID with
    | .error e => (.error ("failed to get queue seq: " ++ e.msg), task, r)
    | .ok queueSeq =>
      match getCurrentReleaseSeq env r task.TenantID task.ActivityID with
      | .error e => (.error ("failed to get release seq: " ++ e.msg), task, r)
      | .ok releaseSeq =>
        let queueLength := wrap64 (queueSeq - releaseSeq)
        if queueLength ≤ 0 then (.ok (), task, r)
        else
          let timeSinceLastRelease := timeSub env.now task.LastRelease
          let expected0 := expectedReleases task.ReleaseRate timeSinceLastRelease
          let expected := if expected0 ≤ 0 then 1 else expected0
          let releaseCount := min64 expected queueLength
          if releaseCount ≤ 0 then (.ok (), task, r)
          else
            let newReleaseSeq := wrap64 (releaseSeq + releaseCount)
            match updateReleaseSeq env r task.TenantID task.ActivityID newReleaseSeq with
            | (some e, r1) => (.error ("failed to update release seq: " ++ e.msg), task, r1)
            | (none, r1) =>
              let event : ReleaseEvent :=
                { ActivityID := task.ActivityID, TenantID := task.TenantID,
                  PrevSeq := releaseSeq, NewSeq := newReleaseSeq,
                  ReleaseCount := releaseCount, Timestamp := env.now,
                  ReleaseRate := task.ReleaseRate }
              let r2 := recordReleaseEvent env r1 event
              let r3 := updateReleaseMetrics env r2 task.TenantID task.ActivityID releaseCount
              (.ok (), { task with LastRelease := env.now, TotalReleased := newReleaseSeq }, r3)

/-- The method `startActivityScheduler`: registers a task unless one is running. -/
def startActivityScheduler (env : Env) (rs : ReleaseScheduler) (r : Redis) (activityID : Int)
    (tenantID : String) (releaseRate : Int) : ReleaseScheduler :=
  match rs.running.lookup activityID with
  | some _ => rs
  | none =>
    let currentSeq := match getCurrentReleaseSeq env r tenantID activityID with
      | .ok v => v
      | .error _ => 0
    let task : SchedulerTask :=
      { ActivityID := activityID, TenantID := tenantID, ReleaseRate := releaseRate,
        Stopped := false, LastRelease := env.now, TotalReleased := currentSeq }
    { running := (activityID, task) :: rs.running }

/-- The method `ManualRelease`. -/
def ManualRelease (env : Env) (rs : ReleaseScheduler) (r : Redis) (activityID : Int)
    (count : Int) : Except String Unit × Redis :=
  match rs.running.lookup activityID with
  | none => (.error ("scheduler not running for activity " ++ fmtInt activityID), r)
  | some task =>
    match getCurrentReleaseSeq env r task.TenantID activityID with
    | .error e => (.error ("failed to get current release seq: " ++ e.msg), r)
    | .ok releaseSeq =>
      let newReleaseSeq := wrap64 (releaseSeq + count)
      match updateReleaseSeq env r task.TenantID activityID newReleaseSeq with
      | (some e, r1) => (.error ("failed to update release seq: " ++ e.msg), r1)
      | (none, r1) =>
        let event : ReleaseEvent :=
          { ActivityID := activityID, TenantID := task.TenantID,
            PrevSeq := releaseSeq, NewSeq := newReleaseSeq,
            ReleaseCount := count, Timestamp := env.now, ReleaseRate := -1 }
        (.ok (), recordReleaseEvent env r1 event)

/-! ## The system as a transition system -/

/-- The counter store together with the in-memory scheduler. -/
structure World where
  redis : Redis
  sched : ReleaseScheduler

/-- The initial world: an empty store and no running task. -/
def World.init : World := { redis := Redis.empty, sched := { running := [] } }

/-- One iteration of the loop of `runActivityScheduler` for the task registered
under `activityID`: `performRelease`, and removal of the task from the map once
its stop channel is closed (the deferred `delete`). -/
def tickActivity (env : Env) (activityID : Int) (w : World) : World :=
  match w.sched.running.lookup activityID with
  | none => w
  | some task =>
    match performRelease env task w.redis with
    | (_, task1, r1) =>
      if task1.Stopped then
        { redis := r1, sched := { running := w.sched.running.filter (fun p => p.1 != activityID) } }
      else
        { redis := r1,
          sched := { running :=
            w.sched.running.map (fun p => if p.1 == activityID then (p.1, task1) else p) } }

/-- The operations of the control plane, each with the environment it runs in. -/
inductive Op where
  | enter (env : Env) (req : EnterQueueRequest)
  | tick (env : Env) (activityID : Int)
  | manualRelease (env : Env) (activityID : Int) (count : Int)
  | startScheduler (env : Env) (activityID : Int) (tenantID : String) (releaseRate : Int)

/-- Effect of one operation on the world. -/
def Op.apply (w : World) : Op → World
  | .enter env req => { w with redis := (EnterQueue env req w.redis).2 }
  | .tick env activityID => tickActivity env activityID w
  | .manualRelease env activityID count =>
    { w with redis := (ManualRelease env w.sched w.redis activityID count).2 }
  | .startScheduler env activityID tenantID releaseRate =>
    { w with sched := startActivityScheduler env w.sched w.redis activityID tenantID releaseRate }

/-- The world after a sequence of operations. -/
def run (w : World) (ops : List Op) : World := ops.foldl Op.apply w

/-- The value of `queue_seq` of an activity: the counter, 0 when absent. -/
def queueSeqOf (r : Redis) (tenantID : String) (activityID : Int) : Int :=
  (r.ints (keys.QueueSeqKey tenantID activityID)).getD 0

/-- The value of `release_seq` of an activity: the cursor, 0 when absent. -/
def releaseSeqOf (r : Redis) (tenantID : String) (activityID : Int) : Int :=
  (r.ints (keys.ReleaseSeqKey tenantID activityID)).getD 0

/-! ## Concrete data used by the evaluated scenarios -/

deriving instance DecidableEq for Except

/-- An active activity 1 of tenant `t`: window from 0 s to 10000 s, release rate
10 per second, poll interval 2000 ms. -/
def demoActivity : Activity :=
  { ID := 1, TenantID := "t", Name := "drop", SKU := "sku", InitialStock := 100,
    StartAt := 0, EndAt := 10000000000000, Status := "active",
    Config := { ReleaseRate := 10, MaxConcurrent := 0, EnableThrottle := false,
                PollInterval := 2000 },
    CreatedAt := 0, UpdatedAt := 0 }

/-- An environment at clock reading `t` whose registry holds `demoActivity` only
and whose Redis is reachable. -/
def demoEnv (t : Int) : Env :=
  { now := t, requestID := "req",
    db := fun i => if i = 1 then .ok demoActivity else .error "sql: no rows in result set",
    redisErr := fun _ => none }

/-- An enter request of a user for activity 1, without client IP. -/
def demoReq (user : String) : EnterQueueRequest :=
  { ActivityID := 1, UserHash := user, Fingerprint := "", IPAddress := "" }

/-- Three users enter activity 1 at 1 s, then its scheduler task is started. -/
def demoQueued : World :=
  run World.init
    [.enter (demoEnv 1000000000) (demoReq "u1"),
     .enter (demoEnv 1000000000) (demoReq "u2"),
     .enter (demoEnv 1000000000) (demoReq "u3"),
     .startScheduler (demoEnv 1000000000) 1 "t" 10]

/-! ## Auxiliary notions used in the statements -/

/-- First character of a key: the key families of the schema differ in it. -/
def keyHead (k : String) : Option Char := k.data.head?

/-- The store after a run of throttle checks for one client address, one per
environment of the list. -/
def throttleAttempts (tenantID : String) (activityID : Int) (ip : String) :
    List Env → Redis → Redis
  | [], r => r
  | env :: rest, r =>
    throttleAttempts tenantID activityID ip rest
      (checkIPThrottle env r tenantID activityID ip).2

/-- The counters in a healthy store: no queue counter is negative and every
session binding holds a positive sequence number. -/
def CountersOk (r : Redis) : Prop :=
  (∀ k, keyHead k = some 'q' → 0 ≤ (r.ints k).getD 0) ∧
  (∀ k v, keyHead k = some 'u' → r.ints k = some v → 0 < v)

/-- No queue counter is smaller in `r2` than in `r1`. -/
def QueueMono (r1 r2 : Redis) : Prop :=
  ∀ k, keyHead k = some 'q' → (r1.ints k).getD 0 ≤ (r2.ints k).getD 0

/-- The stores `r1` and `r2` hold the same queue counters and session bindings. -/
def SameQU (r1 r2 : Redis) : Prop :=
  ∀ k, keyHead k = some 'q' ∨ keyHead k = some 'u' → r2.ints k = r1.ints k

/-- The world `demoQueued` after the tick of 2 s, which releases all three. -/
def demoReleased : World := run demoQueued [.tick (demoEnv 2000000000) 1]

/-- The status request of user `u1` (sequence number 1) of `demoQueued`. -/
def demoStatusReq1 : QueueStatusRequest :=
  { ActivityID := 1, Seq := 1, SessionID := "51e59c8e6354b474" }

/-- The status request of user `u2` (sequence number 2) of `demoQueued`. -/
def demoStatusReq2 : QueueStatusRequest :=
  { ActivityID := 1, Seq := 2, SessionID := "f3214e3311e58d11" }

/-- The clock readings of a log are at least `period` apart, the first one at
least `period` after `start`. -/
def spacedFrom (period : Int) : Int → List (Int × Int) → Bool
  | _, [] => true
  | start, p :: rest => decide (start + period ≤ p.1) && spacedFrom period p.1 rest

/-- The clock reading of the last tick of a log, `start` for a log without ticks. -/
def lastTickTime : Int → List (Int × Int) → Int
  | start, [] => start
  | _, p :: rest => lastTickTime p.1 rest

/-- The cursors in a healthy store, by key suffix: the release cursor of a
suffix is non-negative and at most the queue counter of the same suffix, which
is an `int64`. -/
def CursorOk (r : Redis) : Prop :=
  ∀ x : String,
    0 ≤ (r.ints ("release:seq:" ++ x)).getD 0 ∧
    (r.ints ("release:seq:" ++ x)).getD 0 ≤ (r.ints ("queue:seq:" ++ x)).getD 0 ∧
    (r.ints ("queue:seq:" ++ x)).getD 0 ≤ maxInt64

/-- Whether an operation is a manual release. -/
def Op.isManualRelease : Op → Bool
  | .manualRelease _ _ _ => true
  | _ => false

/-! ## ETA calculator (`internal/services/eta_calculator.go`)

Rates and estimated waits are computed in `float64` arithmetic, as defined above.
The confidence is kept as a rational number: the literals `0.3` to `1.0` of the
source stand for themselves, the statistics of `calculateConfidence` are taken on
the rationals from the `float64` rates, and `math.Sqrt` is a parameter of the
functions that use it. -/

/-- The struct `ETAResult`. -/
structure ETAResult where
  EstimatedWaitSeconds : Int
  EstimatedWaitTime : Int
  Confidence : Rat
  NextPollInterval : Int
  Method : String
  deriving DecidableEq, Repr

/-- The helper `min` on `int` of the calculator. -/
def minInt (a b : Int) : Int := if a < b then a else b

/-- The key of the release-event ring: `t:%s:a:%d:events:release`. -/
def releaseEventKey (tenantID : String) (activityID : Int) : String :=
  "t:" ++ tenantID ++ ":a:" ++ fmtInt activityID ++ ":events:release"

/-- The calculator method `getCurrentReleaseSeq`. -/
def etaGetCurrentReleaseSeq (env : Env) (r : Redis) (tenantID : String) (activityID : Int) :
    Except RedisError Int :=
  match redisGet env .etaGetReleaseSeq r (keys.ReleaseSeqKey tenantID activityID) with
  | .error .Nil => .ok 0
  | .error e => .error e
  | .ok v => .ok v

/-- The method `getHistoricalReleaseData`: the first 50 events of the ring that
are younger than `duration` (nanoseconds). -/
def getHistoricalReleaseData (env : Env) (r : Redis) (tenantID : String) (activityID : Int)
    (duration : Int) : Except RedisError (List ReleaseEvent) :=
  match env.redisErr .etaLRange with
  | some m => .error (.other m)
  | none =>
    let events := (r.lists (releaseEventKey tenantID activityID)).take 50
    let cutoffTime := env.now - duration
    .ok (events.filter (fun event => decide (event.Timestamp > cutoffTime)))

/-- The totals of the loop of `calculateHistoricalETA` over adjacent events:
released positions and elapsed time. -/
def historicalTotals : List ReleaseEvent → Int × Int
  | e1 :: e2 :: rest =>
    let t := historicalTotals (e2 :: rest)
    (wrap64 (e1.ReleaseCount + t.1), wrap64 (timeSub e1.Timestamp e2.Timestamp + t.2))
  | _ => (0, 0)

/-- The rates collected by the loop of `calculateConfidence`: one per adjacent
pair of events with a positive time difference. -/
def gapRates : List ReleaseEvent → List Rat
  | e1 :: e2 :: rest =>
    let duration := timeSub e1.Timestamp e2.Timestamp
    if duration > 0 then
      f64Div (f64OfInt e1.ReleaseCount) (durationSeconds duration) :: gapRates (e2 :: rest)
    else gapRates (e2 :: rest)
  | _ => []

/-- The method `calculateConfidence`. -/
def calculateConfidence (sqrt : Rat → Rat) (data : List ReleaseEvent) (avgRate : Rat) : Rat :=
  if data.length < 2 then 3 / 10
  else
    let rates := gapRates data
    if rates.length < 2 then 4 / 10
    else
      let variance := (rates.map (fun rate => (rate - avgRate) ^ 2)).sum / (rates.length : Rat)
      let stdDev := sqrt variance
      let cv := stdDev / avgRate
      let confidence := 1 / (1 + cv)
      if confidence < 3 / 10 then 3 / 10
      else if confidence > 9 / 10 then 9 / 10
      else confidence

/-- The method `calculateHistoricalETA`. -/
def calculateHistoricalETA (sqrt : Rat → Rat) (env : Env) (r : Redis) (activity : Activity)
    (position : Int) : Except String ETAResult :=
  match getHistoricalReleaseData env r activity.TenantID activity.ID (3600 * 1000000000) with
  | .error _ => .error "insufficient historical data"
  | .ok releaseData =>
    if releaseData.length < 3 then .error "insufficient historical data"
    else
      let totalReleases := (historicalTotals releaseData).1
      let totalTime := (historicalTotals releaseData).2
      if totalTime = 0 then .error "no time data available"
      else
        let avgRatePerSecond := f64Div (f64OfInt totalReleases) (durationSeconds totalTime)
        if avgRatePerSecond ≤ 0 then .error "invalid release rate"
        else
          let estimatedSeconds := f64ToInt64 (f64Div (f64OfInt position) avgRatePerSecond)
          let confidence := calculateConfidence sqrt releaseData avgRatePerSecond
          .ok { EstimatedWaitSeconds := estimatedSeconds,
                EstimatedWaitTime := env.now + wrap64 (estimatedSeconds * 1000000000),
                Confidence := confidence, NextPollInterval := 0, Method := "historical" }

/-- The method `calculateCurrentRateETA`. -/
def calculateCurrentRateETA (env : Env) (r : Redis) (activity : Activity) (position : Int) :
    Except String ETAResult :=
  match getHistoricalReleaseData env r activity.TenantID activity.ID (300 * 1000000000) with
  | .error _ => .error "insufficient recent data"
  | .ok recentData =>
    match recentData with
    | latestEvent :: prevEvent :: _ =>
      let duration := timeSub latestEvent.Timestamp prevEvent.Timestamp
      if duration ≤ 0 then .error "invalid time duration"
      else
        let currentRate := f64Div (f64OfInt latestEvent.ReleaseCount) (durationSeconds duration)
        if currentRate ≤ 0 then .error "invalid current rate"
        else
          let estimatedSeconds := f64ToInt64 (f64Div (f64OfInt position) currentRate)
          .ok { EstimatedWaitSeconds := estimatedSeconds,
                EstimatedWaitTime := env.now + wrap64 (estimatedSeconds * 1000000000),
                Confidence := 6 / 10, NextPollInterval := 0, Method := "current_rate" }
    | _ => .error "insufficient recent data"

/-- The method `calculateStaticETA`. -/
def calculateStaticETA (env : Env) (activity : Activity) (position : Int) :
    Except String ETAResult :=
  if activity.Config.ReleaseRate ≤ 0 then .error "invalid configured release rate"
  else
    let estimatedSeconds :=
      f64ToInt64 (f64Div (f64OfInt position) (f64OfInt activity.Config.ReleaseRate))
    .ok { EstimatedWaitSeconds := estimatedSeconds,
          EstimatedWaitTime := env.now + wrap64 (estimatedSeconds * 1000000000),
          Confidence := 5 / 10, NextPollInterval := 0, Method := "static" }

/-- The method `calculateBasicETA`. -/
def calculateBasicETA (env : Env) (position : Int) : ETAResult :=
  { EstimatedWaitSeconds := position,
    EstimatedWaitTime := env.now + wrap64 (position * 1000000000),
    Confidence := 3 / 10, NextPollInterval := 0, Method := "basic" }

/-- The method `calculatePollInterval`. -/
def calculatePollInterval (etaSeconds : Int) (defaultInterval : Int) : Int :=
  if etaSeconds ≤ 0 then 0
  else if etaSeconds ≤ 30 then minInt 1000 defaultInterval
  else if etaSeconds ≤ 120 then minInt 2000 defaultInterval
  else if etaSeconds ≤ 300 then minInt 5000 defaultInterval
  else if etaSeconds ≤ 600 then minInt 10000 defaultInterval
  else minInt 30000 defaultInterval

/-- The position computed by `CalculateETA`: `userSeq - releaseSeq` on `int64`. -/
def etaPosition (r : Redis) (activity : Activity) (userSeq : Int) : Int :=
  wrap64 (userSeq - releaseSeqOf r activity.TenantID activity.ID)

/-- The method `CalculateETA`; the loop over the three methods is unrolled. -/
def CalculateETA (sqrt : Rat → Rat) (env : Env) (r : Redis) (activity : Activity)
    (userSeq : Int) : Except String ETAResult :=
  match etaGetCurrentReleaseSeq env r activity.TenantID activity.ID with
  | .error e => .error ("failed to get release seq: " ++ e.msg)
  | .ok releaseSeq =>
    let position := wrap64 (userSeq - releaseSeq)
    if position ≤ 0 then
      .ok { EstimatedWaitSeconds := 0, EstimatedWaitTime := env.now, Confidence := 1,
            NextPollInterval := 0, Method := "immediate" }
    else
      match calculateHistoricalETA sqrt env r activity position with
      | .ok result =>
        .ok { result with NextPollInterval :=
          calculatePollInterval result.EstimatedWaitSeconds activity.Config.PollInterval }
      | .error _ =>
        match calculateCurrentRateETA env r activity position with
        | .ok result =>
          .ok { result with NextPollInterval :=
            calculatePollInterval result.EstimatedWaitSeconds activity.Config.PollInterval }
        | .error _ =>
          match calculateStaticETA env activity position with
          | .ok result =>
            .ok { result with NextPollInterval :=
              calculatePollInterval result.EstimatedWaitSeconds activity.Config.PollInterval }
          | .error _ => .ok (calculateBasicETA env position)

/-! ## Admin service (`internal/services/admin_service.go`) -/

/-- The struct `CreateActivityRequest`; times are Unix nanoseconds. -/
structure CreateActivityRequest where
  TenantID : String
  Name : String
  SKU : String
  InitialStock : Int
  StartAt : Int
  EndAt : Int
  Config : ActivityConfig
  deriving DecidableEq, Repr

/-- The struct `CreateActivityResponse`. -/
structure CreateActivityResponse where
  ID : Int
  CreatedAt : Int
  deriving DecidableEq, Repr

/-- The method `CreateActivity`. The table `activities` is the list of inserted
rows with the id the registry returned for each; `dbInsert` is the answer of the
registry to `INSERT ... RETURNING id, created_at` (the new id and creation time,
or an error). `EndAt.Before(StartAt)` is `EndAt < StartAt`. -/
def CreateActivity (dbInsert : CreateActivityRequest → Except String CreateActivityResponse)
    (req : CreateActivityRequest) (table : List (Int × CreateActivityRequest)) :
    Except String CreateActivityResponse × List (Int × CreateActivityRequest) :=
  if req.EndAt < req.StartAt then (.error "end_at must be after start_at", table)
  else
    let config1 : ActivityConfig :=
      if req.Config.ReleaseRate = 0 then { req.Config with ReleaseRate := 10 } else req.Config
    let config2 : ActivityConfig :=
      if config1.PollInterval = 0 then { config1 with PollInterval := 2000 } else config1
    let req1 : CreateActivityRequest := { req with Config := config2 }
    match dbInsert req1 with
    | .error e => (.error ("failed to create activity: " ++ e), table)
    | .ok resp => (.ok resp, table ++ [(resp.ID, req1)])

/-- The struct `QueueMetrics`. -/
structure QueueMetrics where
  QueueSeq : Int
  ReleaseSeq : Int
  QueueLength : Int
  ActiveUsers : Int
  deriving DecidableEq, Repr

/-- The struct `RealtimeStats`. -/
structure RealtimeStats where
  EnterTotal : Int
  EnterRate : Rat
  ReleaseRate : Rat
  LastUpdated : Int
  deriving DecidableEq, Repr

/-- The helper `parseInt64` on the value of a `GET`: the string of an integer key
is given by the integer it writes, the empty string of an absent key (or of a
failed command) by `none`. -/
def parseInt64 (s : Option Int) (defaultVal : Int) : Int :=
  match s with
  | none => defaultVal
  | some v => v

/-- The method `getQueueMetrics` of the admin service: one pipeline with two `GET`
and one `PFCOUNT`; an `Exec` error other than `redis.Nil` is returned. -/
def getQueueMetrics (env : Env) (r : Redis) (tenantID : String) (activityID : Int) :
    Except RedisError QueueMetrics :=
  match env.redisErr .adminPipeline with
  | some m => .error (.other m)
  | none =>
    let queueSeq :=
      parseInt64 (r.ints ("t:" ++ tenantID ++ ":a:" ++ fmtInt activityID ++ ":queue_seq")) 0
    let releaseSeq :=
      parseInt64 (r.ints ("t:" ++ tenantID ++ ":a:" ++ fmtInt activityID ++ ":release_seq")) 0
    let activeUsers : Int :=
      ((r.hlls ("t:" ++ tenantID ++ ":a:" ++ fmtInt activityID ++ ":active_users")).length : Int)
    .ok { QueueSeq := queueSeq, ReleaseSeq := releaseSeq,
          QueueLength := max64 0 (wrap64 (queueSeq - releaseSeq)),
          ActiveUsers := activeUsers }

/-- The method `getRealtimeStats` of the admin service. -/
def getRealtimeStats (env : Env) (r : Redis) (tenantID : String) (activityID : Int) :
    RealtimeStats :=
  let enterTotalKey := "t:" ++ tenantID ++ ":a:" ++ fmtInt activityID ++ ":metrics:enter_total"
  let val := match env.redisErr .adminGetEnterTotal with
    | some _ => none
    | none => r.ints enterTotalKey
  { EnterTotal := parseInt64 val 0, EnterRate := 0, ReleaseRate := 0, LastUpdated := env.now }

/-! ## HTTP handlers (`internal/handlers/queue_handler.go`) -/

namespace handlers

/-- The helper `containsSubstring` on the bytes of its arguments: the loop over
`i` from 0 to `len(s)-len(substr)` comparing `s[i:i+len(substr)]` with `substr`. -/
def containsSubstring (s substr : List Nat) : Bool :=
  if s.length < substr.length then false
  else (List.range (s.length - substr.length + 1)).any
    (fun i => (s.drop i).take substr.length == substr)

/-- The body of the helper `contains` on the bytes of its arguments. -/
def containsBytes (s substr : List Nat) : Bool :=
  decide (s.length ≥ substr.length) && (s == substr ||
    (decide (s.length > substr.length) &&
      (s.take substr.length == substr ||
        s.drop (s.length - substr.length) == substr ||
        containsSubstring s substr)))

/-- The helper `contains(s, substr)` on Go strings. -/
def contains (s substr : String) : Bool :=
  containsBytes (Sha256.bytesOf s) (Sha256.bytesOf substr)

/-- A value of a JSON response body (`gin.H`). -/
inductive JSONValue where
  | str (s : String)
  | bool (b : Bool)
  | enterData (d : EnterQueueResponse)
  | statusData (d : QueueStatusResponse)
  | createData (d : CreateActivityResponse)
  deriving DecidableEq, Repr

/-- The response written by `c.JSON(status, body)`. -/
structure HTTPResponse where
  status : Int
  body : List (String × JSONValue)
  deriving DecidableEq, Repr

/-- What a handler reads from its `gin.Context`: the outcome of binding the
request (`ShouldBindJSON` / `ShouldBindQuery`), the `request_id` string and the
three sources of the client address. -/
structure GinContext (α : Type) where
  bind : Except String α
  requestID : String
  forwardedFor : String
  realIP : String
  clientIP : String

/-- The helper `getClientIP`. -/
def getClientIP {α : Type} (c : GinContext α) : String :=
  if c.forwardedFor ≠ "" then c.forwardedFor
  else if c.realIP ≠ "" then c.realIP
  else c.clientIP

/-- The switch of the enter handler on the error message: status and code. -/
def enterErrorCode (msg : String) : Int × String :=
  if contains msg "activity not found" then (404, "ACTIVITY_NOT_FOUND")
  else if contains msg "activity is not active" then (409, "ACTIVITY_NOT_ACTIVE")
  else if contains msg "rate limit exceeded" then (429, "RATE_LIMIT_EXCEEDED")
  else if contains msg "user already in queue" then (409, "USER_ALREADY_IN_QUEUE")
  else (500, "INTERNAL_ERROR")

/-- The switch of the status handler on the error message: status and code. -/
def statusErrorCode (msg : String) : Int × String :=
  if contains msg "activity not found" then (404, "ACTIVITY_NOT_FOUND")
  else if contains msg "invalid sequence number" then (400, "INVALID_SEQUENCE")
  else (500, "INTERNAL_ERROR")

/-- The error body of both handlers. -/
def errorBody (code message requestID : String) : List (String × JSONValue) :=
  [("error", .str code), ("message", .str message), ("request_id", .str requestID)]

/-- The handler `EnterQueue` (`POST /queue/enter`). -/
def EnterQueue (env : Env) (c : GinContext EnterQueueRequest) (r : Redis) :
    HTTPResponse × Redis :=
  match c.bind with
  | .error e => ({ status := 400, body := errorBody "INVALID_REQUEST" e c.requestID }, r)
  | .ok req0 =>
    let req := { req0 with IPAddress := getClientIP c }
    match Fluxgate.EnterQueue env req r with
    | (.error msg, r1) =>
      ({ status := (enterErrorCode msg).1,
         body := errorBody (enterErrorCode msg).2 msg c.requestID }, r1)
    | (.ok resp, r1) =>
      ({ status := 200, body := [("success", .bool true), ("data", .enterData resp)] }, r1)

/-- The handler `GetQueueStatus` (`GET /queue/status`). -/
def GetQueueStatus (env : Env) (c : GinContext QueueStatusRequest) (r : Redis) :
    HTTPResponse :=
  match c.bind with
  | .error e => { status := 400, body := errorBody "INVALID_REQUEST" e c.requestID }
  | .ok req =>
    match Fluxgate.GetQueueStatus env req r with
    | .error msg =>
      { status := (statusErrorCode msg).1,
        body := errorBody (statusErrorCode msg).2 msg c.requestID }
    | .ok resp =>
      { status := 200, body := [("success", .bool true), ("data", .statusData resp)] }

end handlers

/-! ## Demo data and statement helpers for the ETA properties -/

/-- The world `demoQueued` after the ticks of 1.1 s and 1.2 s, each releasing one
position and logging one release event. -/
def demoTwoEvents : World :=
  run demoQueued [.tick (demoEnv 1100000000) 1, .tick (demoEnv 1200000000) 1]

/-- The activity `demoActivity` with release rate 3 per second. -/
def demoActivityRate3 : Activity :=
  { demoActivity with
    Config := { ReleaseRate := 3, MaxConcurrent := 0, EnableThrottle := false,
                PollInterval := 2000 } }

/-- The events of the ring of an activity that `getHistoricalReleaseData` keeps
for a look-back of `duration` nanoseconds. -/
def eventsYoungerThan (env : Env) (r : Redis) (tenantID : String) (activityID : Int)
    (duration : Int) : List ReleaseEvent :=
  ((r.lists (releaseEventKey tenantID activityID)).take 50).filter
    (fun event => decide (event.Timestamp > env.now - duration))

/-! ## Demo data for the handler properties -/

/-- The environment `demoEnv t` in which the Redis command of call site `call`
fails with the error text `m`. -/
def demoFaultEnv (t : Int) (call : RedisCall) (m : String) : Env :=
  { demoEnv t with redisErr := fun c => if c = call then some m else none }

/-- A well-formed enter request for activity `activityID` as the handler sees it:
no forwarding headers, peer address `10.0.0.9`. -/
def demoCtx (activityID : Int) (user : String) : handlers.GinContext EnterQueueRequest :=
  { bind := .ok { ActivityID := activityID, UserHash := user, Fingerprint := "",
                  IPAddress := "" },
    requestID := "req-1", forwardedFor := "", realIP := "", clientIP := "10.0.0.9" }

/-! ## The matcher of the handlers with the bounds checks of Go slicing -/

namespace handlers

/-- Go slice expression `s[lo:hi]` on the bytes of a string: `none` stands for the
run-time panic `slice bounds out of range`, raised unless `0 ≤ lo ≤ hi ≤ len(s)`. -/
def goSlice (s : List Nat) (lo hi : Int) : Option (List Nat) :=
  if 0 ≤ lo ∧ lo ≤ hi ∧ hi ≤ (s.length : Int) then
    some ((s.drop lo.toNat).take (hi - lo).toNat)
  else none

/-- The helper `containsSubstring` with its slice expressions checked: the loop
runs for `i = 0, ..., len(s) - len(substr)` (not at all when that bound is
negative) and returns at the first match. -/
def containsSubstringChecked (s substr : List Nat) : Option Bool :=
  (List.range ((s.length : Int) - (substr.length : Int) + 1).toNat).foldr
    (fun (i : Nat) rest =>
      match goSlice s (i : Int) ((i : Int) + (substr.length : Int)) with
      | none => none
      | some w => if w == substr then some true else rest)
    (some false)

/-- The helper `contains` with its slice expressions checked; `&&` and `||`
evaluate their right operand only when needed. -/
def containsChecked (s substr : List Nat) : Option Bool :=
  if s.length ≥ substr.length then
    if s == substr then some true
    else if s.length > substr.length then
      match goSlice s 0 (substr.length : Int) with
      | none => none
      | some a =>
        if a == substr then some true
        else
          match goSlice s ((s.length : Int) - (substr.length : Int)) (s.length : Int) with
          | none => none
          | some b => if b == substr then some true else containsSubstringChecked s substr
    else some false
  else some false

end handlers

/-! ## Decimal numerals -/

/-- The number written by a list of decimal digits. -/
def decimalValue (l : List Char) : Nat :=
  l.foldl (fun acc c => acc * 10 + (c.toNat - 48)) 0

/-- Whether a character is a lowercase hexadecimal digit. -/
def isLowerHexDigit (c : Char) : Bool := "0123456789abcdef".data.contains c

/-! ## Admin handler (`internal/handlers/admin_handler.go`) -/

namespace handlers

/-- The test of the create handler on the error message: status and code. -/
def createErrorCode (msg : String) : Int × String :=
  if contains msg "end_at must be after start_at" then (400, "INVALID_TIME_RANGE")
  else (500, "INTERNAL_ERROR")

/-- The handler `CreateActivity` (`POST /admin/activities`). -/
def CreateActivity (dbInsert : CreateActivityRequest → Except String CreateActivityResponse)
    (c : GinContext CreateActivityRequest) (table : List (Int × CreateActivityRequest)) :
    HTTPResponse × List (Int × CreateActivityRequest) :=
  match c.bind with
  | .error e => ({ status := 400, body := errorBody "INVALID_REQUEST" e c.requestID }, table)
  | .ok req =>
    match Fluxgate.CreateActivity dbInsert req table with
    | (.error msg, table1) =>
      ({ status := (createErrorCode msg).1,
         body := errorBody (createErrorCode msg).2 msg c.requestID }, table1)
    | (.ok resp, table1) =>
      ({ status := 201, body := [("success", .bool true), ("data", .createData resp)] }, table1)

end handlers

/-! ## Reconciliation of the scheduler with the registry -/

/-- One row of the query of `syncActiveActivities`: id, tenant and configuration
of an activity with `status = active AND start_at <= NOW() AND end_at > NOW()`. -/
structure ActivityRow where
  ID : Int
  TenantID : String
  Config : ActivityConfig
  deriving DecidableEq, Repr

/-- The body of the loop of `syncActiveActivities` for one scanned row: start a
task when none runs and the rate is positive; otherwise, when one runs, bring its
in-memory rate to the rate of the row. -/
def syncActivityRow (env : Env) (r : Redis) (rs : ReleaseScheduler) (row : ActivityRow) :
    ReleaseScheduler :=
  match rs.running.lookup row.ID with
  | none =>
    if row.Config.ReleaseRate > 0 then
      startActivityScheduler env rs r row.ID row.TenantID row.Config.ReleaseRate
    else rs
  | some task =>
    if task.ReleaseRate ≠ row.Config.ReleaseRate then
      { running := rs.running.map (fun p =>
          if p.1 == row.ID then (p.1, { p.2 with ReleaseRate := row.Config.ReleaseRate })
          else p) }
    else rs

/-- The rows of the query of `syncActiveActivities` that `rows.Scan` could read;
the loop skips the others. -/
def scannedRows (rows : List (Except String ActivityRow)) : List ActivityRow :=
  rows.filterMap (fun x => match x with
    | .ok row => some row
    | .error _ => none)

/-- The method `syncActiveActivities`. The argument `query` is the outcome of the
query: an error, or its rows, each with the outcome of `rows.Scan` (a row that
fails to scan is skipped). After the loop every task whose activity id was not
scanned is stopped and deleted. -/
def syncActiveActivities (env : Env) (r : Redis)
    (query : Except String (List (Except String ActivityRow))) (rs : ReleaseScheduler) :
    Except String Unit × ReleaseScheduler :=
  match query with
  | .error e => (.error e, rs)
  | .ok rows =>
    let scanned := scannedRows rows
    let rs1 := scanned.foldl (syncActivityRow env r) rs
    let activeActivities := scanned.map (fun row => row.ID)
    (.ok (), { running := rs1.running.filter (fun p => activeActivities.contains p.1) })

/-! ## Demo data for the admin and reconciliation properties -/

/-- The environment `demoEnv t` with the registry unreachable. -/
def demoDownEnv (t : Int) : Env :=
  { demoEnv t with
    db := fun _ => .error "dial tcp 127.0.0.1:5432: connect: connection refused" }

/-- The environment `demoEnv t` in which the query of the registry fails with the
error text `m`, although the registry holds `demoActivity`. -/
def demoRegistryFaultEnv (t : Int) (m : String) : Env :=
  { demoEnv t with db := fun _ => .error m }

/-- A well-formed status request as the handler sees it. -/
def demoStatusCtx (req : QueueStatusRequest) : handlers.GinContext QueueStatusRequest :=
  { bind := .ok req, requestID := "req-1", forwardedFor := "", realIP := "",
    clientIP := "10.0.0.9" }

/-- An enter request whose body lacks `user_hash`: the binding fails on the
`required` tag of the field. -/
def demoMissingUserHashCtx : handlers.GinContext EnterQueueRequest :=
  { bind := .error "field validation for UserHash failed on the required tag",
    requestID := "req-1", forwardedFor := "", realIP := "", clientIP := "10.0.0.9" }

/-- A create request of tenant `t` with the given window and the default
configuration left to the service. -/
def demoCreateReq (startAt endAt : Int) : CreateActivityRequest :=
  { TenantID := "t", Name := "drop", SKU := "sku", InitialStock := 100,
    StartAt := startAt, EndAt := endAt,
    Config := { ReleaseRate := 0, MaxConcurrent := 0, EnableThrottle := false,
                PollInterval := 0 } }

/-- A snapshot of the registry: activity 1 with rate 5, a row that fails to
scan, activity 2 with rate 0 and activity 3 with rate 7. -/
def demoRows : List (Except String ActivityRow) :=
  [.ok { ID := 1, TenantID := "t",
         Config := { ReleaseRate := 5, MaxConcurrent := 0, EnableThrottle := false,
                     PollInterval := 2000 } },
   .error "cannot scan string into ActivityConfig",
   .ok { ID := 2, TenantID := "t",
         Config := { ReleaseRate := 0, MaxConcurrent := 0, EnableThrottle := false,
                     PollInterval := 2000 } },
   .ok { ID := 3, TenantID := "t",
         Config := { ReleaseRate := 7, MaxConcurrent := 0, EnableThrottle := false,
                     PollInterval := 2000 } }]

/-- The task of activity 1 in `demoQueued`: started at 1 s with rate 10. -/
def demoTask : SchedulerTask :=
  { ActivityID := 1, TenantID := "t", ReleaseRate := 10, Stopped := false,
    LastRelease := 1000000000, TotalReleased := 0 }

/-- The task of activity 1 with release rate 100 per second, last release at 1 s. -/
def demoTaskRate100 : SchedulerTask :=
  { ActivityID := 1, TenantID := "t", ReleaseRate := 100, Stopped := false,
    LastRelease := 1000000000, TotalReleased := 0 }

/-- A store in which the queue counter of activity 1 stands at 100 and nothing
has been released. -/
def demoLongQueue : Redis := (Redis.empty.incrBy (keys.QueueSeqKey "t" 1) 100).2

/-- A registry that accepts every insert and answers id 7, created at 5 s. -/
def demoInsert : CreateActivityRequest → Except String CreateActivityResponse :=
  fun _ => .ok { ID := 7, CreatedAt := 5000000000 }

/-- A well-formed create request as the handler sees it. -/
def demoCreateCtx (req : CreateActivityRequest) : handlers.GinContext CreateActivityRequest :=
  { bind := .ok req, requestID := "req-1", forwardedFor := "", realIP := "",
    clientIP := "10.0.0.9" }

/-! # Theorems -/

/-! ## Keyed maps and key families -/

@[simp] theorem upd_same {α : Type} (f : String → α) (k : String) (v : α) :
    upd f k v k = v := by
  simp [upd]

theorem upd_other {α : Type} (f : String → α) (k k0 : String) (v : α) (h : k ≠ k0) :
    upd f k0 v k = f k := by
  simp [upd, h]

theorem keyHead_UserQueueKey (t : String) (a : Int) (s : String) :
    keyHead (keys.UserQueueKey t a s) = some 'u' := by
  simp [keyHead, keys.UserQueueKey, String.data_append]

theorem keyHead_QueueSeqKey (t : String) (a : Int) :
    keyHead (keys.QueueSeqKey t a) = some 'q' := by
  simp [keyHead, keys.QueueSeqKey, String.data_append]

theorem keyHead_ReleaseSeqKey (t : String) (a : Int) :
    keyHead (keys.ReleaseSeqKey t a) = some 'r' := by
  simp [keyHead, keys.ReleaseSeqKey, String.data_append]

theorem keyHead_IPThrottleKey (t : String) (a : Int) (h : String) :
    keyHead (keys.IPThrottleKey t a h) = some 't' := by
  simp [keyHead, keys.IPThrottleKey, String.data_append]

theorem keyHead_MetricsKey (t : String) (a : Int) (m : String) :
    keyHead (keys.MetricsKey t a m) = some 'm' := by
  simp [keyHead, keys.MetricsKey, String.data_append]

theorem ne_of_keyHead {k k0 : String} {c c0 : Char} (h : keyHead k = some c)
    (h0 : keyHead k0 = some c0) (hc : c ≠ c0) : k ≠ k0 := by
  intro e
  subst e
  rw [h] at h0
  exact hc (Option.some.inj h0)

/-! ## Redis commands: which component they touch -/

@[simp] theorem expire_ints (r : Redis) (k : String) (s : Int) :
    (r.expire k s).ints = r.ints := by
  unfold Redis.expire; split <;> rfl

@[simp] theorem expire_sets (r : Redis) (k : String) (s : Int) :
    (r.expire k s).sets = r.sets := by
  unfold Redis.expire; split <;> rfl

@[simp] theorem redisExpire_ints (env : Env) (c : RedisCall) (r : Redis) (k : String)
    (s : Int) : (redisExpire env c r k s).ints = r.ints := by
  unfold redisExpire; split <;> simp

@[simp] theorem redisExpire_sets (env : Env) (c : RedisCall) (r : Redis) (k : String)
    (s : Int) : (redisExpire env c r k s).sets = r.sets := by
  unfold redisExpire; split <;> simp

@[simp] theorem sadd_ints (r : Redis) (k m : String) : (r.sadd k m).ints = r.ints := by
  unfold Redis.sadd; split <;> rfl

@[simp] theorem pfadd_ints (r : Redis) (k m : String) : (r.pfadd k m).ints = r.ints := by
  unfold Redis.pfadd; split <;> rfl

@[simp] theorem pfadd_sets (r : Redis) (k m : String) : (r.pfadd k m).sets = r.sets := by
  unfold Redis.pfadd; split <;> rfl

@[simp] theorem lpushTrim_ints (r : Redis) (k : String) (e : ReleaseEvent) (n : Nat) :
    (r.lpushTrim k e n).ints = r.ints := rfl

theorem redisIncrBy_ok (env : Env) (c : RedisCall) (r : Redis) (k : String) (d : Int)
    (hup : env.redisErr c = none)
    (hlo : minInt64 ≤ (r.ints k).getD 0 + d) (hhi : (r.ints k).getD 0 + d ≤ maxInt64) :
    redisIncrBy env c r k d =
      (.ok ((r.ints k).getD 0 + d),
       { r with ints := upd r.ints k (some ((r.ints k).getD 0 + d)) }) := by
  simp [redisIncrBy, hup, Redis.incrBy, hlo, hhi]

/-- What `INCRBY` does to the integer at any key: the incremented key moves by
`d` or keeps its value, every other key keeps its value. -/
theorem redisIncrBy_ints (env : Env) (c : RedisCall) (r : Redis) (k0 : String) (d : Int)
    (k : String) :
    (redisIncrBy env c r k0 d).2.ints k = r.ints k ∨
    (k = k0 ∧ (redisIncrBy env c r k0 d).2.ints k = some ((r.ints k).getD 0 + d) ∧
      (redisIncrBy env c r k0 d).1 = .ok ((r.ints k).getD 0 + d)) := by
  unfold redisIncrBy
  split
  · exact Or.inl rfl
  · unfold Redis.incrBy
    simp only []
    split
    · by_cases hk : k = k0
      · subst hk
        right
        simp
      · left
        simp [upd, hk]
    · exact Or.inl rfl

/-! ## The IP throttle -/

theorem checkIPThrottle_empty (env : Env) (r : Redis) (t : String) (a : Int) :
    checkIPThrottle env r t a "" = (.ok (), r) := by
  simp [checkIPThrottle]

theorem checkIPThrottle_nonempty (env : Env) (r : Redis) (t : String) (a : Int) (ip : String)
    (hip : ip ≠ "") (hup : env.redisErr .throttleIncr = none)
    (hlo : minInt64 ≤ (r.ints (keys.IPThrottleKey t a (hashIP ip))).getD 0 + 1)
    (hhi : (r.ints (keys.IPThrottleKey t a (hashIP ip))).getD 0 < maxInt64) :
    (checkIPThrottle env r t a ip).2.ints (keys.IPThrottleKey t a (hashIP ip))
      = some ((r.ints (keys.IPThrottleKey t a (hashIP ip))).getD 0 + 1) ∧
    (∀ k, k ≠ keys.IPThrottleKey t a (hashIP ip) →
      (checkIPThrottle env r t a ip).2.ints k = r.ints k) ∧
    ((checkIPThrottle env r t a ip).1 = .error "rate limit exceeded" ↔
      (r.ints (keys.IPThrottleKey t a (hashIP ip))).getD 0 + 1 > 10) ∧
    ((checkIPThrottle env r t a ip).1 = .ok () ↔
      (r.ints (keys.IPThrottleKey t a (hashIP ip))).getD 0 + 1 ≤ 10) := by
  have hi := redisIncrBy_ok env .throttleIncr r _ 1 hup hlo (by omega)
  unfold checkIPThrottle
  rw [if_neg hip]
  simp only [hi]
  generalize keys.IPThrottleKey t a (hashIP ip) = key at *
  generalize (r.ints key).getD 0 = c at *
  by_cases h10 : c + 1 > 10
  · simp only [h10, if_true]
    refine ⟨?_, ?_, ?_, ?_⟩
    · split <;> simp
    · intro k hk
      split <;> simp [upd, hk]
    · simp
    · simp; omega
  · simp only [h10, if_false]
    refine ⟨?_, ?_, ?_, ?_⟩
    · split <;> simp
    · intro k hk
      split <;> simp [upd, hk]
    · simp
    · simp; omega

/-- The throttle counter after a run of checks that all reach Redis, started
from an absent counter, is the number of checks. -/
theorem throttleAttempts_counter (t : String) (a : Int) (ip : String) (hip : ip ≠ "")
    (envs : List Env) (hup : ∀ e ∈ envs, e.redisErr .throttleIncr = none) :
    ∀ (r : Redis), 0 ≤ (r.ints (keys.IPThrottleKey t a (hashIP ip))).getD 0 →
      (r.ints (keys.IPThrottleKey t a (hashIP ip))).getD 0 + envs.length < maxInt64 →
      ((throttleAttempts t a ip envs r).ints (keys.IPThrottleKey t a (hashIP ip))).getD 0 =
        (r.ints (keys.IPThrottleKey t a (hashIP ip))).getD 0 + envs.length := by
  induction envs with
  | nil => intro r _ _; simp [throttleAttempts]
  | cons e rest ih =>
    intro r h0 hmax
    simp only [List.length_cons, Nat.cast_add, Nat.cast_one] at hmax
    have he : e.redisErr .throttleIncr = none := hup e (List.mem_cons_self _ _)
    have hstep := (checkIPThrottle_nonempty e r t a ip hip he
      (by unfold minInt64; omega) (by omega)).1
    have hrest : ∀ e1 ∈ rest, e1.redisErr .throttleIncr = none :=
      fun e1 h1 => hup e1 (List.mem_cons_of_mem _ h1)
    have := ih hrest (checkIPThrottle e r t a ip).2
      (by rw [hstep]; simp; omega) (by rw [hstep]; simp; omega)
    simp only [throttleAttempts, this, hstep, Option.getD_some, List.length_cons,
      Nat.cast_add, Nat.cast_one]
    omega

theorem incrBy_ints_ne (r : Redis) (k0 : String) (d : Int) (k : String) (h : k ≠ k0) :
    (r.incrBy k0 d).2.ints k = r.ints k := by
  unfold Redis.incrBy
  simp only []
  split
  · simp [upd, h]
  · rfl

theorem redisIncrBy_ints_ne (env : Env) (c : RedisCall) (r : Redis) (k0 : String) (d : Int)
    (k : String) (h : k ≠ k0) : (redisIncrBy env c r k0 d).2.ints k = r.ints k := by
  unfold redisIncrBy
  split
  · rfl
  · exact incrBy_ints_ne r k0 d k h

theorem redisSetEx_ints_ne (env : Env) (c : RedisCall) (r : Redis) (k0 : String) (v s : Int)
    (k : String) (h : k ≠ k0) : (redisSetEx env c r k0 v s).2.ints k = r.ints k := by
  unfold redisSetEx
  split
  · rfl
  · simp [Redis.setEx, upd, h]

/-! ## Queue counters and session bindings along the operations -/

theorem sameQU_refl (r : Redis) : SameQU r r := fun _ _ => rfl

theorem sameQU_trans {r1 r2 r3 : Redis} (h12 : SameQU r1 r2) (h23 : SameQU r2 r3) :
    SameQU r1 r3 := fun k hk => (h23 k hk).trans (h12 k hk)

theorem sameQU_mono {r1 r2 : Redis} (h : SameQU r1 r2) : QueueMono r1 r2 := by
  intro k hk
  rw [h k (Or.inl hk)]

theorem sameQU_ok {r1 r2 : Redis} (h : SameQU r1 r2) (h1 : CountersOk r1) : CountersOk r2 := by
  refine ⟨fun k hk => ?_, fun k v hk hv => ?_⟩
  · rw [h k (Or.inl hk)]; exact h1.1 k hk
  · rw [h k (Or.inr hk)] at hv; exact h1.2 k v hk hv

theorem queueMono_refl (r : Redis) : QueueMono r r := fun _ _ => le_refl _

theorem queueMono_trans {r1 r2 r3 : Redis} (h12 : QueueMono r1 r2) (h23 : QueueMono r2 r3) :
    QueueMono r1 r3 := fun k hk => le_trans (h12 k hk) (h23 k hk)

theorem not_qu_of_head {k : String} {c : Char} (h : keyHead k = some c) (hq : c ≠ 'q')
    (hu : c ≠ 'u') (k1 : String) (h1 : keyHead k1 = some 'q' ∨ keyHead k1 = some 'u') :
    k1 ≠ k := by
  rcases h1 with h1 | h1
  · exact ne_of_keyHead h1 h (fun e => hq e.symm)
  · exact ne_of_keyHead h1 h (fun e => hu e.symm)

theorem checkIPThrottle_sameQU (env : Env) (r : Redis) (t : String) (a : Int) (ip : String) :
    SameQU r (checkIPThrottle env r t a ip).2 := by
  intro k hk
  have hne : k ≠ keys.IPThrottleKey t a (hashIP ip) :=
    not_qu_of_head (keyHead_IPThrottleKey t a (hashIP ip)) (by decide) (by decide) k hk
  unfold checkIPThrottle
  split
  · rfl
  · simp only []
    rcases hi : redisIncrBy env .throttleIncr r (keys.IPThrottleKey t a (hashIP ip)) 1
      with ⟨o, r1⟩
    have hr1 : r1.ints k = r.ints k := by
      have := redisIncrBy_ints_ne env .throttleIncr r _ 1 k hne
      rw [hi] at this
      exact this
    cases o with
    | error e => exact hr1
    | ok count =>
      simp only []
      split <;> split <;> simp [hr1]

theorem checkUserDedupe_ints (env : Env) (r : Redis) (t : String) (a : Int) (u : String) :
    (checkUserDedupe env r t a u).2.ints = r.ints := by
  unfold checkUserDedupe
  simp only []
  split
  · rfl
  · split
    · rfl
    · split <;> simp

theorem updateMetrics_sameQU (env : Env) (r : Redis) (t : String) (a : Int) (action : String) :
    SameQU r (updateMetrics env r t a action) := by
  intro k hk
  have hne : k ≠ keys.MetricsKey t a (action ++ "_total") :=
    not_qu_of_head (keyHead_MetricsKey t a _) (by decide) (by decide) k hk
  unfold updateMetrics
  simp only [redisExpire_ints]
  exact redisIncrBy_ints_ne env .metricsIncr r _ 1 k hne

theorem redisIncrBy_inv (env : Env) (c : RedisCall) (r : Redis) (k : String) (d : Int)
    (o : Except RedisError Int) (r1 : Redis) (h : redisIncrBy env c r k d = (o, r1)) :
    (∃ e, o = .error e ∧ r1 = r) ∨
    (o = .ok ((r.ints k).getD 0 + d) ∧
      r1 = { r with ints := upd r.ints k (some ((r.ints k).getD 0 + d)) } ∧
      env.redisErr c = none ∧ minInt64 ≤ (r.ints k).getD 0 + d ∧
      (r.ints k).getD 0 + d ≤ maxInt64) := by
  unfold redisIncrBy at h
  split at h
  · left
    simp only [Prod.mk.injEq] at h
    exact ⟨_, h.1.symm, h.2.symm⟩
  · rename_i hup
    unfold Redis.incrBy at h
    simp only [] at h
    split at h
    · rename_i hr
      right
      simp only [Prod.mk.injEq] at h
      exact ⟨h.1.symm, h.2.symm, hup, hr.1, hr.2⟩
    · left
      simp only [Prod.mk.injEq] at h
      exact ⟨_, h.1.symm, h.2.symm⟩

theorem assignSequenceNumber_err (env : Env) (r : Redis) (t : String) (a : Int) (sid : String)
    (e : RedisError) (r3 : Redis)
    (h : assignSequenceNumber env r t a sid = (.error e, r3)) : r3 = r := by
  unfold assignSequenceNumber at h
  simp only [] at h
  rcases hi : redisIncrBy env .assignExec r (keys.QueueSeqKey t a) 1 with ⟨o, r1⟩
  rw [hi] at h
  rcases redisIncrBy_inv env _ r _ 1 o r1 hi with ⟨e1, ho, hr⟩ | ⟨ho, _⟩
  · subst ho
    simp only [Prod.mk.injEq] at h
    rw [← h.2, hr]
  · subst ho
    simp at h

theorem assignSequenceNumber_ok (env : Env) (r : Redis) (t : String) (a : Int) (sid : String)
    (seq : Int) (r3 : Redis)
    (h : assignSequenceNumber env r t a sid = (.ok seq, r3)) :
    seq = queueSeqOf r t a + 1 ∧
    r3.ints (keys.QueueSeqKey t a) = some seq ∧
    (∀ k, k ≠ keys.QueueSeqKey t a → k ≠ keys.UserQueueKey t a sid → r3.ints k = r.ints k) ∧
    (r3.ints (keys.UserQueueKey t a sid) = some seq ∨
      r3.ints (keys.UserQueueKey t a sid) = r.ints (keys.UserQueueKey t a sid)) ∧
    (env.redisErr .assignSet = none → r3.ints (keys.UserQueueKey t a sid) = some seq) := by
  have hqu : keys.UserQueueKey t a sid ≠ keys.QueueSeqKey t a :=
    ne_of_keyHead (keyHead_UserQueueKey t a sid) (keyHead_QueueSeqKey t a) (by decide)
  unfold assignSequenceNumber at h
  simp only [] at h
  rcases hi : redisIncrBy env .assignExec r (keys.QueueSeqKey t a) 1 with ⟨o, r1⟩
  rw [hi] at h
  rcases redisIncrBy_inv env _ r _ 1 o r1 hi with ⟨e1, ho, hr⟩ | ⟨ho, hr1, _, _, _⟩
  · subst ho
    simp at h
  · subst ho
    simp only [Prod.mk.injEq, Except.ok.injEq] at h
    obtain ⟨hseq, hr3⟩ := h
    subst hseq
    have hints : r3.ints = (redisSetEx env .assignSet r1 (keys.UserQueueKey t a sid)
        ((r.ints (keys.QueueSeqKey t a)).getD 0 + 1) (4 * 3600)).2.ints := by
      rw [← hr3]
      split <;> simp
    refine ⟨rfl, ?_, ?_, ?_, ?_⟩
    · rw [hints, redisSetEx_ints_ne _ _ _ _ _ _ _ hqu.symm, hr1]
      simp
    · intro k hkq hku
      rw [hints, redisSetEx_ints_ne _ _ _ _ _ _ _ hku, hr1]
      simp [upd, hkq]
    · rw [hints]
      unfold redisSetEx
      split
      · right
        simp [hr1, upd, hqu]
      · left
        simp [Redis.setEx]
    · intro hup
      rw [hints]
      simp [redisSetEx, hup, Redis.setEx]

theorem EnterQueue_fresh_inv (env : Env) (req : EnterQueueRequest) (r : Redis) (a : Activity)
    (resp : EnterQueueResponse)
    (hdb : getActivity env req.ActivityID = .ok a)
    (hfresh : rejoinSeq env r a req = none)
    (hok : (EnterQueue env req r).1 = .ok resp) :
    ∃ r1 r2 r3,
      checkIPThrottle env r a.TenantID req.ActivityID req.IPAddress = (.ok (), r1) ∧
      checkUserDedupe env r1 a.TenantID req.ActivityID req.UserHash = (.ok (), r2) ∧
      assignSequenceNumber env r2 a.TenantID req.ActivityID
        (generateSessionID env req.UserHash req.ActivityID) = (.ok resp.Seq, r3) ∧
      (EnterQueue env req r).2 = updateMetrics env r3 a.TenantID req.ActivityID "enter" ∧
      resp.SessionID = generateSessionID env req.UserHash req.ActivityID := by
  unfold EnterQueue at hok ⊢
  simp only [hdb, hfresh] at hok ⊢
  split at hok
  · simp at hok
  · rename_i hact
    simp only [hact]
    rcases h1 : checkIPThrottle env r a.TenantID req.ActivityID req.IPAddress with ⟨o1, r1⟩
    rw [h1] at hok
    cases o1 with
    | error e => simp at hok
    | ok u1 =>
      simp only at hok ⊢
      rcases h2 : checkUserDedupe env r1 a.TenantID req.ActivityID req.UserHash with ⟨o2, r2⟩
      rw [h2] at hok
      cases o2 with
      | error e => simp at hok
      | ok u2 =>
        simp only at hok ⊢
        rcases h3 : assignSequenceNumber env r2 a.TenantID req.ActivityID
          (generateSessionID env req.UserHash req.ActivityID) with ⟨o3, r3⟩
        rw [h3] at hok
        cases o3 with
        | error e => simp at hok
        | ok seq =>
          simp only [Except.ok.injEq] at hok ⊢
          subst hok
          exact ⟨r1, r2, r3, rfl, h2, h3, by simp [h1, h2, h3], rfl⟩

theorem EnterQueue_steps (P : Redis → Redis → Prop) (hrefl : ∀ r, P r r)
    (htrans : ∀ r1 r2 r3, P r1 r2 → P r2 r3 → P r1 r3)
    (h1 : ∀ env r t a ip, P r (checkIPThrottle env r t a ip).2)
    (h2 : ∀ env r t a u, P r (checkUserDedupe env r t a u).2)
    (h3 : ∀ env r t a sid, P r (assignSequenceNumber env r t a sid).2)
    (h4 : ∀ env r t a action, P r (updateMetrics env r t a action))
    (env : Env) (req : EnterQueueRequest) (r : Redis) : P r (EnterQueue env req r).2 := by
  unfold EnterQueue
  split
  · exact hrefl r
  · rename_i a hdb
    split
    · exact hrefl r
    · simp only []
      split
      · exact hrefl r
      · rcases e1 : checkIPThrottle env r a.TenantID req.ActivityID req.IPAddress with ⟨o1, r1⟩
        have p1 : P r r1 := by
          have := h1 env r a.TenantID req.ActivityID req.IPAddress
          rw [e1] at this
          exact this
        cases o1 with
        | error e => exact p1
        | ok u1 =>
          simp only []
          rcases e2 : checkUserDedupe env r1 a.TenantID req.ActivityID req.UserHash with ⟨o2, r2⟩
          have p2 : P r1 r2 := by
            have := h2 env r1 a.TenantID req.ActivityID req.UserHash
            rw [e2] at this
            exact this
          cases o2 with
          | error e => exact htrans _ _ _ p1 p2
          | ok u2 =>
            simp only []
            rcases e3 : assignSequenceNumber env r2 a.TenantID req.ActivityID
              (generateSessionID env req.UserHash req.ActivityID) with ⟨o3, r3⟩
            have p3 : P r2 r3 := by
              have := h3 env r2 a.TenantID req.ActivityID
                (generateSessionID env req.UserHash req.ActivityID)
              rw [e3] at this
              exact this
            cases o3 with
            | error e => exact htrans _ _ _ (htrans _ _ _ p1 p2) p3
            | ok seq =>
              exact htrans _ _ _ (htrans _ _ _ (htrans _ _ _ p1 p2) p3) (h4 env r3 _ _ _)

theorem checkUserDedupe_sameQU (env : Env) (r : Redis) (t : String) (a : Int) (u : String) :
    SameQU r (checkUserDedupe env r t a u).2 := by
  intro k _
  rw [checkUserDedupe_ints]

theorem assignSequenceNumber_queueMono (env : Env) (r : Redis) (t : String) (a : Int)
    (sid : String) : QueueMono r (assignSequenceNumber env r t a sid).2 := by
  rcases h : assignSequenceNumber env r t a sid with ⟨o, r3⟩
  cases o with
  | error e =>
    rw [assignSequenceNumber_err env r t a sid e r3 h]
    exact queueMono_refl r
  | ok seq =>
    obtain ⟨hseq, hq, hother, _, _⟩ := assignSequenceNumber_ok env r t a sid seq r3 h
    intro k hk
    by_cases hkq : k = keys.QueueSeqKey t a
    · subst hkq
      simp only [hq, hseq, queueSeqOf, Option.getD_some]
      omega
    · have hku : k ≠ keys.UserQueueKey t a sid :=
        ne_of_keyHead hk (keyHead_UserQueueKey t a sid) (by decide)
      simp only [hother k hkq hku]
      exact le_refl _

theorem assignSequenceNumber_countersOk (env : Env) (r : Redis) (t : String) (a : Int)
    (sid : String) (hr : CountersOk r) : CountersOk (assignSequenceNumber env r t a sid).2 := by
  rcases h : assignSequenceNumber env r t a sid with ⟨o, r3⟩
  cases o with
  | error e =>
    rw [assignSequenceNumber_err env r t a sid e r3 h]
    exact hr
  | ok seq =>
    obtain ⟨hseq, hq, hother, hu, _⟩ := assignSequenceNumber_ok env r t a sid seq r3 h
    have hq0 : 0 ≤ queueSeqOf r t a := hr.1 _ (keyHead_QueueSeqKey t a)
    refine ⟨fun k hk => ?_, fun k v hk hv => ?_⟩
    · have := assignSequenceNumber_queueMono env r t a sid k hk
      rw [h] at this
      exact le_trans (hr.1 k hk) this
    · simp only [] at hv
      by_cases hku : k = keys.UserQueueKey t a sid
      · subst hku
        rcases hu with hu | hu
        · rw [hu] at hv
          have : seq = v := Option.some.inj hv
          omega
        · rw [hu] at hv
          exact hr.2 _ v hk hv
      · have hkq : k ≠ keys.QueueSeqKey t a :=
          ne_of_keyHead hk (keyHead_QueueSeqKey t a) (by decide)
        rw [hother k hkq hku] at hv
        exact hr.2 k v hk hv

theorem EnterQueue_queueMono (env : Env) (req : EnterQueueRequest) (r : Redis) :
    QueueMono r (EnterQueue env req r).2 :=
  EnterQueue_steps QueueMono queueMono_refl (fun _ _ _ => queueMono_trans)
    (fun env r t a ip => sameQU_mono (checkIPThrottle_sameQU env r t a ip))
    (fun env r t a u => sameQU_mono (checkUserDedupe_sameQU env r t a u))
    assignSequenceNumber_queueMono
    (fun env r t a action => sameQU_mono (updateMetrics_sameQU env r t a action))
    env req r

theorem EnterQueue_countersOk (env : Env) (req : EnterQueueRequest) (r : Redis)
    (hr : CountersOk r) : CountersOk (EnterQueue env req r).2 :=
  EnterQueue_steps (fun r1 r2 => CountersOk r1 → CountersOk r2) (fun _ h => h)
    (fun _ _ _ h12 h23 h => h23 (h12 h))
    (fun env r t a ip => sameQU_ok (checkIPThrottle_sameQU env r t a ip))
    (fun env r t a u => sameQU_ok (checkUserDedupe_sameQU env r t a u))
    assignSequenceNumber_countersOk
    (fun env r t a action => sameQU_ok (updateMetrics_sameQU env r t a action))
    env req r hr

@[simp] theorem recordReleaseEvent_ints (env : Env) (r : Redis) (event : ReleaseEvent) :
    (recordReleaseEvent env r event).ints = r.ints := by
  unfold recordReleaseEvent
  simp only []
  split <;> simp

theorem updateReleaseMetrics_sameQU (env : Env) (r : Redis) (t : String) (a : Int) (n : Int) :
    SameQU r (updateReleaseMetrics env r t a n) := by
  intro k hk
  have hne : ∀ m, k ≠ keys.MetricsKey t a m := fun m =>
    not_qu_of_head (keyHead_MetricsKey t a m) (by decide) (by decide) k hk
  unfold updateReleaseMetrics
  split
  · rfl
  · simp only [expire_ints]
    rw [incrBy_ints_ne _ _ _ _ (hne _), expire_ints, incrBy_ints_ne _ _ _ _ (hne _)]

theorem updateReleaseSeq_sameQU (env : Env) (r : Redis) (t : String) (a : Int) (v : Int) :
    SameQU r (updateReleaseSeq env r t a v).2 := by
  intro k hk
  have hne : k ≠ keys.ReleaseSeqKey t a :=
    not_qu_of_head (keyHead_ReleaseSeqKey t a) (by decide) (by decide) k hk
  unfold updateReleaseSeq
  exact redisSetEx_ints_ne _ _ _ _ _ _ _ hne

theorem updateReleaseSeq_sameQU_of_eq {env : Env} {r : Redis} {t : String} {a : Int} {v : Int}
    {o : Option RedisError} {r1 : Redis} (h : updateReleaseSeq env r t a v = (o, r1)) :
    SameQU r r1 := by
  have := updateReleaseSeq_sameQU env r t a v
  rw [h] at this
  exact this

theorem recordReleaseEvent_sameQU (env : Env) (r : Redis) (event : ReleaseEvent) :
    SameQU r (recordReleaseEvent env r event) := by
  intro k _
  simp

theorem performRelease_sameQU (env : Env) (task : SchedulerTask) (r : Redis) :
    SameQU r (performRelease env task r).2.2 := by
  unfold performRelease
  split
  · exact sameQU_refl r
  split
  · exact sameQU_refl r
  split
  · exact sameQU_refl r
  simp only []
  repeat' split
  all_goals first
    | exact sameQU_refl r
    | exact updateReleaseSeq_sameQU_of_eq (by assumption)
    | exact sameQU_trans (sameQU_trans (updateReleaseSeq_sameQU_of_eq (by assumption))
        (recordReleaseEvent_sameQU _ _ _)) (updateReleaseMetrics_sameQU _ _ _ _ _)

theorem ManualRelease_sameQU (env : Env) (rs : ReleaseScheduler) (r : Redis) (a : Int)
    (count : Int) : SameQU r (ManualRelease env rs r a count).2 := by
  unfold ManualRelease
  split
  · exact sameQU_refl r
  split
  · exact sameQU_refl r
  simp only []
  repeat' split
  all_goals first
    | exact sameQU_refl r
    | exact updateReleaseSeq_sameQU_of_eq (by assumption)
    | exact sameQU_trans (updateReleaseSeq_sameQU_of_eq (by assumption))
        (recordReleaseEvent_sameQU _ _ _)

theorem tickActivity_sameQU (env : Env) (a : Int) (w : World) :
    SameQU w.redis (tickActivity env a w).redis := by
  unfold tickActivity
  split
  · exact sameQU_refl _
  · rename_i task _
    have := performRelease_sameQU env task w.redis
    rcases hp : performRelease env task w.redis with ⟨o, task1, r1⟩
    rw [hp] at this
    simp only [] at this ⊢
    split <;> exact this

theorem apply_queueMono (w : World) (op : Op) : QueueMono w.redis (op.apply w).redis := by
  cases op with
  | enter env req => exact EnterQueue_queueMono env req w.redis
  | tick env a => exact sameQU_mono (tickActivity_sameQU env a w)
  | manualRelease env a count => exact sameQU_mono (ManualRelease_sameQU env w.sched w.redis a count)
  | startScheduler env a t rate => exact queueMono_refl _

theorem apply_countersOk (w : World) (op : Op) (h : CountersOk w.redis) :
    CountersOk (op.apply w).redis := by
  cases op with
  | enter env req => exact EnterQueue_countersOk env req w.redis h
  | tick env a => exact sameQU_ok (tickActivity_sameQU env a w) h
  | manualRelease env a count => exact sameQU_ok (ManualRelease_sameQU env w.sched w.redis a count) h
  | startScheduler env a t rate => exact h

theorem run_queueMono (ops : List Op) : ∀ (w : World), QueueMono w.redis (run w ops).redis := by
  induction ops with
  | nil => intro w; exact queueMono_refl _
  | cons op rest ih =>
    intro w
    exact queueMono_trans (apply_queueMono w op) (ih (op.apply w))

theorem run_countersOk (ops : List Op) :
    ∀ (w : World), CountersOk w.redis → CountersOk (run w ops).redis := by
  induction ops with
  | nil => intro w h; exact h
  | cons op rest ih =>
    intro w h
    exact ih (op.apply w) (apply_countersOk w op h)

theorem init_countersOk : CountersOk World.init.redis := by
  refine ⟨fun k _ => ?_, fun k v _ hv => ?_⟩
  · simp [World.init, Redis.empty]
  · simp [World.init, Redis.empty] at hv

/-- A successful enter that is not a rejoin returns the old queue counter plus
one and leaves the counter at that value. -/
theorem EnterQueue_fresh_seq (env : Env) (req : EnterQueueRequest) (r : Redis) (a : Activity)
    (resp : EnterQueueResponse)
    (hdb : getActivity env req.ActivityID = .ok a)
    (hfresh : rejoinSeq env r a req = none)
    (hok : (EnterQueue env req r).1 = .ok resp) :
    resp.Seq = queueSeqOf r a.TenantID req.ActivityID + 1 ∧
    queueSeqOf (EnterQueue env req r).2 a.TenantID req.ActivityID = resp.Seq := by
  obtain ⟨r1, r2, r3, h1, h2, h3, h4, _⟩ := EnterQueue_fresh_inv env req r a resp hdb hfresh hok
  obtain ⟨hseq, hq, _, _, _⟩ := assignSequenceNumber_ok env r2 _ _ _ _ r3 h3
  have hhead := keyHead_QueueSeqKey a.TenantID req.ActivityID
  have e1 : r1.ints (keys.QueueSeqKey a.TenantID req.ActivityID) =
      r.ints (keys.QueueSeqKey a.TenantID req.ActivityID) := by
    have := checkIPThrottle_sameQU env r a.TenantID req.ActivityID req.IPAddress _ (Or.inl hhead)
    rw [h1] at this
    exact this
  have e2 : r2.ints = r1.ints := by
    have := checkUserDedupe_ints env r1 a.TenantID req.ActivityID req.UserHash
    rw [h2] at this
    exact this
  constructor
  · rw [hseq]
    simp only [queueSeqOf, e2, e1]
  · rw [h4]
    unfold queueSeqOf
    rw [updateMetrics_sameQU env r3 a.TenantID req.ActivityID "enter" _ (Or.inl hhead), hq]
    rfl

theorem getCurrentQueueSeq_up (env : Env) (r : Redis) (t : String) (a : Int)
    (hup : env.redisErr .getCurrentQueueSeq = none) :
    getCurrentQueueSeq env r t a = .ok (queueSeqOf r t a) := by
  unfold getCurrentQueueSeq redisGet queueSeqOf
  rw [hup]
  cases r.ints (keys.QueueSeqKey t a) <;> rfl

theorem getExistingSeq_up (env : Env) (r : Redis) (t : String) (a : Int) (sid : String) (v : Int)
    (hup : env.redisErr .getExistingSeq = none)
    (hb : r.ints (keys.UserQueueKey t a sid) = some v) :
    getExistingSeq env r t a sid = .ok v := by
  unfold getExistingSeq redisGet
  rw [hup, hb]

/-- The rejoin branch of `EnterQueue`, spelled out. -/
theorem EnterQueue_rejoin (env : Env) (req : EnterQueueRequest) (r : Redis) (a : Activity)
    (v : Int) (hdb : getActivity env req.ActivityID = .ok a)
    (hactive : isActivityActive env a = true)
    (hre : rejoinSeq env r a req = some v) :
    EnterQueue env req r =
      (.ok { RequestID := env.requestID, Seq := v, EstimatedWait := calculateETA v a,
             PollingInterval := a.Config.PollInterval,
             SessionID := generateSessionID env req.UserHash req.ActivityID,
             QueueLength := match getQueueLength env r a.TenantID req.ActivityID with
               | .ok n => n
               | .error _ => 0 }, r) := by
  unfold EnterQueue
  simp only [hdb, hactive, hre]
  rfl

theorem EnterQueue_ok_active (env : Env) (req : EnterQueueRequest) (r : Redis) (a : Activity)
    (resp : EnterQueueResponse) (hdb : getActivity env req.ActivityID = .ok a)
    (hok : (EnterQueue env req r).1 = .ok resp) : isActivityActive env a = true := by
  by_contra hna
  unfold EnterQueue at hok
  simp only [hdb] at hok
  simp [hna] at hok

theorem rejoinSeq_some (env : Env) (r : Redis) (a : Activity) (req : EnterQueueRequest) (v : Int)
    (h : rejoinSeq env r a req = some v) :
    0 < v ∧ env.redisErr .getExistingSeq = none ∧
    r.ints (keys.UserQueueKey a.TenantID req.ActivityID
      (generateSessionID env req.UserHash req.ActivityID)) = some v := by
  unfold rejoinSeq getExistingSeq redisGet at h
  split at h
  · rename_i x hx
    split at hx
    · simp at hx
    · rename_i hup
      split at hx
      · rename_i v1 hv1
        simp only [Except.ok.injEq] at hx
        subst hx
        split at h
        · rename_i hpos
          simp only [Option.some.injEq] at h
          subst h
          exact ⟨hpos, hup, hv1⟩
        · simp at h
      · simp at hx
  · simp at h

theorem generateSessionID_same_hour (env1 env2 : Env) (u : String) (a : Int)
    (h : Int.tdiv (unixSeconds env2.now) 3600 = Int.tdiv (unixSeconds env1.now) 3600) :
    generateSessionID env2 u a = generateSessionID env1 u a := by
  unfold generateSessionID
  rw [h]

/-- After a successful enter whose binding write reached Redis, the binding of
the derived session holds the returned sequence number, which is positive. -/
theorem EnterQueue_ok_binding (env : Env) (req : EnterQueueRequest) (r : Redis) (a : Activity)
    (resp : EnterQueueResponse) (hr : CountersOk r)
    (hdb : getActivity env req.ActivityID = .ok a)
    (hset : env.redisErr .assignSet = none)
    (hok : (EnterQueue env req r).1 = .ok resp) :
    resp.SessionID = generateSessionID env req.UserHash req.ActivityID ∧ 0 < resp.Seq ∧
    (EnterQueue env req r).2.ints (keys.UserQueueKey a.TenantID req.ActivityID
      (generateSessionID env req.UserHash req.ActivityID)) = some resp.Seq := by
  have hact := EnterQueue_ok_active env req r a resp hdb hok
  cases hre : rejoinSeq env r a req with
  | some v =>
    obtain ⟨hpos, _, hb⟩ := rejoinSeq_some env r a req v hre
    have he := EnterQueue_rejoin env req r a v hdb hact hre
    rw [he] at hok ⊢
    simp only [Except.ok.injEq] at hok
    subst hok
    exact ⟨rfl, hpos, hb⟩
  | none =>
    obtain ⟨r1, r2, r3, h1, h2, h3, h4, hsid⟩ := EnterQueue_fresh_inv env req r a resp hdb hre hok
    obtain ⟨hseq, _⟩ := EnterQueue_fresh_seq env req r a resp hdb hre hok
    obtain ⟨_, _, _, _, hu⟩ := assignSequenceNumber_ok env r2 _ _ _ _ r3 h3
    have hq0 : 0 ≤ queueSeqOf r a.TenantID req.ActivityID := hr.1 _ (keyHead_QueueSeqKey _ _)
    refine ⟨hsid, by omega, ?_⟩
    rw [h4, updateMetrics_sameQU env r3 a.TenantID req.ActivityID "enter" _
      (Or.inr (keyHead_UserQueueKey _ _ _))]
    exact hu hset

theorem getExistingSeq_ok (env : Env) (r : Redis) (t : String) (a : Int) (sid : String) (v : Int)
    (h : getExistingSeq env r t a sid = .ok v) :
    r.ints (keys.UserQueueKey t a sid) = some v := by
  unfold getExistingSeq redisGet at h
  split at h
  · simp at h
  · split at h
    · rename_i v1 hv1
      simp only [Except.ok.injEq] at h
      rw [hv1, h]
    · simp at h

/-- A successful `GetQueueStatus`, spelled out. -/
theorem GetQueueStatus_ok_inv (env : Env) (req : QueueStatusRequest) (r : Redis) (a : Activity)
    (resp : QueueStatusResponse) (hdb : getActivity env req.ActivityID = .ok a)
    (hok : GetQueueStatus env req r = .ok resp) :
    r.ints (keys.UserQueueKey a.TenantID req.ActivityID req.SessionID) = some req.Seq ∧
    resp.Position = max64 0 (wrap64 (req.Seq - resp.ReleaseSeq)) ∧
    resp.State = (if env.now > a.EndAt then QueueState.StateExpired
      else if wrap64 (req.Seq - resp.ReleaseSeq) ≤ 0 then QueueState.StateEligible
      else QueueState.StateWaiting) ∧
    resp.NextPollMs = (if wrap64 (req.Seq - resp.ReleaseSeq) ≤ 0 then 0
      else a.Config.PollInterval) ∧
    resp.QueueLength = wrap64 (resp.QueueSeq - resp.ReleaseSeq) := by
  unfold GetQueueStatus at hok
  simp only [hdb] at hok
  split at hok
  · simp at hok
  · rename_i userSeq hseq
    split at hok
    · simp at hok
    · rename_i heq
      simp only [ne_eq, Decidable.not_not] at heq
      subst heq
      split at hok
      · simp at hok
      · simp only [Except.ok.injEq] at hok
        subst hok
        exact ⟨getExistingSeq_ok _ _ _ _ _ _ hseq, rfl, rfl, rfl, rfl⟩

theorem wrap64_of_isInt64 (x : Int) (h : isInt64 x) : wrap64 x = x := by
  unfold isInt64 minInt64 maxInt64 at h
  unfold wrap64
  omega

theorem pow2_eq (e : Int) : pow2 e = (2 : Rat) ^ e := by
  unfold pow2
  by_cases h : 0 ≤ e
  · rw [if_pos h]
    obtain ⟨k, rfl⟩ := Int.eq_ofNat_of_zero_le h
    simp
  · rw [if_neg h]
    have hk : 0 ≤ -e := by omega
    obtain ⟨k, hk2⟩ := Int.eq_ofNat_of_zero_le hk
    have he : e = -(k : Int) := by omega
    rw [hk2, he]
    simp [zpow_neg]

theorem pow2_pos (e : Int) : 0 < pow2 e := by
  rw [pow2_eq]
  exact zpow_pos (by norm_num) e

theorem pow2_add (a b : Int) : pow2 (a + b) = pow2 a * pow2 b := by
  rw [pow2_eq, pow2_eq, pow2_eq, zpow_add₀ (by norm_num)]

theorem pow2_le (a b : Int) (h : a ≤ b) : pow2 a ≤ pow2 b := by
  rw [pow2_eq, pow2_eq]
  exact zpow_le_zpow_right₀ (by norm_num) h

theorem pow2_lt_iff (a b : Int) : pow2 a < pow2 b ↔ a < b := by
  rw [pow2_eq, pow2_eq]
  exact zpow_lt_zpow_iff_right₀ (by norm_num)

theorem pow2_natCast (k : Nat) : pow2 (k : Int) = ((2 ^ k : Nat) : Rat) := by
  rw [pow2_eq]
  simp

theorem roundHalfEven_bounds (m : Rat) :
    (roundHalfEven m : Rat) ≤ m + 1 / 2 ∧ m - 1 / 2 ≤ (roundHalfEven m : Rat) := by
  have h1 : (⌊m⌋ : Rat) ≤ m := Int.floor_le m
  have h2 : m < (⌊m⌋ : Rat) + 1 := Int.lt_floor_add_one m
  unfold roundHalfEven
  split_ifs with a b c
  · constructor <;> linarith
  · push_cast
    constructor <;> linarith
  · constructor <;> linarith
  · push_cast
    constructor <;> linarith

theorem roundHalfEven_intCast (k : Int) : roundHalfEven (k : Rat) = k := by
  unfold roundHalfEven
  simp

theorem bitLen_spec : ∀ (fuel n : Nat), n ≤ fuel → 0 < n →
    2 ^ bitLen fuel n ≤ 2 * n ∧ n < 2 ^ bitLen fuel n := by
  intro fuel
  induction fuel with
  | zero => intro n h1 h2; omega
  | succ fuel ih =>
    intro n h1 h2
    unfold bitLen
    rw [if_neg (by omega)]
    by_cases h0 : n / 2 = 0
    · have hn : n = 1 := by omega
      subst hn
      have : bitLen fuel (1 / 2) = 0 := by
        cases fuel with
        | zero => rfl
        | succ f => simp [bitLen]
      rw [this]
      constructor <;> norm_num
    · obtain ⟨a, b⟩ := ih (n / 2) (by omega) (by omega)
      rw [pow_succ]
      constructor <;> omega

/-- The binary exponent brackets a positive rational. -/
theorem binExp_spec (x : Rat) (hx : 0 < x) :
    pow2 (binExp x) ≤ x ∧ x < pow2 (binExp x + 1) := by
  have hnum : 0 < x.num := Rat.num_pos.mpr hx
  have hden : 0 < x.den := x.den_pos
  obtain ⟨n, hn⟩ := Int.eq_ofNat_of_zero_le (le_of_lt hnum)
  have hn0 : 0 < n := by omega
  have hnat : x.num.natAbs = n := by omega
  obtain ⟨a1, a2⟩ := bitLen_spec n n (le_refl _) hn0
  obtain ⟨b1, b2⟩ := bitLen_spec x.den x.den (le_refl _) hden
  have hxeq : x = (n : Rat) / (x.den : Rat) := by
    have := Rat.num_div_den x
    rw [hn, Int.cast_natCast] at this
    exact this.symm
  have hdpos : (0 : Rat) < (x.den : Rat) := by exact_mod_cast hden
  -- casts of the four bounds
  have A1 : ((2 : Rat) ^ bitLen n n) ≤ 2 * (n : Rat) := by exact_mod_cast a1
  have A2 : (n : Rat) < (2 : Rat) ^ bitLen n n := by exact_mod_cast a2
  have B1 : ((2 : Rat) ^ bitLen x.den x.den) ≤ 2 * (x.den : Rat) := by exact_mod_cast b1
  have B2 : (x.den : Rat) < (2 : Rat) ^ bitLen x.den x.den := by exact_mod_cast b2
  have hA : (0 : Rat) < (2 : Rat) ^ bitLen n n := by positivity
  have hB : (0 : Rat) < (2 : Rat) ^ bitLen x.den x.den := by positivity
  -- the candidate exponent
  have hp : ∀ k : Int, pow2 ((bitLen n n : Int) - (bitLen x.den x.den : Int) + k) =
      (2 : Rat) ^ bitLen n n / (2 : Rat) ^ bitLen x.den x.den * (2 : Rat) ^ k := by
    intro k
    rw [pow2_eq, zpow_add₀ (by norm_num), zpow_sub₀ (by norm_num)]
    simp
  have up0 : (n : Rat) / (x.den : Rat) <
      (2 : Rat) ^ bitLen n n / (2 : Rat) ^ bitLen x.den x.den * (2 : Rat) ^ (1 : Int) := by
    rw [div_mul_eq_mul_div, div_lt_div_iff₀ hdpos hB]
    simp only [zpow_one]
    nlinarith
  have lo0 : (2 : Rat) ^ bitLen n n / (2 : Rat) ^ bitLen x.den x.den * (2 : Rat) ^ (-1 : Int) ≤
      (n : Rat) / (x.den : Rat) := by
    have : ((2 : Rat) ^ (-1 : Int)) = 1 / 2 := by norm_num
    rw [this, div_mul_eq_mul_div, div_le_div_iff₀ hB hdpos]
    nlinarith
  have up : x < pow2 ((bitLen n n : Int) - (bitLen x.den x.den : Int) + 1) := by
    rw [hp 1]
    exact lt_of_eq_of_lt hxeq up0
  have lo : pow2 ((bitLen n n : Int) - (bitLen x.den x.den : Int) + (-1)) ≤ x := by
    rw [hp (-1)]
    exact le_of_le_of_eq lo0 hxeq.symm
  unfold binExp
  simp only [hnat]
  split_ifs with h
  · exact ⟨h, up⟩
  · constructor
    · have : (bitLen n n : Int) - (bitLen x.den x.den : Int) - 1 =
          (bitLen n n : Int) - (bitLen x.den x.den : Int) + (-1) := by ring
      rw [this]
      exact lo
    · have : (bitLen n n : Int) - (bitLen x.den x.den : Int) - 1 + 1 =
          (bitLen n n : Int) - (bitLen x.den x.den : Int) := by ring
      rw [this]
      exact lt_of_not_le h

theorem f64Round_zero : f64Round 0 = 0 := by
  unfold f64Round
  simp

theorem f64Round_pos (x : Rat) (hx : 0 < x) :
    f64Round x = (roundHalfEven (x / pow2 (max (binExp x - 52) (-1074))) : Rat) *
      pow2 (max (binExp x - 52) (-1074)) := by
  unfold f64Round
  rw [if_neg (ne_of_gt hx), if_pos hx]

theorem binExp_ge (x : Rat) (hx : 0 < x) (e : Int) (h : pow2 e ≤ x) : e ≤ binExp x := by
  have h2 := (binExp_spec x hx).2
  have : pow2 e < pow2 (binExp x + 1) := lt_of_le_of_lt h h2
  rw [pow2_lt_iff] at this
  omega

theorem binExp_lt (x : Rat) (hx : 0 < x) (e : Int) (h : x < pow2 e) : binExp x < e := by
  have h1 := (binExp_spec x hx).1
  have : pow2 (binExp x) < pow2 e := lt_of_le_of_lt h1 h
  rw [pow2_lt_iff] at this
  exact this

/-- A positive number in the normal range is rounded with relative error at
most `2^-53`. -/
theorem f64Round_bounds (x : Rat) (hx : pow2 (-1022) ≤ x) :
    x * (1 - 1 / 9007199254740992) ≤ f64Round x ∧
    f64Round x ≤ x * (1 + 1 / 9007199254740992) := by
  have hpos : 0 < x := lt_of_lt_of_le (pow2_pos _) hx
  have he := binExp_ge x hpos (-1022) hx
  have hq : max (binExp x - 52) (-1074) = binExp x - 52 := max_eq_left (by omega)
  rw [f64Round_pos x hpos, hq]
  obtain ⟨r1, r2⟩ := roundHalfEven_bounds (x / pow2 (binExp x - 52))
  have hu : 0 < pow2 (binExp x - 52) := pow2_pos _
  have hsplit : pow2 (binExp x - 52) = pow2 (binExp x) * (1 / 4503599627370496) := by
    have : binExp x - 52 = binExp x + (-52) := by ring
    rw [this, pow2_add]
    congr 1
  have hle := (binExp_spec x hpos).1
  have hpe : 0 < pow2 (binExp x) := pow2_pos _
  generalize pow2 (binExp x - 52) = u at *
  generalize pow2 (binExp x) = b at *
  have key : x / u * u = x := div_mul_cancel₀ x (ne_of_gt hu)
  have h1 : (roundHalfEven (x / u) : Rat) * u ≤ (x / u + 1 / 2) * u :=
    mul_le_mul_of_nonneg_right r1 (le_of_lt hu)
  have h2 : (x / u - 1 / 2) * u ≤ (roundHalfEven (x / u) : Rat) * u :=
    mul_le_mul_of_nonneg_right r2 (le_of_lt hu)
  rw [add_mul, key] at h1
  rw [sub_mul, key] at h2
  constructor <;> nlinarith

theorem f64Round_nonneg (x : Rat) (hx : 0 ≤ x) : 0 ≤ f64Round x := by
  rcases eq_or_lt_of_le hx with h | h
  · rw [← h, f64Round_zero]
  · rw [f64Round_pos x h]
    apply mul_nonneg _ (le_of_lt (pow2_pos _))
    have := (roundHalfEven_bounds (x / pow2 (max (binExp x - 52) (-1074)))).2
    have hd : 0 < x / pow2 (max (binExp x - 52) (-1074)) := div_pos h (pow2_pos _)
    have h1 : (-1 : Rat) < (roundHalfEven (x / pow2 (max (binExp x - 52) (-1074))) : Rat) := by
      linarith
    have h2 : (-1 : Int) < roundHalfEven (x / pow2 (max (binExp x - 52) (-1074))) := by
      exact_mod_cast h1
    have h3 : (0 : Int) ≤ roundHalfEven (x / pow2 (max (binExp x - 52) (-1074))) := by omega
    exact_mod_cast h3

/-- Integers below `2^53` are `float64` values. -/
theorem f64OfInt_exact (n : Int) (h0 : 0 ≤ n) (h : n < 9007199254740992) :
    f64OfInt n = (n : Rat) := by
  unfold f64OfInt
  rcases eq_or_lt_of_le h0 with hz | hp
  · rw [← hz]
    simp [f64Round_zero]
  · have hx : (0 : Rat) < (n : Rat) := by exact_mod_cast hp
    have hlo : (0 : Int) ≤ binExp (n : Rat) := by
      apply binExp_ge _ hx
      rw [pow2_eq]
      simp only [zpow_zero]
      exact_mod_cast hp
    have hhi : binExp (n : Rat) < 53 := by
      apply binExp_lt _ hx
      rw [pow2_eq]
      norm_num
      exact_mod_cast h
    have hq : max (binExp (n : Rat) - 52) (-1074) = binExp (n : Rat) - 52 :=
      max_eq_left (by omega)
    rw [f64Round_pos _ hx, hq]
    obtain ⟨s, hs⟩ := Int.eq_ofNat_of_zero_le (show 0 ≤ -(binExp (n : Rat) - 52) by omega)
    have hqs : binExp (n : Rat) - 52 = -(s : Int) := by omega
    rw [hqs]
    have hu : pow2 (-(s : Int)) = 1 / ((2 ^ s : Nat) : Rat) := by
      rw [pow2_eq, zpow_neg]
      simp
    rw [hu]
    have hspos : (0 : Rat) < ((2 ^ s : Nat) : Rat) := by positivity
    have hint : (n : Rat) / (1 / ((2 ^ s : Nat) : Rat)) = ((n * (2 ^ s : Nat) : Int) : Rat) := by
      push_cast
      field_simp
    rw [hint, roundHalfEven_intCast]
    push_cast
    field_simp

/-- For operands below `2^53` the `float64` quotient, converted to an integer, is
the integer quotient. -/
theorem f64_quotient_trunc (p r : Int) (hp0 : 0 ≤ p) (hp : p < 9007199254740992)
    (hr0 : 0 < r) (hr : r < 9007199254740992) :
    f64ToInt64 (f64Div (f64OfInt p) (f64OfInt r)) = p / r := by
  rw [f64OfInt_exact p hp0 hp, f64OfInt_exact r (le_of_lt hr0) hr]
  unfold f64Div
  have hrq : (0 : Rat) < (r : Rat) := by exact_mod_cast hr0
  -- the integer quotient brackets the exact one
  have hk0 : 0 ≤ p / r := Int.ediv_nonneg hp0 (le_of_lt hr0)
  have hmod := Int.emod_add_ediv p r
  have hm0 : 0 ≤ p % r := Int.emod_nonneg p (ne_of_gt hr0)
  have hm1 : p % r < r := Int.emod_lt_of_pos p hr0
  have hkp : p / r ≤ p := by
    have : r * (p / r) ≥ 1 * (p / r) := Int.mul_le_mul_of_nonneg_right (by omega) hk0
    omega
  have target : ∀ y : Rat, ((p / r : Int) : Rat) ≤ y → y < ((p / r : Int) : Rat) + 1 →
      f64ToInt64 y = p / r := by
    intro y h1 h2
    have hy0 : 0 ≤ y := le_trans (by exact_mod_cast hk0) h1
    have hfl : ⌊y⌋ = p / r := by
      rw [Int.floor_eq_iff]
      exact ⟨h1, h2⟩
    have htd : Int.tdiv y.num y.den = p / r := by
      rw [Int.tdiv_eq_ediv (Rat.num_nonneg.mpr hy0) (by exact_mod_cast Nat.zero_le _),
        ← Rat.floor_def', ← hfl]
      rfl
    unfold f64ToInt64
    rw [htd, if_pos]
    unfold minInt64 maxInt64
    omega
  rcases eq_or_lt_of_le hp0 with hz | hpp
  · rw [← hz]
    simp only [Int.cast_zero, zero_div, f64Round_zero, Int.zero_ediv]
    have := target 0 (by simp [← hz]) (by simp [← hz])
    rw [← hz] at this
    simpa using this
  · have hx : (0 : Rat) < (p : Rat) / (r : Rat) := div_pos (by exact_mod_cast hpp) hrq
    have hxle : (p : Rat) / (r : Rat) ≤ (p : Rat) := by
      rw [div_le_iff₀ hrq]
      have h1 : (1 : Rat) ≤ (r : Rat) := by exact_mod_cast hr0
      have h2 : (0 : Rat) ≤ (p : Rat) := by exact_mod_cast hp0
      nlinarith
    have hlo : (-54 : Int) ≤ binExp ((p : Rat) / (r : Rat)) := by
      apply binExp_ge _ hx
      rw [pow2_eq, le_div_iff₀ hrq]
      have h1 : (r : Rat) < 9007199254740992 := by exact_mod_cast hr
      have h2 : (1 : Rat) ≤ (p : Rat) := by exact_mod_cast hpp
      have h3 : ((2 : Rat) ^ (-54 : Int)) = 1 / 18014398509481984 := by norm_num
      rw [h3]
      nlinarith
    have hhi : binExp ((p : Rat) / (r : Rat)) < 53 := by
      apply binExp_lt _ hx
      rw [pow2_eq]
      have h1 : (p : Rat) < 9007199254740992 := by exact_mod_cast hp
      have h3 : ((2 : Rat) ^ (53 : Int)) = 9007199254740992 := by norm_num
      rw [h3]
      linarith
    have hq : max (binExp ((p : Rat) / (r : Rat)) - 52) (-1074) =
        binExp ((p : Rat) / (r : Rat)) - 52 := max_eq_left (by omega)
    have hbe := (binExp_spec _ hx).1
    rw [f64Round_pos _ hx, hq]
    obtain ⟨s, hs⟩ := Int.eq_ofNat_of_zero_le
      (show 0 ≤ -(binExp ((p : Rat) / (r : Rat)) - 52) by omega)
    have hqs : binExp ((p : Rat) / (r : Rat)) - 52 = -(s : Int) := by omega
    have hes : binExp ((p : Rat) / (r : Rat)) = 52 + -(s : Int) := by omega
    rw [hes, pow2_add] at hbe
    rw [hqs]
    have hu : pow2 (-(s : Int)) = 1 / ((2 ^ s : Nat) : Rat) := by
      rw [pow2_eq, zpow_neg]
      simp
    have h52 : pow2 52 = 4503599627370496 := by
      rw [pow2_eq]
      norm_num
    rw [hu, h52] at hbe
    rw [hu]
    have hU : (0 : Rat) < ((2 ^ s : Nat) : Rat) := by positivity
    generalize hUdef : ((2 ^ s : Nat) : Rat) = U at *
    obtain ⟨b1, b2⟩ := roundHalfEven_bounds ((p : Rat) / (r : Rat) / (1 / U))
    have hdiv : (p : Rat) / (r : Rat) / (1 / U) = (p : Rat) / (r : Rat) * U := by
      field_simp
    rw [hdiv] at b1 b2 ⊢
    -- exact quotient between k and k + 1 - 1/r
    have hpr : (p : Rat) = (r : Rat) * ((p / r : Int) : Rat) + ((p % r : Int) : Rat) := by
      have : p = r * (p / r) + p % r := by omega
      exact_mod_cast this
    have hmq0 : (0 : Rat) ≤ ((p % r : Int) : Rat) := by exact_mod_cast hm0
    have hmq1 : ((p % r : Int) : Rat) + 1 ≤ (r : Rat) := by exact_mod_cast hm1
    have hxlo : ((p / r : Int) : Rat) ≤ (p : Rat) / (r : Rat) := by
      rw [le_div_iff₀ hrq]
      nlinarith
    have hxhi : (p : Rat) / (r : Rat) ≤ ((p / r : Int) : Rat) + 1 - 1 / (r : Rat) := by
      rw [div_le_iff₀ hrq]
      have : (((p / r : Int) : Rat) + 1 - 1 / (r : Rat)) * (r : Rat) =
          (r : Rat) * ((p / r : Int) : Rat) + (r : Rat) - 1 := by
        field_simp
        ring
      rw [this]
      linarith
    -- r * u < 2
    have hru : (r : Rat) < 2 * U := by
      have h1 : (p : Rat) < 9007199254740992 := by exact_mod_cast hp
      have h2 : 4503599627370496 * (1 / U) * (r : Rat) ≤ (p : Rat) := by
        have := mul_le_mul_of_nonneg_right hbe (le_of_lt hrq)
        rwa [div_mul_cancel₀ _ (ne_of_gt hrq)] at this
      have h3 : 4503599627370496 * (1 / U) * (r : Rat) = 4503599627370496 * (r : Rat) / U := by
        field_simp
      rw [h3, div_le_iff₀ hU] at h2
      nlinarith
    -- the rounded multiple lies between K and K' - 1
    have hKint : (((p / r) * (2 ^ s : Nat) : Int) : Rat) = ((p / r : Int) : Rat) * U := by
      push_cast
      rw [← hUdef]
      push_cast
      ring
    have hn_lo : (p / r) * (2 ^ s : Nat) ≤ roundHalfEven ((p : Rat) / (r : Rat) * U) := by
      have h1 : ((p / r : Int) : Rat) * U ≤ (p : Rat) / (r : Rat) * U :=
        mul_le_mul_of_nonneg_right hxlo (le_of_lt hU)
      have h2 : (((p / r) * (2 ^ s : Nat) : Int) : Rat) - 1 <
          (roundHalfEven ((p : Rat) / (r : Rat) * U) : Rat) := by
        rw [hKint]
        linarith
      have h3 : (p / r) * (2 ^ s : Nat) - 1 < roundHalfEven ((p : Rat) / (r : Rat) * U) := by
        exact_mod_cast h2
      omega
    have hn_hi : roundHalfEven ((p : Rat) / (r : Rat) * U) ≤
        (p / r + 1) * (2 ^ s : Nat) - 1 := by
      have h1 : (p : Rat) / (r : Rat) * U ≤ (((p / r : Int) : Rat) + 1 - 1 / (r : Rat)) * U :=
        mul_le_mul_of_nonneg_right hxhi (le_of_lt hU)
      have h4 : 1 / (r : Rat) * U > 1 / 2 := by
        rw [gt_iff_lt, div_mul_eq_mul_div, lt_div_iff₀ hrq]
        linarith
      have h2 : (roundHalfEven ((p : Rat) / (r : Rat) * U) : Rat) <
          ((((p / r) + 1) * (2 ^ s : Nat) : Int) : Rat) := by
        have : ((((p / r) + 1) * (2 ^ s : Nat) : Int) : Rat) = (((p / r : Int) : Rat) + 1) * U := by
          push_cast
          rw [← hUdef]
          push_cast
          ring
        rw [this]
        nlinarith
      have h3 : roundHalfEven ((p : Rat) / (r : Rat) * U) < (p / r + 1) * (2 ^ s : Nat) := by
        exact_mod_cast h2
      omega
    apply target
    · have h1 : (((p / r) * (2 ^ s : Nat) : Int) : Rat) ≤
          (roundHalfEven ((p : Rat) / (r : Rat) * U) : Rat) := by exact_mod_cast hn_lo
      rw [hKint] at h1
      have := mul_le_mul_of_nonneg_right h1 (le_of_lt (one_div_pos.mpr hU))
      have e : ((p / r : Int) : Rat) * U * (1 / U) = ((p / r : Int) : Rat) := by
        field_simp
      rw [e] at this
      exact this
    · have h1 : (roundHalfEven ((p : Rat) / (r : Rat) * U) : Rat) ≤
          ((((p / r) + 1) * (2 ^ s : Nat) - 1 : Int) : Rat) := by exact_mod_cast hn_hi
      have e0 : ((((p / r) + 1) * (2 ^ s : Nat) - 1 : Int) : Rat) =
          (((p / r : Int) : Rat) + 1) * U - 1 := by
        push_cast
        rw [← hUdef]
        push_cast
        ring
      rw [e0] at h1
      have := mul_le_mul_of_nonneg_right h1 (le_of_lt (one_div_pos.mpr hU))
      have e : ((((p / r : Int) : Rat) + 1) * U - 1) * (1 / U) =
          ((p / r : Int) : Rat) + 1 - 1 / U := by
        field_simp
      rw [e] at this
      have hUinv : 0 < 1 / U := one_div_pos.mpr hU
      linarith

theorem f64Round_step (x t : Rat) (ht : 1 / 18446744073709551616 ≤ t) (hx : x = 0 ∨ t ≤ x) :
    0 ≤ f64Round x ∧ f64Round x ≤ x * (1 + 1 / 9007199254740992) ∧
    x * (1 - 1 / 9007199254740992) ≤ f64Round x ∧
    (f64Round x = 0 ∨ t / 2 ≤ f64Round x) := by
  rcases hx with hx | hx
  · subst hx
    rw [f64Round_zero]
    exact ⟨le_refl _, by norm_num, by norm_num, Or.inl rfl⟩
  · have hsmall : pow2 (-1022) ≤ 1 / 18446744073709551616 := by
      have h1 : pow2 (-1022) ≤ pow2 (-64) := pow2_le _ _ (by norm_num)
      have h2 : pow2 (-64) = 1 / 18446744073709551616 := by
        rw [pow2_eq]
        norm_num
      rw [← h2]
      exact h1
    have hn : pow2 (-1022) ≤ x := le_trans hsmall (le_trans ht hx)
    obtain ⟨b1, b2⟩ := f64Round_bounds x hn
    have hx0 : 0 < x := lt_of_lt_of_le (pow2_pos _) hn
    refine ⟨?_, b2, b1, Or.inr ?_⟩ <;> nlinarith

theorem f64ToInt64_le (x : Rat) (hx : 0 ≤ x) : (f64ToInt64 x : Rat) ≤ x := by
  unfold f64ToInt64
  split
  · rw [Int.tdiv_eq_ediv (Rat.num_nonneg.mpr hx) (by exact_mod_cast Nat.zero_le _),
      ← Rat.floor_def']
    exact Int.floor_le x
  · have : ((minInt64 : Int) : Rat) ≤ 0 := by
      unfold minInt64
      norm_num
    exact le_trans this hx

theorem f64ToInt64_gt (x : Rat) (hx : 0 ≤ x) (hx2 : x < 9223372036854775808) :
    x < (f64ToInt64 x : Rat) + 1 := by
  have hfl : Int.tdiv x.num x.den = ⌊x⌋ := by
    rw [Int.tdiv_eq_ediv (Rat.num_nonneg.mpr hx) (by exact_mod_cast Nat.zero_le _),
      ← Rat.floor_def']
    rfl
  have h0 : 0 ≤ ⌊x⌋ := Int.floor_nonneg.mpr hx
  have h1 : ⌊x⌋ < 9223372036854775808 := by
    rw [Int.floor_lt]
    exact_mod_cast hx2
  unfold f64ToInt64
  rw [hfl, if_pos (by unfold minInt64 maxInt64; omega)]
  exact Int.lt_floor_add_one x

theorem intCast_zero_or_one_le (n : Int) (h : 0 ≤ n) :
    (n : Rat) = 0 ∨ (1 : Rat) ≤ (n : Rat) := by
  rcases eq_or_lt_of_le h with h0 | h1
  · left
    rw [← h0]
    simp
  · right
    exact_mod_cast h1

/-- The `float64` product `float64(rate) * elapsed.Seconds()` of a tick lies within
the relative error `2^-50` of rate times elapsed time: it is the result of five
roundings, each of relative error at most `2^-53`. -/
theorem creditProduct_bounds (rate d : Int) (hr : 0 < rate) (hd : 0 ≤ d) :
    0 ≤ f64Mul (f64OfInt rate) (durationSeconds d) ∧
    f64Mul (f64OfInt rate) (durationSeconds d) ≤
      (rate : Rat) * (d : Rat) / 1000000000 * (1125899906842625 / 1125899906842624) ∧
    (rate : Rat) * (d : Rat) / 1000000000 * (1125899906842623 / 1125899906842624) ≤
      f64Mul (f64OfInt rate) (durationSeconds d) := by
  have hsec0 : 0 ≤ Int.tdiv d 1000000000 := Int.tdiv_nonneg hd (by norm_num)
  have hns0 : 0 ≤ Int.tmod d 1000000000 := Int.tmod_nonneg _ hd
  have hdecomp := Int.tdiv_add_tmod d 1000000000
  generalize hsec : Int.tdiv d 1000000000 = sec at *
  generalize hns : Int.tmod d 1000000000 = ns at *
  unfold durationSeconds f64Mul f64Add f64Div f64OfInt
  rw [hsec, hns]
  have h64 : (1 : Rat) / 18446744073709551616 ≤ 1 := by norm_num
  have hrq1 : (1 : Rat) ≤ (rate : Rat) := by exact_mod_cast hr
  obtain ⟨a0, a1, a3, a2⟩ :=
    f64Round_step (sec : Rat) 1 h64 (intCast_zero_or_one_le sec hsec0)
  obtain ⟨b0, b1, b3, b2⟩ :=
    f64Round_step (ns : Rat) 1 h64 (intCast_zero_or_one_le ns hns0)
  obtain ⟨r0, r1, r3, _⟩ := f64Round_step (rate : Rat) 1 h64 (Or.inr hrq1)
  have r2 : (1 : Rat) / 2 ≤ f64Round (rate : Rat) := by nlinarith
  generalize f64Round (sec : Rat) = a at *
  generalize f64Round (ns : Rat) = b at *
  generalize f64Round (rate : Rat) = R at *
  have hc : b / 1000000000 = 0 ∨ (1 : Rat) / 2000000000 ≤ b / 1000000000 := by
    rcases b2 with h | h
    · left
      rw [h]
      simp
    · right
      rw [le_div_iff₀ (by norm_num)]
      linarith
  obtain ⟨c0, c1, c3, c2⟩ :=
    f64Round_step (b / 1000000000) (1 / 2000000000) (by norm_num) hc
  generalize f64Round (b / 1000000000) = c at *
  have hs : a + c = 0 ∨ (1 : Rat) / 4000000000 ≤ a + c := by
    rcases a2 with ha | ha <;> rcases c2 with hc2 | hc2
    · left
      rw [ha, hc2]
      simp
    · right
      linarith
    · right
      linarith
    · right
      linarith
  obtain ⟨s0, s1, s3, s2⟩ := f64Round_step (a + c) (1 / 4000000000) (by norm_num) hs
  generalize f64Round (a + c) = S at *
  have hp : R * S = 0 ∨ (1 : Rat) / 16000000000 ≤ R * S := by
    rcases s2 with h | h
    · left
      rw [h]
      simp
    · right
      norm_num at h
      nlinarith
  obtain ⟨p0, p1, p3, _⟩ := f64Round_step (R * S) (1 / 16000000000) (by norm_num) hp
  generalize f64Round (R * S) = P at *
  have hsecq : (0 : Rat) ≤ (sec : Rat) := by exact_mod_cast hsec0
  have hnsq : (0 : Rat) ≤ (ns : Rat) := by exact_mod_cast hns0
  have hrq : (0 : Rat) < (rate : Rat) := by exact_mod_cast hr
  have hdq0 : (0 : Rat) ≤ (d : Rat) := by exact_mod_cast hd
  have hdq : (d : Rat) = 1000000000 * (sec : Rat) + (ns : Rat) := by
    exact_mod_cast hdecomp.symm
  have hbase : (0 : Rat) ≤ (rate : Rat) * (d : Rat) / 1000000000 :=
    div_nonneg (mul_nonneg (le_of_lt hrq) hdq0) (by norm_num)
  refine ⟨p0, ?_, ?_⟩
  · -- upper bound
    have hE1 : (1 : Rat) ≤ 1 + 1 / 9007199254740992 := by norm_num
    have e5 : (1 + 1 / 9007199254740992 : Rat) * (1 + 1 / 9007199254740992) *
        (1 + 1 / 9007199254740992) * (1 + 1 / 9007199254740992) *
        (1 + 1 / 9007199254740992) ≤ 1125899906842625 / 1125899906842624 := by norm_num
    generalize (1 : Rat) + 1 / 9007199254740992 = E at *
    have hE0 : (0 : Rat) ≤ E := by linarith
    have e1 : c ≤ (ns : Rat) * E * E / 1000000000 := by
      have : b / 1000000000 ≤ (ns : Rat) * E / 1000000000 :=
        div_le_div_of_nonneg_right b1 (by norm_num)
      calc c ≤ b / 1000000000 * E := c1
        _ ≤ (ns : Rat) * E / 1000000000 * E := mul_le_mul_of_nonneg_right this hE0
        _ = (ns : Rat) * E * E / 1000000000 := by ring
    have e2 : a ≤ (sec : Rat) * E * E := by
      have : (sec : Rat) * E * 1 ≤ (sec : Rat) * E * E :=
        mul_le_mul_of_nonneg_left hE1 (mul_nonneg hsecq hE0)
      linarith
    have e3 : S ≤ (d : Rat) / 1000000000 * (E * E * E) := by
      calc S ≤ (a + c) * E := s1
        _ ≤ ((sec : Rat) * E * E + (ns : Rat) * E * E / 1000000000) * E :=
          mul_le_mul_of_nonneg_right (add_le_add e2 e1) hE0
        _ = (d : Rat) / 1000000000 * (E * E * E) := by
          rw [hdq]
          ring
    have e4 : P ≤ (rate : Rat) * (d : Rat) / 1000000000 * (E * E * E * E * E) := by
      calc P ≤ R * S * E := p1
        _ ≤ ((rate : Rat) * E) * ((d : Rat) / 1000000000 * (E * E * E)) * E := by
          apply mul_le_mul_of_nonneg_right _ hE0
          exact mul_le_mul r1 e3 s0 (mul_nonneg (le_of_lt hrq) hE0)
        _ = (rate : Rat) * (d : Rat) / 1000000000 * (E * E * E * E * E) := by ring
    exact le_trans e4 (mul_le_mul_of_nonneg_left e5 hbase)
  · -- lower bound
    have hF1 : (1 - 1 / 9007199254740992 : Rat) ≤ 1 := by norm_num
    have hF0 : (0 : Rat) ≤ 1 - 1 / 9007199254740992 := by norm_num
    have f5 : (1125899906842623 / 1125899906842624 : Rat) ≤
        (1 - 1 / 9007199254740992 : Rat) * (1 - 1 / 9007199254740992) *
        (1 - 1 / 9007199254740992) * (1 - 1 / 9007199254740992) *
        (1 - 1 / 9007199254740992) := by norm_num
    generalize (1 : Rat) - 1 / 9007199254740992 = F at *
    have e1 : (ns : Rat) * F * F / 1000000000 ≤ c := by
      have : (ns : Rat) * F / 1000000000 ≤ b / 1000000000 :=
        div_le_div_of_nonneg_right b3 (by norm_num)
      calc (ns : Rat) * F * F / 1000000000 = (ns : Rat) * F / 1000000000 * F := by ring
        _ ≤ b / 1000000000 * F := mul_le_mul_of_nonneg_right this hF0
        _ ≤ c := c3
    have e2 : (sec : Rat) * F * F ≤ a := by
      have : (sec : Rat) * F * F ≤ (sec : Rat) * F * 1 :=
        mul_le_mul_of_nonneg_left hF1 (mul_nonneg hsecq hF0)
      linarith
    have e3 : (d : Rat) / 1000000000 * (F * F * F) ≤ S := by
      calc (d : Rat) / 1000000000 * (F * F * F) =
          ((sec : Rat) * F * F + (ns : Rat) * F * F / 1000000000) * F := by
            rw [hdq]
            ring
        _ ≤ (a + c) * F := mul_le_mul_of_nonneg_right (add_le_add e2 e1) hF0
        _ ≤ S := s3
    have hS0 : (0 : Rat) ≤ (d : Rat) / 1000000000 * (F * F * F) :=
      mul_nonneg (div_nonneg hdq0 (by norm_num)) (mul_nonneg (mul_nonneg hF0 hF0) hF0)
    have e4 : (rate : Rat) * (d : Rat) / 1000000000 * (F * F * F * F * F) ≤ P := by
      calc (rate : Rat) * (d : Rat) / 1000000000 * (F * F * F * F * F) =
          ((rate : Rat) * F) * ((d : Rat) / 1000000000 * (F * F * F)) * F := by ring
        _ ≤ R * S * F := by
          apply mul_le_mul_of_nonneg_right _ hF0
          exact mul_le_mul r3 e3 hS0 r0
        _ ≤ P := p3
    exact le_trans (mul_le_mul_of_nonneg_left f5 hbase) e4

/-- The credit of a tick is at most rate times elapsed time, up to the relative
error `2^-50` of its roundings (`1125899906842624 = 2^50`). -/
theorem expectedReleases_mul_le (rate d : Int) (hr : 0 < rate) (hd : 0 ≤ d) :
    expectedReleases rate d * (1000000000 * 1125899906842624) ≤
      rate * d * 1125899906842625 := by
  obtain ⟨p0, p1, _⟩ := creditProduct_bounds rate d hr hd
  unfold expectedReleases
  have hfin := f64ToInt64_le _ p0
  generalize f64ToInt64 (f64Mul (f64OfInt rate) (durationSeconds d)) = out at *
  generalize f64Mul (f64OfInt rate) (durationSeconds d) = P at *
  have e6 := le_trans hfin p1
  have e7 : (out : Rat) * (1000000000 * 1125899906842624) ≤
      (rate : Rat) * (d : Rat) * 1125899906842625 := by
    have := mul_le_mul_of_nonneg_right e6
      (show (0 : Rat) ≤ 1000000000 * 1125899906842624 by norm_num)
    calc (out : Rat) * (1000000000 * 1125899906842624) ≤ _ := this
      _ = (rate : Rat) * (d : Rat) * 1125899906842625 := by ring
  exact_mod_cast e7

/-- The credit of a tick, when the product stays inside `int64`, is more than rate
times elapsed time, reduced by the relative error `2^-50`, minus one. -/
theorem expectedReleases_mul_gt (rate d : Int) (hr : 0 < rate) (hd : 0 ≤ d)
    (hfit : rate * d * 1125899906842625 <
      9223372036854775808 * (1000000000 * 1125899906842624)) :
    rate * d * 1125899906842623 <
      (expectedReleases rate d + 1) * (1000000000 * 1125899906842624) := by
  obtain ⟨p0, p1, p3⟩ := creditProduct_bounds rate d hr hd
  unfold expectedReleases
  have hfitq : (rate : Rat) * (d : Rat) * 1125899906842625 <
      9223372036854775808 * (1000000000 * 1125899906842624) := by exact_mod_cast hfit
  have hP : f64Mul (f64OfInt rate) (durationSeconds d) < 9223372036854775808 := by
    refine lt_of_le_of_lt p1 ?_
    rw [div_mul_div_comm, div_lt_iff₀ (by norm_num)]
    linarith
  have hfin := f64ToInt64_gt _ p0 hP
  generalize f64ToInt64 (f64Mul (f64OfInt rate) (durationSeconds d)) = out at *
  generalize f64Mul (f64OfInt rate) (durationSeconds d) = P at *
  have e6 := lt_of_le_of_lt p3 hfin
  have e7 : (rate : Rat) * (d : Rat) * 1125899906842623 <
      ((out : Rat) + 1) * (1000000000 * 1125899906842624) := by
    have := mul_lt_mul_of_pos_right e6
      (show (0 : Rat) < 1000000000 * 1125899906842624 by norm_num)
    calc (rate : Rat) * (d : Rat) * 1125899906842623 =
        (rate : Rat) * (d : Rat) / 1000000000 * (1125899906842623 / 1125899906842624) *
          (1000000000 * 1125899906842624) := by ring
      _ < _ := this
  exact_mod_cast e7

/-- Values of the `float64` model at inputs where rounding shows: the credit of
rate 100 over 0.29 s is 28, the credit of rate `10^9 + 1` over `10^9 - 1` ns is
`10^9` (above the exact product), a product outside `int64` converts to `-2^63`,
the quotient of `2^53 + 3` by 3 converts to `3002399751580332`, and 10 positions
at one release per 2.3 s give 22 s. -/
theorem float64_model_values :
    expectedReleases 100 290000000 = 28 ∧
    expectedReleases 1000000001 999999999 = 1000000000 ∧
    expectedReleases 4611686018427387904 4000000000 = minInt64 ∧
    expectedReleases 10 1000000000 = 10 ∧
    f64ToInt64 (f64Div (f64OfInt 9007199254740995) (f64OfInt 3)) = 3002399751580332 ∧
    f64ToInt64 (f64Div (f64OfInt 10) (f64Div (f64OfInt 1) (durationSeconds 2300000000))) =
      22 := by
  decide!

theorem f64ToInt64_zero (y : Rat) (h0 : 0 ≤ y) (h1 : y < 1) : f64ToInt64 y = 0 := by
  have hfl : ⌊y⌋ = 0 := by
    rw [Int.floor_eq_iff]
    constructor
    · simpa using h0
    · simpa using h1
  have htd : Int.tdiv y.num y.den = 0 := by
    rw [Int.tdiv_eq_ediv (Rat.num_nonneg.mpr h0) (by exact_mod_cast Nat.zero_le _),
      ← Rat.floor_def', ← hfl]
    rfl
  unfold f64ToInt64
  rw [htd, if_pos]
  unfold minInt64 maxInt64
  omega

/-- An integer at or above `2^53` converts to a `float64` at or above `2^53`. -/
theorem f64OfInt_big (r : Int) (hr : 9007199254740992 ≤ r) :
    (9007199254740992 : Rat) ≤ f64OfInt r := by
  unfold f64OfInt
  have hx53 : pow2 53 ≤ (r : Rat) := by
    rw [pow2_eq]
    have : ((2 : Rat) ^ (53 : Int)) = 9007199254740992 := by norm_num
    rw [this]
    exact_mod_cast hr
  have hx : (0 : Rat) < (r : Rat) := lt_of_lt_of_le (pow2_pos _) hx53
  have he := binExp_ge _ hx 53 hx53
  have hq : max (binExp (r : Rat) - 52) (-1074) = binExp (r : Rat) - 52 :=
    max_eq_left (by omega)
  rw [f64Round_pos _ hx, hq]
  have hbe := (binExp_spec _ hx).1
  have hsplit : pow2 (binExp (r : Rat)) = pow2 (binExp (r : Rat) - 52) * pow2 52 := by
    rw [← pow2_add]
    congr 1
    ring
  have h52 : pow2 52 = 4503599627370496 := by
    rw [pow2_eq]
    norm_num
  have hmono : pow2 53 ≤ pow2 (binExp (r : Rat)) := pow2_le _ _ he
  have h53 : pow2 53 = 9007199254740992 := by
    rw [pow2_eq]
    norm_num
  rw [hsplit, h52] at hbe hmono
  rw [h53] at hmono
  have hu : 0 < pow2 (binExp (r : Rat) - 52) := pow2_pos _
  generalize pow2 (binExp (r : Rat) - 52) = u at *
  obtain ⟨_, b2⟩ := roundHalfEven_bounds ((r : Rat) / u)
  have hdiv : (4503599627370496 : Rat) ≤ (r : Rat) / u := by
    rw [le_div_iff₀ hu]
    linarith
  have hn : (4503599627370496 : Int) ≤ roundHalfEven ((r : Rat) / u) := by
    have h1 : ((4503599627370496 - 1 : Int) : Rat) < (roundHalfEven ((r : Rat) / u) : Rat) := by
      push_cast
      linarith
    have h2 : (4503599627370496 - 1 : Int) < roundHalfEven ((r : Rat) / u) := by
      exact_mod_cast h1
    omega
  have hnq : (4503599627370496 : Rat) ≤ (roundHalfEven ((r : Rat) / u) : Rat) := by
    exact_mod_cast hn
  calc (9007199254740992 : Rat) ≤ u * 4503599627370496 := hmono
    _ = 4503599627370496 * u := by ring
    _ ≤ (roundHalfEven ((r : Rat) / u) : Rat) * u :=
      mul_le_mul_of_nonneg_right hnq (le_of_lt hu)

/-- A quotient at most `1 - 2^-53` rounds to a `float64` below 1. -/
theorem f64Round_lt_one (q : Rat) (h0 : 0 ≤ q)
    (h1 : q ≤ 9007199254740991 / 9007199254740992) : f64Round q < 1 := by
  rcases eq_or_lt_of_le h0 with hz | hpos
  · rw [← hz, f64Round_zero]
    norm_num
  · have he : binExp q < 0 := by
      apply binExp_lt _ hpos
      rw [pow2_eq]
      simp only [zpow_zero]
      linarith [show (9007199254740991 / 9007199254740992 : Rat) < 1 by norm_num]
    rw [f64Round_pos _ hpos]
    have hk : max (binExp q - 52) (-1074) ≤ -53 := max_le (by omega) (by norm_num)
    generalize max (binExp q - 52) (-1074) = k at *
    obtain ⟨j, hj⟩ := Int.eq_ofNat_of_zero_le (show 0 ≤ -53 - k by omega)
    have hkj : k = -53 + -(j : Int) := by omega
    have hu : pow2 k = 1 / 9007199254740992 * (1 / ((2 ^ j : Nat) : Rat)) := by
      rw [hkj, pow2_add]
      congr 1
      rw [pow2_eq, zpow_neg]
      simp
    rw [hu]
    have hJ : (0 : Rat) < ((2 ^ j : Nat) : Rat) := by positivity
    generalize hJdef : ((2 ^ j : Nat) : Rat) = J at *
    have hdiv : q / (1 / 9007199254740992 * (1 / J)) = q * (9007199254740992 * J) := by
      field_simp
    rw [hdiv]
    obtain ⟨b1, _⟩ := roundHalfEven_bounds (q * (9007199254740992 * J))
    have hM : q * (9007199254740992 * J) ≤ 9007199254740991 * J := by
      have := mul_le_mul_of_nonneg_right h1 (le_of_lt (show (0 : Rat) < 9007199254740992 * J by
        positivity))
      calc q * (9007199254740992 * J) ≤
          9007199254740991 / 9007199254740992 * (9007199254740992 * J) := this
        _ = 9007199254740991 * J := by ring
    have hMint : ((9007199254740991 * (2 ^ j : Nat) : Int) : Rat) = 9007199254740991 * J := by
      push_cast
      rw [← hJdef]
      push_cast
      ring
    have hn : roundHalfEven (q * (9007199254740992 * J)) ≤ 9007199254740991 * (2 ^ j : Nat) := by
      have h2 : (roundHalfEven (q * (9007199254740992 * J)) : Rat) <
          ((9007199254740991 * (2 ^ j : Nat) + 1 : Int) : Rat) := by
        push_cast at hMint ⊢
        rw [hMint]
        linarith
      have h3 : roundHalfEven (q * (9007199254740992 * J)) <
          9007199254740991 * (2 ^ j : Nat) + 1 := by exact_mod_cast h2
      omega
    have hnq : (roundHalfEven (q * (9007199254740992 * J)) : Rat) ≤ 9007199254740991 * J := by
      rw [← hMint]
      exact_mod_cast hn
    have hpos2 : (0 : Rat) ≤ 1 / 9007199254740992 * (1 / J) := by positivity
    calc (roundHalfEven (q * (9007199254740992 * J)) : Rat) * (1 / 9007199254740992 * (1 / J))
        ≤ 9007199254740991 * J * (1 / 9007199254740992 * (1 / J)) :=
          mul_le_mul_of_nonneg_right hnq hpos2
      _ = 9007199254740991 / 9007199254740992 := by
          field_simp
          ring
      _ < 1 := by norm_num

/-- For a position below `2^53` and any positive rate the `float64` quotient,
converted to an integer, is the integer quotient. -/
theorem f64_quotient_pos_rate (p r : Int) (hp0 : 0 ≤ p) (hp : p < 9007199254740992)
    (hr0 : 0 < r) : f64ToInt64 (f64Div (f64OfInt p) (f64OfInt r)) = p / r := by
  by_cases hr : r < 9007199254740992
  · exact f64_quotient_trunc p r hp0 hp hr0 hr
  · have hbig := f64OfInt_big r (by omega)
    rw [Int.ediv_eq_zero_of_lt hp0 (by omega), f64OfInt_exact p hp0 hp]
    unfold f64Div
    have hpq0 : (0 : Rat) ≤ (p : Rat) := by exact_mod_cast hp0
    have hpq : (p : Rat) ≤ 9007199254740991 := by
      have : p ≤ 9007199254740991 := by omega
      exact_mod_cast this
    generalize f64OfInt r = R at *
    have hR : (0 : Rat) < R := by linarith
    have hq0 : 0 ≤ (p : Rat) / R := div_nonneg hpq0 (le_of_lt hR)
    have hq1 : (p : Rat) / R ≤ 9007199254740991 / 9007199254740992 := by
      rw [div_le_div_iff₀ hR (by norm_num)]
      nlinarith
    exact f64ToInt64_zero _ (f64Round_nonneg _ hq0) (f64Round_lt_one _ hq0 hq1)

theorem schedGetCurrentQueueSeq_ok (env : Env) (r : Redis) (t : String) (a : Int) (v : Int)
    (h : schedGetCurrentQueueSeq env r t a = .ok v) : v = queueSeqOf r t a := by
  unfold schedGetCurrentQueueSeq redisGet at h
  unfold queueSeqOf
  cases hup : env.redisErr .schedGetQueueSeq with
  | some m => simp [hup] at h
  | none =>
    cases hv : r.ints (keys.QueueSeqKey t a) with
    | none => simp [hup, hv] at h; simp [h]
    | some v1 => simp [hup, hv] at h; simp [h]

theorem getCurrentReleaseSeq_ok (env : Env) (r : Redis) (t : String) (a : Int) (v : Int)
    (h : getCurrentReleaseSeq env r t a = .ok v) : v = releaseSeqOf r t a := by
  unfold getCurrentReleaseSeq redisGet at h
  unfold releaseSeqOf
  cases hup : env.redisErr .schedGetReleaseSeq with
  | some m => simp [hup] at h
  | none =>
    cases hv : r.ints (keys.ReleaseSeqKey t a) with
    | none => simp [hup, hv] at h; simp [h]
    | some v1 => simp [hup, hv] at h; simp [h]

theorem updateReleaseSeq_inv (env : Env) (r : Redis) (t : String) (a : Int) (v : Int)
    (o : Option RedisError) (r1 : Redis) (h : updateReleaseSeq env r t a v = (o, r1)) :
    (o ≠ none ∧ r1 = r) ∨ (o = none ∧ r1 = r.setEx (keys.ReleaseSeqKey t a) v (24 * 3600)) := by
  unfold updateReleaseSeq redisSetEx at h
  split at h
  · left
    simp only [Prod.mk.injEq] at h
    exact ⟨by rw [← h.1]; simp, h.2.symm⟩
  · right
    simp only [Prod.mk.injEq] at h
    exact ⟨h.1.symm, h.2.symm⟩

theorem updateReleaseMetrics_ints_release (env : Env) (r : Redis) (t : String) (a : Int)
    (n : Int) (k : String) (hk : keyHead k = some 'r') :
    (updateReleaseMetrics env r t a n).ints k = r.ints k := by
  have hne : ∀ m, k ≠ keys.MetricsKey t a m := fun m =>
    ne_of_keyHead hk (keyHead_MetricsKey t a m) (by decide)
  unfold updateReleaseMetrics
  split
  · rfl
  · simp only [expire_ints]
    rw [incrBy_ints_ne _ _ _ _ (hne _), expire_ints, incrBy_ints_ne _ _ _ _ (hne _)]

/-- What one tick does to the task and to the release cursor of its activity. -/
theorem performRelease_cursor (env : Env) (task : SchedulerTask) (r : Redis) :
    (performRelease env task r).2.1.ReleaseRate = task.ReleaseRate ∧
    (performRelease env task r).2.1.TenantID = task.TenantID ∧
    (performRelease env task r).2.1.ActivityID = task.ActivityID ∧
    (((performRelease env task r).2.1.LastRelease = task.LastRelease ∧
       releaseSeqOf (performRelease env task r).2.2 task.TenantID task.ActivityID =
        releaseSeqOf r task.TenantID task.ActivityID) ∨
     ((performRelease env task r).2.1.LastRelease = env.now ∧
       ∃ count, 0 < count ∧
        (count ≤ 1 ∨ count ≤ expectedReleases task.ReleaseRate
          (timeSub env.now task.LastRelease)) ∧
        count ≤ wrap64 (queueSeqOf r task.TenantID task.ActivityID -
          releaseSeqOf r task.TenantID task.ActivityID) ∧
        releaseSeqOf (performRelease env task r).2.2 task.TenantID task.ActivityID =
          wrap64 (releaseSeqOf r task.TenantID task.ActivityID + count))) := by
  unfold performRelease
  split
  · exact ⟨rfl, rfl, rfl, Or.inl ⟨rfl, rfl⟩⟩
  split
  · exact ⟨rfl, rfl, rfl, Or.inl ⟨rfl, rfl⟩⟩
  rename_i queueSeq hqs
  have hqs := schedGetCurrentQueueSeq_ok _ _ _ _ _ hqs
  subst hqs
  split
  · exact ⟨rfl, rfl, rfl, Or.inl ⟨rfl, rfl⟩⟩
  rename_i releaseSeq hrel
  have hrel := getCurrentReleaseSeq_ok _ _ _ _ _ hrel
  subst hrel
  simp only []
  by_cases hq : wrap64 (queueSeqOf r task.TenantID task.ActivityID -
      releaseSeqOf r task.TenantID task.ActivityID) ≤ 0
  · rw [if_pos hq]
    exact ⟨rfl, rfl, rfl, Or.inl ⟨rfl, rfl⟩⟩
  rw [if_neg hq]
  generalize hcount : min64 (if expectedReleases task.ReleaseRate
    (timeSub env.now task.LastRelease) ≤ 0 then 1
    else expectedReleases task.ReleaseRate (timeSub env.now task.LastRelease))
    (wrap64 (queueSeqOf r task.TenantID task.ActivityID -
      releaseSeqOf r task.TenantID task.ActivityID)) = count
  by_cases hc : count ≤ 0
  · rw [if_pos hc]
    exact ⟨rfl, rfl, rfl, Or.inl ⟨rfl, rfl⟩⟩
  rw [if_neg hc]
  have hcb : count ≤ 1 ∨ count ≤ expectedReleases task.ReleaseRate
      (timeSub env.now task.LastRelease) := by
    rw [← hcount]
    unfold min64
    split <;> split <;> omega
  have hcq : count ≤ wrap64 (queueSeqOf r task.TenantID task.ActivityID -
      releaseSeqOf r task.TenantID task.ActivityID) := by
    rw [← hcount]
    unfold min64
    split <;> omega
  rcases hu : updateReleaseSeq env r task.TenantID task.ActivityID
    (wrap64 (releaseSeqOf r task.TenantID task.ActivityID + count)) with ⟨o, r1⟩
  rcases updateReleaseSeq_inv _ _ _ _ _ _ _ hu with ⟨ho, hr1⟩ | ⟨ho, hr1⟩
  · cases o with
    | none => exact absurd rfl ho
    | some e =>
      subst hr1
      exact ⟨rfl, rfl, rfl, Or.inl ⟨rfl, rfl⟩⟩
  · subst ho
    refine ⟨rfl, rfl, rfl, Or.inr ⟨rfl, count, by omega, hcb, hcq, ?_⟩⟩
    show ((updateReleaseMetrics env (recordReleaseEvent env r1 _) task.TenantID
      task.ActivityID count).ints (keys.ReleaseSeqKey task.TenantID task.ActivityID)).getD 0 = _
    rw [updateReleaseMetrics_ints_release _ _ _ _ _ _ (keyHead_ReleaseSeqKey _ _),
      recordReleaseEvent_ints, hr1]
    simp [Redis.setEx]

theorem checkIPThrottle_ints_release (env : Env) (r : Redis) (t : String) (a : Int) (ip : String)
    (k : String) (hk : keyHead k = some 'r') :
    (checkIPThrottle env r t a ip).2.ints k = r.ints k := by
  have hne : k ≠ keys.IPThrottleKey t a (hashIP ip) :=
    ne_of_keyHead hk (keyHead_IPThrottleKey t a (hashIP ip)) (by decide)
  unfold checkIPThrottle
  split
  · rfl
  · simp only []
    rcases hi : redisIncrBy env .throttleIncr r (keys.IPThrottleKey t a (hashIP ip)) 1
      with ⟨o, r1⟩
    have hr1 : r1.ints k = r.ints k := by
      have := redisIncrBy_ints_ne env .throttleIncr r _ 1 k hne
      rw [hi] at this
      exact this
    cases o with
    | error e => exact hr1
    | ok count =>
      simp only []
      split <;> split <;> simp [hr1]

theorem assignSequenceNumber_ints_release (env : Env) (r : Redis) (t : String) (a : Int)
    (sid : String) (k : String) (hk : keyHead k = some 'r') :
    (assignSequenceNumber env r t a sid).2.ints k = r.ints k := by
  rcases h : assignSequenceNumber env r t a sid with ⟨o, r3⟩
  cases o with
  | error e => rw [assignSequenceNumber_err env r t a sid e r3 h]
  | ok seq =>
    obtain ⟨_, _, hother, _, _⟩ := assignSequenceNumber_ok env r t a sid seq r3 h
    exact hother k (ne_of_keyHead hk (keyHead_QueueSeqKey t a) (by decide))
      (ne_of_keyHead hk (keyHead_UserQueueKey t a sid) (by decide))

theorem updateMetrics_ints_release (env : Env) (r : Redis) (t : String) (a : Int)
    (action : String) (k : String) (hk : keyHead k = some 'r') :
    (updateMetrics env r t a action).ints k = r.ints k := by
  have hne : k ≠ keys.MetricsKey t a (action ++ "_total") :=
    ne_of_keyHead hk (keyHead_MetricsKey t a _) (by decide)
  unfold updateMetrics
  simp only [redisExpire_ints]
  exact redisIncrBy_ints_ne env .metricsIncr r _ 1 k hne

/-- An enter call leaves every release cursor as it is. -/
theorem EnterQueue_ints_release (env : Env) (req : EnterQueueRequest) (r : Redis) (k : String)
    (hk : keyHead k = some 'r') : (EnterQueue env req r).2.ints k = r.ints k :=
  EnterQueue_steps (fun r1 r2 => r2.ints k = r1.ints k) (fun _ => rfl)
    (fun _ _ _ h12 h23 => h23.trans h12)
    (fun env r t a ip => checkIPThrottle_ints_release env r t a ip k hk)
    (fun env r t a u => congrFun (checkUserDedupe_ints env r t a u) k)
    (fun env r t a sid => assignSequenceNumber_ints_release env r t a sid k hk)
    (fun env r t a action => updateMetrics_ints_release env r t a action k hk)
    env req r

theorem lastTickTime_ge (period : Int) (hp : 0 ≤ period) :
    ∀ (log : List (Int × Int)) (s : Int), spacedFrom period s log = true →
      s ≤ lastTickTime s log := by
  intro log
  induction log with
  | nil => intro s _; exact le_refl _
  | cons p rest ih =>
    intro s hs
    simp only [spacedFrom, Bool.and_eq_true, decide_eq_true_eq] at hs
    have := ih p.1 hs.2
    simp only [lastTickTime]
    omega

theorem QueueSeqKey_eq (t : String) (a : Int) :
    keys.QueueSeqKey t a = "queue:seq:" ++ (t ++ ":" ++ fmtInt a) := by
  simp [keys.QueueSeqKey, String.append_assoc]

theorem ReleaseSeqKey_eq (t : String) (a : Int) :
    keys.ReleaseSeqKey t a = "release:seq:" ++ (t ++ ":" ++ fmtInt a) := by
  simp [keys.ReleaseSeqKey, String.append_assoc]

theorem append_left_cancel (p x y : String) (h : p ++ x = p ++ y) : x = y := by
  have := congrArg String.data h
  simp only [String.data_append, List.append_cancel_left_eq] at this
  exact String.ext this

theorem keyHead_release (x : String) : keyHead ("release:seq:" ++ x) = some 'r' := by
  simp [keyHead, String.data_append]

theorem keyHead_queue (x : String) : keyHead ("queue:seq:" ++ x) = some 'q' := by
  simp [keyHead, String.data_append]

theorem assignSequenceNumber_le_max (env : Env) (r : Redis) (t : String) (a : Int)
    (sid : String) (k : String) (hk : keyHead k = some 'q')
    (h : (r.ints k).getD 0 ≤ maxInt64) :
    ((assignSequenceNumber env r t a sid).2.ints k).getD 0 ≤ maxInt64 := by
  rcases hh : assignSequenceNumber env r t a sid with ⟨o, r3⟩
  cases o with
  | error e =>
    rw [assignSequenceNumber_err env r t a sid e r3 hh]
    exact h
  | ok seq =>
    obtain ⟨hseq, hq, hother, _, _⟩ := assignSequenceNumber_ok env r t a sid seq r3 hh
    by_cases hkq : k = keys.QueueSeqKey t a
    · subst hkq
      simp only [hq, Option.getD_some]
      unfold assignSequenceNumber at hh
      simp only [] at hh
      rcases hi : redisIncrBy env .assignExec r (keys.QueueSeqKey t a) 1 with ⟨o1, r1⟩
      rw [hi] at hh
      rcases redisIncrBy_inv env _ r _ 1 o1 r1 hi with ⟨e1, ho, _⟩ | ⟨ho, _, _, _, hmax⟩
      · subst ho
        simp at hh
      · subst ho
        simp only [Prod.mk.injEq, Except.ok.injEq] at hh
        rw [← hh.1]
        exact hmax
    · have hku : k ≠ keys.UserQueueKey t a sid :=
        ne_of_keyHead hk (keyHead_UserQueueKey t a sid) (by decide)
      simp only [hother k hkq hku]
      exact h

theorem EnterQueue_le_max (env : Env) (req : EnterQueueRequest) (r : Redis) (k : String)
    (hk : keyHead k = some 'q') (h : (r.ints k).getD 0 ≤ maxInt64) :
    ((EnterQueue env req r).2.ints k).getD 0 ≤ maxInt64 :=
  EnterQueue_steps
    (fun r1 r2 => (r1.ints k).getD 0 ≤ maxInt64 → (r2.ints k).getD 0 ≤ maxInt64)
    (fun _ h => h) (fun _ _ _ h12 h23 h => h23 (h12 h))
    (fun env r t a ip h => by
      rw [checkIPThrottle_sameQU env r t a ip k (Or.inl hk)]; exact h)
    (fun env r t a u h => by rw [checkUserDedupe_ints]; exact h)
    (fun env r t a sid h => assignSequenceNumber_le_max env r t a sid k hk h)
    (fun env r t a action h => by
      rw [updateMetrics_sameQU env r t a action k (Or.inl hk)]; exact h)
    env req r h

theorem EnterQueue_cursorOk (env : Env) (req : EnterQueueRequest) (r : Redis)
    (h : CursorOk r) : CursorOk (EnterQueue env req r).2 := by
  intro x
  obtain ⟨h0, h1, h2⟩ := h x
  rw [EnterQueue_ints_release env req r _ (keyHead_release x)]
  have hm := EnterQueue_queueMono env req r _ (keyHead_queue x)
  have hx := EnterQueue_le_max env req r _ (keyHead_queue x) h2
  exact ⟨h0, le_trans h1 hm, hx⟩

/-- A tick touches no release cursor other than the one of its activity. -/
theorem performRelease_ints_other (env : Env) (task : SchedulerTask) (r : Redis) (k : String)
    (hk : keyHead k = some 'r') (hne : k ≠ keys.ReleaseSeqKey task.TenantID task.ActivityID) :
    (performRelease env task r).2.2.ints k = r.ints k := by
  have hset : ∀ v o r1, updateReleaseSeq env r task.TenantID task.ActivityID v = (o, r1) →
      r1.ints k = r.ints k := by
    intro v o r1 h
    have := redisSetEx_ints_ne env .schedSetReleaseSeq r
      (keys.ReleaseSeqKey task.TenantID task.ActivityID) v (24 * 3600) k hne
    unfold updateReleaseSeq at h
    rw [h] at this
    exact this
  unfold performRelease
  split
  · rfl
  split
  · rfl
  split
  · rfl
  simp only []
  repeat' split
  all_goals first
    | rfl
    | exact hset _ _ _ (by assumption)
    | (show (updateReleaseMetrics env (recordReleaseEvent env _ _) task.TenantID
          task.ActivityID _).ints k = _
       rw [updateReleaseMetrics_ints_release _ _ _ _ _ _ hk, recordReleaseEvent_ints]
       exact hset _ _ _ (by assumption))

/-- One tick keeps the cursors healthy and never moves the cursor of its
activity backwards. -/
theorem performRelease_cursorOk (env : Env) (task : SchedulerTask) (r : Redis)
    (h : CursorOk r) :
    CursorOk (performRelease env task r).2.2 ∧
    releaseSeqOf r task.TenantID task.ActivityID ≤
      releaseSeqOf (performRelease env task r).2.2 task.TenantID task.ActivityID := by
  obtain ⟨_, _, _, hc⟩ := performRelease_cursor env task r
  have hq := performRelease_sameQU env task r
  obtain ⟨g0, g1, g2⟩ := h (task.TenantID ++ ":" ++ fmtInt task.ActivityID)
  rw [← ReleaseSeqKey_eq] at g0
  rw [← ReleaseSeqKey_eq, ← QueueSeqKey_eq] at g1
  rw [← QueueSeqKey_eq] at g2
  have hnew : 0 ≤ releaseSeqOf (performRelease env task r).2.2 task.TenantID task.ActivityID ∧
      releaseSeqOf r task.TenantID task.ActivityID ≤
        releaseSeqOf (performRelease env task r).2.2 task.TenantID task.ActivityID ∧
      releaseSeqOf (performRelease env task r).2.2 task.TenantID task.ActivityID ≤
        queueSeqOf r task.TenantID task.ActivityID := by
    unfold releaseSeqOf queueSeqOf at hc ⊢
    rcases hc with ⟨_, hs⟩ | ⟨_, count, hpos, _, hcq, hs⟩
    · rw [hs]
      exact ⟨g0, le_refl _, g1⟩
    · rw [hs]
      unfold wrap64 at hcq ⊢
      unfold maxInt64 at g2
      omega
  refine ⟨fun x => ?_, hnew.2.1⟩
  obtain ⟨h0, h1, h2⟩ := h x
  rw [hq _ (Or.inl (keyHead_queue x))]
  by_cases hx : "release:seq:" ++ x = keys.ReleaseSeqKey task.TenantID task.ActivityID
  · have hxe : x = task.TenantID ++ ":" ++ fmtInt task.ActivityID :=
      append_left_cancel _ _ _ (hx.trans (ReleaseSeqKey_eq _ _))
    subst hxe
    rw [← ReleaseSeqKey_eq, ← QueueSeqKey_eq]
    exact ⟨hnew.1, hnew.2.2, g2⟩
  · rw [performRelease_ints_other env task r _ (keyHead_release x) hx]
    exact ⟨h0, h1, h2⟩

theorem tickActivity_cursorOk (env : Env) (a : Int) (w : World) (h : CursorOk w.redis) :
    CursorOk (tickActivity env a w).redis := by
  unfold tickActivity
  split
  · exact h
  · rename_i task _
    have := (performRelease_cursorOk env task w.redis h).1
    rcases hp : performRelease env task w.redis with ⟨o, task1, r1⟩
    rw [hp] at this
    simp only [] at this ⊢
    split <;> exact this

/-- Without manual releases the cursor stays inside the queue: in every state
reached from the empty store by enter calls, scheduler ticks and scheduler
starts, `0 ≤ release_seq ≤ queue_seq` for every tenant and activity. -/
theorem cursor_within_queue_without_manualRelease (ops : List Op)
    (hops : ∀ op ∈ ops, op.isManualRelease = false) (t : String) (a : Int) :
    0 ≤ releaseSeqOf (run World.init ops).redis t a ∧
    releaseSeqOf (run World.init ops).redis t a ≤ queueSeqOf (run World.init ops).redis t a := by
  have key : ∀ (ops : List Op) (w : World), (∀ op ∈ ops, op.isManualRelease = false) →
      CursorOk w.redis → CursorOk (run w ops).redis := by
    intro ops
    induction ops with
    | nil => intro w _ h; exact h
    | cons op rest ih =>
      intro w hall h
      have hop := hall op (List.mem_cons_self _ _)
      refine ih (op.apply w) (fun o ho => hall o (List.mem_cons_of_mem _ ho)) ?_
      cases op with
      | enter env req => exact EnterQueue_cursorOk env req w.redis h
      | tick env a => exact tickActivity_cursorOk env a w h
      | manualRelease env a count => simp [Op.isManualRelease] at hop
      | startScheduler env a t rate => exact h
  have hinit : CursorOk World.init.redis := by
    intro x
    simp [World.init, Redis.empty, maxInt64]
  have := key ops World.init hops hinit (t ++ ":" ++ fmtInt a)
  rw [← ReleaseSeqKey_eq, ← QueueSeqKey_eq] at this
  exact ⟨this.1, this.2.1⟩

/-! # The properties of the specification, C1 to C10 -/

/-! ## C1: the release cursor and the queue counter -/

/-- In `demoQueued` three sequence numbers are assigned and none is released. -/
theorem demoQueued_counters :
    queueSeqOf demoQueued.redis "t" 1 = 3 ∧ releaseSeqOf demoQueued.redis "t" 1 = 0 := by
  decide!

/-- C1 (failing input): after three enters, `ManualRelease` of 5 positions on
activity 1 succeeds and leaves `release_seq = 5` above `queue_seq = 3`. -/
theorem manualRelease_overshoots_queue :
    (ManualRelease (demoEnv 2000000000) demoQueued.sched demoQueued.redis 1 5).1 = .ok () ∧
    releaseSeqOf (run demoQueued [.manualRelease (demoEnv 2000000000) 1 5]).redis "t" 1 = 5 ∧
    queueSeqOf (run demoQueued [.manualRelease (demoEnv 2000000000) 1 5]).redis "t" 1 = 3 := by
  decide!

/-! ## C2: sequence numbers of successive enters -/

/-- C2: a successful enter that is not a rejoin returns the previous value of
`queue_seq` plus 1, and `queue_seq` holds the returned value afterwards. Hence,
whatever operations (enters, scheduler ticks, manual releases, scheduler starts)
run between the end of such an enter and the start of a second one on the same
activity, the first receives the strictly smaller sequence number. -/
theorem enter_assigns_next_seq (env1 env2 : Env) (req1 req2 : EnterQueueRequest)
    (a1 a2 : Activity) (w : World) (ops : List Op) (resp1 resp2 : EnterQueueResponse)
    (hdb1 : getActivity env1 req1.ActivityID = .ok a1)
    (hfresh1 : rejoinSeq env1 w.redis a1 req1 = none)
    (hok1 : (EnterQueue env1 req1 w.redis).1 = .ok resp1)
    (hdb2 : getActivity env2 req2.ActivityID = .ok a2)
    (hsame : a2.TenantID = a1.TenantID ∧ req2.ActivityID = req1.ActivityID)
    (hfresh2 : rejoinSeq env2 (run ((Op.enter env1 req1).apply w) ops).redis a2 req2 = none)
    (hok2 : (EnterQueue env2 req2 (run ((Op.enter env1 req1).apply w) ops).redis).1
      = .ok resp2) :
    resp1.Seq = queueSeqOf w.redis a1.TenantID req1.ActivityID + 1 ∧
    queueSeqOf (EnterQueue env1 req1 w.redis).2 a1.TenantID req1.ActivityID = resp1.Seq ∧
    resp1.Seq < resp2.Seq := by
  obtain ⟨hs1, hq1⟩ := EnterQueue_fresh_seq env1 req1 w.redis a1 resp1 hdb1 hfresh1 hok1
  obtain ⟨hs2, _⟩ := EnterQueue_fresh_seq env2 req2 _ a2 resp2 hdb2 hfresh2 hok2
  refine ⟨hs1, hq1, ?_⟩
  have hmono := run_queueMono ops ((Op.enter env1 req1).apply w)
    (keys.QueueSeqKey a1.TenantID req1.ActivityID) (keyHead_QueueSeqKey _ _)
  rw [hs2, hsame.1, hsame.2]
  have : (((Op.enter env1 req1).apply w).redis.ints
      (keys.QueueSeqKey a1.TenantID req1.ActivityID)).getD 0 = resp1.Seq := hq1
  unfold queueSeqOf
  omega

/-- C2 (witness): on the empty store user `u1` enters activity 1, a scheduler is
started and ticks, then user `u2` enters: the sequence numbers are 1 and 2. -/
theorem enter_assigns_next_seq_witness :
    (EnterQueue (demoEnv 1000000000) (demoReq "u1") World.init.redis).1 =
      .ok { RequestID := "req", Seq := 1, EstimatedWait := 0, PollingInterval := 2000,
            SessionID := "51e59c8e6354b474", QueueLength := 1 } ∧
    (1 : Int) = queueSeqOf World.init.redis "t" 1 + 1 ∧
    queueSeqOf (EnterQueue (demoEnv 1000000000) (demoReq "u1") World.init.redis).2 "t" 1 = 1 ∧
    (1 : Int) < 2 :=
  ⟨by decide!,
   enter_assigns_next_seq (demoEnv 1000000000) (demoEnv 3000000000) (demoReq "u1")
    (demoReq "u2") demoActivity demoActivity World.init
    [.startScheduler (demoEnv 1000000000) 1 "t" 10, .tick (demoEnv 2000000000) 1]
    { RequestID := "req", Seq := 1, EstimatedWait := 0, PollingInterval := 2000,
      SessionID := "51e59c8e6354b474", QueueLength := 1 }
    { RequestID := "req", Seq := 2, EstimatedWait := 0, PollingInterval := 2000,
      SessionID := "f3214e3311e58d11", QueueLength := 1 }
    rfl (by decide!) (by decide!) rfl ⟨rfl, rfl⟩ (by decide!) (by decide!)⟩

/-! ## C3: rejoin within the hour -/

/-- C3 (counterexample): user `u1` enters activity 1 at 3599 s and receives
sequence number 1; the same user enters again one second later, at 3600 s, which
is within 3600 s of the first call while the binding is still stored. The hour
bucket has changed, the derived session id is different, and the second call
fails with `user already in queue`. -/
theorem rejoin_fails_across_hour_boundary :
    (3599000000000 : Int) ≤ 3600000000000 ∧
    (3600000000000 : Int) < 3599000000000 + 3600 * 1000000000 ∧
    (EnterQueue (demoEnv 3599000000000) (demoReq "u1") World.init.redis).1 =
      .ok { RequestID := "req", Seq := 1, EstimatedWait := 0, PollingInterval := 2000,
            SessionID := "51e59c8e6354b474", QueueLength := 1 } ∧
    (EnterQueue (demoEnv 3599000000000) (demoReq "u1") World.init.redis).2.ints
      (keys.UserQueueKey "t" 1 "51e59c8e6354b474") = some 1 ∧
    (EnterQueue (demoEnv 3600000000000) (demoReq "u1")
      (EnterQueue (demoEnv 3599000000000) (demoReq "u1") World.init.redis).2).1 =
      .error "user already in queue" := by
  decide!

/-- C3 (amended): if an enter succeeds in a reachable state (its binding write
reaching Redis) and enter is called again for the same user and activity while
the clock is in the same hour bucket `Unix()/3600`, on any later store that
still holds the binding, then the second call succeeds and returns the same
sequence number and the same session id. -/
theorem rejoin_same_hour_returns_same (ops : List Op) (env1 env2 : Env)
    (req : EnterQueueRequest) (a1 a2 : Activity) (resp1 : EnterQueueResponse) (r2 : Redis)
    (hdb1 : getActivity env1 req.ActivityID = .ok a1)
    (hset : env1.redisErr .assignSet = none)
    (hok1 : (EnterQueue env1 req (run World.init ops).redis).1 = .ok resp1)
    (hdb2 : getActivity env2 req.ActivityID = .ok a2)
    (htenant : a2.TenantID = a1.TenantID)
    (hactive2 : isActivityActive env2 a2 = true)
    (hup2 : env2.redisErr .getExistingSeq = none)
    (hhour : Int.tdiv (unixSeconds env2.now) 3600 = Int.tdiv (unixSeconds env1.now) 3600)
    (hkeep : r2.ints (keys.UserQueueKey a1.TenantID req.ActivityID resp1.SessionID) =
      (EnterQueue env1 req (run World.init ops).redis).2.ints
        (keys.UserQueueKey a1.TenantID req.ActivityID resp1.SessionID)) :
    ∃ resp2, (EnterQueue env2 req r2).1 = .ok resp2 ∧ resp2.Seq = resp1.Seq ∧
      resp2.SessionID = resp1.SessionID := by
  have hok := run_countersOk ops World.init init_countersOk
  obtain ⟨hsid, hpos, hb⟩ := EnterQueue_ok_binding env1 req _ a1 resp1 hok hdb1 hset hok1
  have hsid2 := generateSessionID_same_hour env1 env2 req.UserHash req.ActivityID hhour
  rw [hsid] at hkeep
  rw [hb] at hkeep
  have hre : rejoinSeq env2 r2 a2 req = some resp1.Seq := by
    unfold rejoinSeq
    rw [htenant, hsid2, getExistingSeq_up env2 _ _ _ _ resp1.Seq hup2 hkeep]
    simp [hpos]
  rw [EnterQueue_rejoin env2 req r2 a2 resp1.Seq hdb2 hactive2 hre]
  exact ⟨_, rfl, rfl, by rw [hsid, hsid2]⟩

/-- C3 (witness): user `u1` enters activity 1 at 1 s and again at 2 s, in the
same hour bucket; the second call returns the sequence number and session id of
the first. -/
theorem rejoin_same_hour_returns_same_witness :
    Int.tdiv (unixSeconds (demoEnv 2000000000).now) 3600 =
      Int.tdiv (unixSeconds (demoEnv 1000000000).now) 3600 ∧
    ∃ resp2, (EnterQueue (demoEnv 2000000000) (demoReq "u1")
        (EnterQueue (demoEnv 1000000000) (demoReq "u1") (run World.init []).redis).2).1
          = .ok resp2 ∧
      resp2.Seq = 1 ∧ resp2.SessionID = "51e59c8e6354b474" :=
  ⟨by decide,
   rejoin_same_hour_returns_same [] (demoEnv 1000000000) (demoEnv 2000000000) (demoReq "u1")
    demoActivity demoActivity
    { RequestID := "req", Seq := 1, EstimatedWait := 0, PollingInterval := 2000,
      SessionID := "51e59c8e6354b474", QueueLength := 1 }
    (EnterQueue (demoEnv 1000000000) (demoReq "u1") (run World.init []).redis).2
    rfl rfl (by decide!) rfl rfl (by decide) rfl (by decide) rfl⟩

/-! ## C4: the rejoin branch has no effect on the store -/

/-- C5 (failing input): with `release_seq = 3` after a scheduler tick,
`ManualRelease` with count -2 succeeds and writes `release_seq = 1`, below the
value it read. -/
theorem manualRelease_moves_cursor_back :
    releaseSeqOf demoReleased.redis "t" 1 = 3 ∧
    (ManualRelease (demoEnv 3000000000) demoReleased.sched demoReleased.redis 1 (-2)).1
      = .ok () ∧
    releaseSeqOf
      (ManualRelease (demoEnv 3000000000) demoReleased.sched demoReleased.redis 1 (-2)).2
      "t" 1 = 1 := by
  decide!

/-! ## C6: release rate of the scheduler -/

/-- C7 (failing input): a status call at the instant `now = end_at` of the
activity, for a client with sequence number 2 above `release_seq = 0`, returns
the state `waiting`, not `expired`. -/
theorem status_at_end_instant_is_waiting :
    (demoEnv 10000000000000).now = demoActivity.EndAt ∧
    GetQueueStatus (demoEnv 10000000000000) demoStatusReq2 demoQueued.redis =
      .ok { RequestID := "req", ReleaseSeq := 0, QueueSeq := 3, Position := 2, ETA := 0,
            State := .StateWaiting, QueueLength := 3, NextPollMs := 2000 } := by
  decide!

/-! ## C8: poll delay returned by a status call -/

/-- C8 (failing input): a status call after the end of the activity, for a
client with sequence number 2 above `release_seq = 0`, returns the state
`expired` together with `next_poll_ms = 2000`, the poll interval of the activity. -/
theorem status_expired_keeps_poll_interval :
    GetQueueStatus (demoEnv 10001000000000) demoStatusReq2 demoQueued.redis =
      .ok { RequestID := "req", ReleaseSeq := 0, QueueSeq := 3, Position := 2, ETA := 0,
            State := .StateExpired, QueueLength := 3, NextPollMs := 2000 } := by
  decide!

/-! ## C9: position returned by a status call -/

/-- C9 (counterexample): with `release_seq = 3`, the status call of the client
bound to sequence number 1 succeeds with `position = 0` and `release_seq = 3`,
whose sum is 3, not the bound sequence number 1. -/
theorem status_position_clamped_below_cursor :
    demoReleased.redis.ints (keys.UserQueueKey "t" 1 demoStatusReq1.SessionID) = some 1 ∧
    GetQueueStatus (demoEnv 3000000000) demoStatusReq1 demoReleased.redis =
      .ok { RequestID := "req", ReleaseSeq := 3, QueueSeq := 3, Position := 0, ETA := 0,
            State := .StateEligible, QueueLength := 0, NextPollMs := 0 } ∧
    (1 : Int) ≠ 0 + 3 := by
  decide!

/-- C9 (amended): for every successful status call returning position `p` and
release cursor `r`, the submitted sequence number `s` is the one stored in the
session binding and `p = max(0, s - r)` in `int64` arithmetic. When `s - r` does
not overflow, `s = p + r` if `p > 0`, and `s ≤ r` if `p = 0`. -/
theorem status_position_is_clamped_distance (env : Env) (req : QueueStatusRequest) (r : Redis)
    (a : Activity) (resp : QueueStatusResponse)
    (hdb : getActivity env req.ActivityID = .ok a)
    (hok : GetQueueStatus env req r = .ok resp) :
    r.ints (keys.UserQueueKey a.TenantID req.ActivityID req.SessionID) = some req.Seq ∧
    resp.Position = max64 0 (wrap64 (req.Seq - resp.ReleaseSeq)) ∧
    (isInt64 (req.Seq - resp.ReleaseSeq) →
      (0 < resp.Position → req.Seq = resp.Position + resp.ReleaseSeq) ∧
      (resp.Position = 0 → req.Seq ≤ resp.ReleaseSeq) ∧
      (0 ≤ resp.Position)) := by
  obtain ⟨hb, hp, _⟩ := GetQueueStatus_ok_inv env req r a resp hdb hok
  refine ⟨hb, hp, ?_⟩
  intro hr
  rw [wrap64_of_isInt64 _ hr] at hp
  unfold max64 at hp
  split at hp <;> refine ⟨?_, ?_, ?_⟩ <;> intros <;> omega

/-- C9 (witness): in `demoQueued` (no release yet) the status call of the client
bound to sequence number 2 returns position 2 and release cursor 0. -/
theorem status_position_is_clamped_distance_witness :
    GetQueueStatus (demoEnv 2000000000) demoStatusReq2 demoQueued.redis =
      .ok { RequestID := "req", ReleaseSeq := 0, QueueSeq := 3, Position := 2, ETA := 0,
            State := .StateWaiting, QueueLength := 3, NextPollMs := 2000 } ∧
    demoQueued.redis.ints (keys.UserQueueKey "t" 1 "f3214e3311e58d11") = some 2 ∧
    (2 : Int) = max64 0 (wrap64 (2 - 0)) ∧
    (isInt64 (2 - 0) → (0 < (2 : Int) → (2 : Int) = 2 + 0) ∧ ((2 : Int) = 0 → (2 : Int) ≤ 0) ∧
      (0 ≤ (2 : Int))) :=
  ⟨by decide!,
   status_position_is_clamped_distance (demoEnv 2000000000) demoStatusReq2 demoQueued.redis
    demoActivity
    { RequestID := "req", ReleaseSeq := 0, QueueSeq := 3, Position := 2, ETA := 0,
      State := .StateWaiting, QueueLength := 3, NextPollMs := 2000 }
    rfl (by decide!)⟩

/-! ## C10: the IP throttle -/

/-- C10: `checkIPThrottle` with an empty address succeeds and leaves the store
as it is. With a non-empty address whose `INCR` reaches Redis (the counter being
inside the `int64` range), it adds exactly 1 to the throttle counter of
`(activity, hashIP ip)`, changes no other integer key, and fails with
`rate limit exceeded` exactly when the incremented value exceeds 10 (otherwise it
succeeds). Hence, starting from an absent counter, after fewer than 10 checks the
next check passes, and after exactly 10 checks the next (the 11th) fails. -/
theorem checkIPThrottle_limit (env : Env) (r : Redis) (tenantID : String) (activityID : Int)
    (ip : String) (hup : env.redisErr .throttleIncr = none) :
    checkIPThrottle env r tenantID activityID "" = (.ok (), r) ∧
    (ip ≠ "" →
      minInt64 ≤ (r.ints (keys.IPThrottleKey tenantID activityID (hashIP ip))).getD 0 + 1 →
      (r.ints (keys.IPThrottleKey tenantID activityID (hashIP ip))).getD 0 < maxInt64 →
      (checkIPThrottle env r tenantID activityID ip).2.ints
          (keys.IPThrottleKey tenantID activityID (hashIP ip))
        = some ((r.ints (keys.IPThrottleKey tenantID activityID (hashIP ip))).getD 0 + 1) ∧
      (∀ k, k ≠ keys.IPThrottleKey tenantID activityID (hashIP ip) →
        (checkIPThrottle env r tenantID activityID ip).2.ints k = r.ints k) ∧
      ((checkIPThrottle env r tenantID activityID ip).1 = .error "rate limit exceeded" ↔
        (r.ints (keys.IPThrottleKey tenantID activityID (hashIP ip))).getD 0 + 1 > 10) ∧
      ((checkIPThrottle env r tenantID activityID ip).1 = .ok () ↔
        (r.ints (keys.IPThrottleKey tenantID activityID (hashIP ip))).getD 0 + 1 ≤ 10)) ∧
    (ip ≠ "" → ∀ (envs : List Env) (r0 : Redis),
      (∀ e ∈ envs, e.redisErr .throttleIncr = none) →
      r0.ints (keys.IPThrottleKey tenantID activityID (hashIP ip)) = none →
      (envs.length < 10 →
        (checkIPThrottle env (throttleAttempts tenantID activityID ip envs r0)
          tenantID activityID ip).1 = .ok ()) ∧
      (envs.length = 10 →
        (checkIPThrottle env (throttleAttempts tenantID activityID ip envs r0)
          tenantID activityID ip).1 = .error "rate limit exceeded")) := by
  refine ⟨checkIPThrottle_empty env r tenantID activityID, ?_, ?_⟩
  · intro hip hlo hhi
    exact checkIPThrottle_nonempty env r tenantID activityID ip hip hup hlo hhi
  · intro hip envs r0 hups habs
    have hcnt : envs.length ≤ 10 →
        ((throttleAttempts tenantID activityID ip envs r0).ints
          (keys.IPThrottleKey tenantID activityID (hashIP ip))).getD 0 = envs.length := by
      intro hlen
      have := throttleAttempts_counter tenantID activityID ip hip envs hups r0
        (by rw [habs]; simp) (by rw [habs]; simp [maxInt64]; omega)
      rw [this, habs]
      simp
    constructor
    · intro hlen
      have hc := hcnt (by omega)
      have := checkIPThrottle_nonempty env (throttleAttempts tenantID activityID ip envs r0)
        tenantID activityID ip hip hup (by rw [hc]; unfold minInt64; omega)
        (by rw [hc]; unfold maxInt64; omega)
      rw [this.2.2.2, hc]
      omega
    · intro hlen
      have hc := hcnt (by omega)
      have := checkIPThrottle_nonempty env (throttleAttempts tenantID activityID ip envs r0)
        tenantID activityID ip hip hup (by rw [hc]; unfold minInt64; omega)
        (by rw [hc]; unfold maxInt64; omega)
      rw [this.2.2.1, hc]
      omega

/-- C10 (witness): from the empty store, ten checks for the address `10.0.0.1`
on activity 1 are followed by a check that fails with `rate limit exceeded`. -/
theorem checkIPThrottle_limit_witness :
    (demoEnv 0).redisErr .throttleIncr = none ∧
    (checkIPThrottle (demoEnv 0)
      (throttleAttempts "t" 1 "10.0.0.1" (List.replicate 10 (demoEnv 0)) Redis.empty)
      "t" 1 "10.0.0.1").1 = .error "rate limit exceeded" :=
  ⟨rfl, ((checkIPThrottle_limit (demoEnv 0) Redis.empty "t" 1 "10.0.0.1" rfl).2.2
    (by decide) (List.replicate 10 (demoEnv 0)) Redis.empty
    (by intro e he; rw [List.eq_of_mem_replicate he]; rfl) rfl).2 (by simp)⟩

/-! # The properties of the specification, C11 to C20 -/

/-! ## C11: the dedupe check -/


theorem dedupe_failed_ne (m : String) : "dedupe check failed: " ++ m ≠ "user already in queue" := by
  intro h
  have := congrArg String.data h
  simp [String.data_append] at this

/-- C11: `checkUserDedupe` returns `user already in queue` only when the user
hash is a member of the dedupe set of the activity, and then the store is
unchanged. When the membership test reaches Redis: a member is refused with
`user already in queue` and the store is unchanged; a non-member is accepted and,
the `SADD` reaching Redis, the set of the activity afterwards is the old set plus
the user hash, every other set being unchanged. -/
theorem checkUserDedupe_membership (env : Env) (r : Redis) (tenantID : String)
    (activityID : Int) (userHash : String) :
    ((checkUserDedupe env r tenantID activityID userHash).1 = .error "user already in queue" →
      userHash ∈ r.sets (keys.UserDedupeKey tenantID activityID) ∧
      (checkUserDedupe env r tenantID activityID userHash).2 = r) ∧
    (env.redisErr .dedupeIsMember = none →
      (userHash ∈ r.sets (keys.UserDedupeKey tenantID activityID) →
        checkUserDedupe env r tenantID activityID userHash =
          (.error "user already in queue", r)) ∧
      (userHash ∉ r.sets (keys.UserDedupeKey tenantID activityID) →
        (checkUserDedupe env r tenantID activityID userHash).1 = .ok () ∧
        (env.redisErr .dedupeAdd = none →
          (checkUserDedupe env r tenantID activityID userHash).2.sets
              (keys.UserDedupeKey tenantID activityID) =
            userHash :: r.sets (keys.UserDedupeKey tenantID activityID) ∧
          ∀ k, k ≠ keys.UserDedupeKey tenantID activityID →
            (checkUserDedupe env r tenantID activityID userHash).2.sets k = r.sets k))) := by
  constructor
  · intro h
    unfold checkUserDedupe at h ⊢
    simp only [] at h ⊢
    split at h
    · simp only [Except.error.injEq] at h
      exact absurd h (dedupe_failed_ne _)
    · split at h
      · rename_i hm
        rw [if_pos hm]
        exact ⟨hm, rfl⟩
      · simp at h
  · intro hup
    constructor
    · intro hm
      simp [checkUserDedupe, hup, hm]
    · intro hm
      constructor
      · simp [checkUserDedupe, hup, hm]
      · intro hadd
        simp only [checkUserDedupe, hup, hm, hadd, if_false, redisExpire_sets]
        constructor
        · simp [Redis.sadd, hm]
        · intro k hk
          simp [Redis.sadd, hm, upd, hk]

/-- C11 (witness): on the empty store user `u1` passes the dedupe check of
activity 1 and the dedupe set afterwards holds exactly `u1`. -/
theorem checkUserDedupe_membership_witness :
    (demoEnv 0).redisErr .dedupeIsMember = none ∧
    "u1" ∉ Redis.empty.sets (keys.UserDedupeKey "t" 1) ∧
    (checkUserDedupe (demoEnv 0) Redis.empty "t" 1 "u1").1 = .ok () ∧
    (checkUserDedupe (demoEnv 0) Redis.empty "t" 1 "u1").2.sets (keys.UserDedupeKey "t" 1) =
      "u1" :: Redis.empty.sets (keys.UserDedupeKey "t" 1) :=
  ⟨rfl, by simp [Redis.empty],
   (((checkUserDedupe_membership (demoEnv 0) Redis.empty "t" 1 "u1").2 rfl).2
      (by simp [Redis.empty])).1,
   ((((checkUserDedupe_membership (demoEnv 0) Redis.empty "t" 1 "u1").2 rfl).2
      (by simp [Redis.empty])).2 rfl).1⟩

/-! ## C12: failed enters leave the sequence space intact -/

/-- An enter call that returns an error leaves every queue counter and every
session binding as it was. -/
theorem EnterQueue_error_sameQU (env : Env) (req : EnterQueueRequest) (r : Redis) (e : String)
    (herr : (EnterQueue env req r).1 = .error e) : SameQU r (EnterQueue env req r).2 := by
  unfold EnterQueue at herr ⊢
  split
  · exact sameQU_refl r
  · rename_i a hdb
    simp only [hdb] at herr
    split
    · exact sameQU_refl r
    · rename_i hact
      simp only [hact] at herr
      simp only [] at herr ⊢
      split
      · exact sameQU_refl r
      · rename_i hre
        simp only [hre] at herr
        rcases e1 : checkIPThrottle env r a.TenantID req.ActivityID req.IPAddress with ⟨o1, r1⟩
        have p1 : SameQU r r1 := by
          have := checkIPThrottle_sameQU env r a.TenantID req.ActivityID req.IPAddress
          rw [e1] at this
          exact this
        rw [e1] at herr
        cases o1 with
        | error e => exact p1
        | ok u1 =>
          simp only [] at herr ⊢
          rcases e2 : checkUserDedupe env r1 a.TenantID req.ActivityID req.UserHash
            with ⟨o2, r2⟩
          have p2 : SameQU r1 r2 := by
            have := checkUserDedupe_sameQU env r1 a.TenantID req.ActivityID req.UserHash
            rw [e2] at this
            exact this
          rw [e2] at herr
          cases o2 with
          | error e => exact sameQU_trans p1 p2
          | ok u2 =>
            simp only [] at herr ⊢
            rcases e3 : assignSequenceNumber env r2 a.TenantID req.ActivityID
              (generateSessionID env req.UserHash req.ActivityID) with ⟨o3, r3⟩
            rw [e3] at herr
            cases o3 with
            | error e =>
              rw [assignSequenceNumber_err _ _ _ _ _ _ _ e3]
              exact sameQU_trans p1 p2
            | ok seq => simp at herr

/-- C12: an enter call that returns an error, whatever the error, leaves
`queue_seq` of every activity unchanged and leaves every session binding as it
was: no binding is created. -/
theorem enter_error_keeps_seq_space (env : Env) (req : EnterQueueRequest) (r : Redis)
    (e : String) (herr : (EnterQueue env req r).1 = .error e) :
    (∀ t a, queueSeqOf (EnterQueue env req r).2 t a = queueSeqOf r t a) ∧
    (∀ t a sid, (EnterQueue env req r).2.ints (keys.UserQueueKey t a sid) =
      r.ints (keys.UserQueueKey t a sid)) := by
  have h := EnterQueue_error_sameQU env req r e herr
  constructor
  · intro t a
    unfold queueSeqOf
    rw [h _ (Or.inl (keyHead_QueueSeqKey t a))]
  · intro t a sid
    exact h _ (Or.inr (keyHead_UserQueueKey t a sid))

/-- C12 (witness): the enter of user `u1` at 3600 s, refused with
`user already in queue` after the enter of 3599 s, leaves `queue_seq = 1`. -/
theorem enter_error_keeps_seq_space_witness :
    (EnterQueue (demoEnv 3600000000000) (demoReq "u1")
      (EnterQueue (demoEnv 3599000000000) (demoReq "u1") World.init.redis).2).1 =
      .error "user already in queue" ∧
    queueSeqOf (EnterQueue (demoEnv 3600000000000) (demoReq "u1")
      (EnterQueue (demoEnv 3599000000000) (demoReq "u1") World.init.redis).2).2 "t" 1 =
    queueSeqOf (EnterQueue (demoEnv 3599000000000) (demoReq "u1") World.init.redis).2 "t" 1 :=
  ⟨by decide!,
   (enter_error_keeps_seq_space (demoEnv 3600000000000) (demoReq "u1")
    (EnterQueue (demoEnv 3599000000000) (demoReq "u1") World.init.redis).2
    "user already in queue" (by decide!)).1 "t" 1⟩

/-! ## C13: liveness of an activity -/

/-- C13 (failing input): at the instant `now = start_at` of the active activity
1 (window from 0 s, `now = 0 s`), the predicate `status = active ∧ start_at ≤ now
< end_at` holds and the scheduler query `isActivityStillActive` answers true,
but `isActivityActive` is false and enter fails with `activity is not active`. -/
theorem isActivityActive_false_at_start_instant :
    (demoActivity.Status = StatusActive ∧ demoActivity.StartAt ≤ (demoEnv 0).now ∧
      (demoEnv 0).now < demoActivity.EndAt) ∧
    isActivityStillActive (demoEnv 0) 1 = true ∧
    isActivityActive (demoEnv 0) demoActivity = false ∧
    (EnterQueue (demoEnv 0) (demoReq "u1") Redis.empty).1 = .error "activity is not active" := by
  decide!

/-! ## C14: validation of the sequence number by status -/

theorem queue_length_failed_ne (m : String) :
    "failed to get queue length: " ++ m ≠ "invalid sequence number" := by
  intro h
  have := congrArg String.data h
  simp [String.data_append] at this

/-- The validation of the sequence number while the read of the binding reaches
Redis: a status call for an existing activity fails with
`invalid sequence number` if and only if no binding exists for the session id or
the bound sequence number differs from the submitted one; when the binding
equals the submitted sequence number and `queue_seq` is readable, the call
succeeds. -/
theorem status_invalid_sequence_iff (env : Env) (req : QueueStatusRequest) (r : Redis)
    (a : Activity) (hdb : getActivity env req.ActivityID = .ok a)
    (hup : env.redisErr .getExistingSeq = none) :
    (GetQueueStatus env req r = .error "invalid sequence number" ↔
      (r.ints (keys.UserQueueKey a.TenantID req.ActivityID req.SessionID) = none ∨
        ∃ v, r.ints (keys.UserQueueKey a.TenantID req.ActivityID req.SessionID) = some v ∧
          v ≠ req.Seq)) ∧
    (r.ints (keys.UserQueueKey a.TenantID req.ActivityID req.SessionID) = some req.Seq →
      env.redisErr .getCurrentQueueSeq = none →
      ∃ resp, GetQueueStatus env req r = .ok resp) := by
  cases hb : r.ints (keys.UserQueueKey a.TenantID req.ActivityID req.SessionID) with
  | none =>
    have hg : getExistingSeq env r a.TenantID req.ActivityID req.SessionID = .error .Nil := by
      simp [getExistingSeq, redisGet, hup, hb]
    constructor
    · simp [GetQueueStatus, hdb, hg]
    · intro h
      simp at h
  | some v =>
    have hg := getExistingSeq_up env r a.TenantID req.ActivityID req.SessionID v hup hb
    by_cases hv : v = req.Seq
    · subst hv
      constructor
      · constructor
        · intro h
          unfold GetQueueStatus at h
          simp only [hdb, hg, ne_eq, not_true_eq_false, if_false] at h
          split at h
          · simp only [Except.error.injEq] at h
            exact absurd h (queue_length_failed_ne _)
          · simp at h
        · intro h
          simp at h
      · intro _ hq
        unfold GetQueueStatus
        simp only [hdb, hg, ne_eq, not_true_eq_false, if_false,
          getCurrentQueueSeq_up env r a.TenantID req.ActivityID hq]
        exact ⟨_, rfl⟩
    · constructor
      · simp [GetQueueStatus, hdb, hg, hv]
      · intro h
        simp only [Option.some.injEq] at h
        exact absurd h hv

/-- In `demoQueued` the status call of user `u2` with the bound sequence number 2
succeeds, and with the submitted sequence number 3 it fails with
`invalid sequence number`. -/
theorem status_invalid_sequence_iff_witness :
    demoQueued.redis.ints (keys.UserQueueKey "t" 1 "f3214e3311e58d11") = some 2 ∧
    (∃ resp, GetQueueStatus (demoEnv 2000000000) demoStatusReq2 demoQueued.redis = .ok resp) ∧
    GetQueueStatus (demoEnv 2000000000)
      { ActivityID := 1, Seq := 3, SessionID := "f3214e3311e58d11" } demoQueued.redis =
      .error "invalid sequence number" :=
  ⟨by decide!,
   (status_invalid_sequence_iff (demoEnv 2000000000) demoStatusReq2 demoQueued.redis
      demoActivity rfl rfl).2 (by decide!) rfl,
   (status_invalid_sequence_iff (demoEnv 2000000000)
      { ActivityID := 1, Seq := 3, SessionID := "f3214e3311e58d11" } demoQueued.redis
      demoActivity rfl rfl).1.2 (Or.inr ⟨2, by decide!, by decide⟩)⟩

/-- C14 (failing input): the activity exists, the binding of the session of user
`u1` is stored and equals the submitted sequence number 1, and the `GET` of the
binding fails with `i/o timeout`. The status call fails with
`invalid sequence number` (400 `INVALID_SEQUENCE` at the handler), although the
binding neither is missing nor differs; with the store reachable the same call
succeeds, and the same failure at the read of `queue_seq`, two steps later in
the same method, is reported as `failed to get queue length` (500). -/
theorem status_binding_read_failure_reported_invalid :
    getActivity (demoFaultEnv 2000000000 .getExistingSeq "read tcp 127.0.0.1:6379: i/o timeout")
      demoStatusReq1.ActivityID = .ok demoActivity ∧
    demoQueued.redis.ints (keys.UserQueueKey "t" 1 demoStatusReq1.SessionID) =
      some demoStatusReq1.Seq ∧
    GetQueueStatus
        (demoFaultEnv 2000000000 .getExistingSeq "read tcp 127.0.0.1:6379: i/o timeout")
        demoStatusReq1 demoQueued.redis =
      .error "invalid sequence number" ∧
    (handlers.GetQueueStatus
        (demoFaultEnv 2000000000 .getExistingSeq "read tcp 127.0.0.1:6379: i/o timeout")
        (demoStatusCtx demoStatusReq1) demoQueued.redis).status = 400 ∧
    (GetQueueStatus (demoEnv 2000000000) demoStatusReq1 demoQueued.redis).toOption.isSome
      = true ∧
    GetQueueStatus
        (demoFaultEnv 2000000000 .getCurrentQueueSeq "read tcp 127.0.0.1:6379: i/o timeout")
        demoStatusReq1 demoQueued.redis =
      .error "failed to get queue length: read tcp 127.0.0.1:6379: i/o timeout" := by
  decide!

/-! ## Lemmas about the ETA calculator -/

theorem etaGetCurrentReleaseSeq_up (env : Env) (r : Redis) (t : String) (a : Int)
    (hup : env.redisErr .etaGetReleaseSeq = none) :
    etaGetCurrentReleaseSeq env r t a = .ok (releaseSeqOf r t a) := by
  unfold etaGetCurrentReleaseSeq redisGet releaseSeqOf
  rw [hup]
  cases r.ints (keys.ReleaseSeqKey t a) <;> rfl

theorem etaGetCurrentReleaseSeq_ok (env : Env) (r : Redis) (t : String) (a : Int) (v : Int)
    (h : etaGetCurrentReleaseSeq env r t a = .ok v) : v = releaseSeqOf r t a := by
  unfold etaGetCurrentReleaseSeq redisGet at h
  unfold releaseSeqOf
  cases hup : env.redisErr .etaGetReleaseSeq with
  | some m => simp [hup] at h
  | none =>
    cases hv : r.ints (keys.ReleaseSeqKey t a) with
    | none => simp [hup, hv] at h; simp [h]
    | some v1 => simp [hup, hv] at h; simp [h]

theorem calculateConfidence_range (sqrt : Rat → Rat) (data : List ReleaseEvent) (avg : Rat) :
    3 / 10 ≤ calculateConfidence sqrt data avg ∧ calculateConfidence sqrt data avg ≤ 9 / 10 := by
  unfold calculateConfidence
  split
  · norm_num
  · simp only []
    split
    · norm_num
    · split
      · norm_num
      · split
        · norm_num
        · rename_i h1 h2
          exact ⟨le_of_not_lt h1, le_of_not_lt h2⟩

theorem calculateHistoricalETA_ok (sqrt : Rat → Rat) (env : Env) (r : Redis) (a : Activity)
    (position : Int) (res : ETAResult)
    (h : calculateHistoricalETA sqrt env r a position = .ok res) :
    res.Method = "historical" ∧ 3 / 10 ≤ res.Confidence ∧ res.Confidence ≤ 9 / 10 ∧
    ∃ data, getHistoricalReleaseData env r a.TenantID a.ID (3600 * 1000000000) = .ok data ∧
      3 ≤ data.length := by
  unfold calculateHistoricalETA at h
  split at h
  · simp at h
  · rename_i data hdata
    split at h
    · simp at h
    · rename_i hlen
      simp only [] at h
      split at h
      · simp at h
      · split at h
        · simp at h
        · simp only [Except.ok.injEq] at h
          subst h
          have := calculateConfidence_range sqrt data
            (f64Div (f64OfInt (historicalTotals data).1)
              (durationSeconds (historicalTotals data).2))
          exact ⟨rfl, this.1, this.2, data, hdata, by omega⟩

theorem calculateCurrentRateETA_ok (env : Env) (r : Redis) (a : Activity) (position : Int)
    (res : ETAResult) (h : calculateCurrentRateETA env r a position = .ok res) :
    res.Method = "current_rate" ∧ res.Confidence = 6 / 10 ∧
    ∃ data, getHistoricalReleaseData env r a.TenantID a.ID (300 * 1000000000) = .ok data ∧
      2 ≤ data.length := by
  unfold calculateCurrentRateETA at h
  split at h
  · simp at h
  · rename_i data hdata
    split at h
    · rename_i latest prev rest
      simp only [] at h
      split at h
      · simp at h
      · split at h
        · simp at h
        · simp only [Except.ok.injEq] at h
          subst h
          exact ⟨rfl, rfl, _, hdata, by simp [List.length_cons]⟩
    · simp at h

theorem calculateStaticETA_ok (env : Env) (a : Activity) (position : Int) (res : ETAResult)
    (h : calculateStaticETA env a position = .ok res) :
    0 < a.Config.ReleaseRate ∧ res.Method = "static" ∧ res.Confidence = 5 / 10 ∧
    res.EstimatedWaitSeconds =
      f64ToInt64 (f64Div (f64OfInt position) (f64OfInt a.Config.ReleaseRate)) := by
  unfold calculateStaticETA at h
  split at h
  · simp at h
  · rename_i hr
    simp only [Except.ok.injEq] at h
    subst h
    exact ⟨by omega, rfl, rfl, rfl⟩

/-- A result of `CalculateETA`, by the branch that produced it. -/
theorem CalculateETA_ok_inv (sqrt : Rat → Rat) (env : Env) (r : Redis) (a : Activity)
    (userSeq : Int) (res : ETAResult) (h : CalculateETA sqrt env r a userSeq = .ok res) :
    (etaPosition r a userSeq ≤ 0 ∧
      res = { EstimatedWaitSeconds := 0, EstimatedWaitTime := env.now, Confidence := 1,
              NextPollInterval := 0, Method := "immediate" }) ∨
    (0 < etaPosition r a userSeq ∧ ∃ res0,
      (calculateHistoricalETA sqrt env r a (etaPosition r a userSeq) = .ok res0 ∨
       ((∃ e, calculateHistoricalETA sqrt env r a (etaPosition r a userSeq) = .error e) ∧
        calculateCurrentRateETA env r a (etaPosition r a userSeq) = .ok res0) ∨
       ((∃ e, calculateHistoricalETA sqrt env r a (etaPosition r a userSeq) = .error e) ∧
        (∃ e, calculateCurrentRateETA env r a (etaPosition r a userSeq) = .error e) ∧
        calculateStaticETA env a (etaPosition r a userSeq) = .ok res0)) ∧
      res = { res0 with NextPollInterval :=
        calculatePollInterval res0.EstimatedWaitSeconds a.Config.PollInterval }) ∨
    (0 < etaPosition r a userSeq ∧
      (∃ e, calculateStaticETA env a (etaPosition r a userSeq) = .error e) ∧
      res = calculateBasicETA env (etaPosition r a userSeq)) := by
  unfold CalculateETA at h
  split at h
  · simp at h
  · rename_i releaseSeq hrel
    have := etaGetCurrentReleaseSeq_ok _ _ _ _ _ hrel
    subst this
    simp only [] at h
    change (if etaPosition r a userSeq ≤ 0 then _ else _) = _ at h
    by_cases hp : etaPosition r a userSeq ≤ 0
    · rw [if_pos hp] at h
      simp only [Except.ok.injEq] at h
      exact Or.inl ⟨hp, h.symm⟩
    · rw [if_neg hp] at h
      have hp : 0 < etaPosition r a userSeq := by omega
      change (match calculateHistoricalETA sqrt env r a (etaPosition r a userSeq) with
        | .ok result => _
        | .error _ =>
          match calculateCurrentRateETA env r a (etaPosition r a userSeq) with
          | .ok result => _
          | .error _ =>
            match calculateStaticETA env a (etaPosition r a userSeq) with
            | .ok result => _
            | .error _ => _) = _ at h
      cases h1 : calculateHistoricalETA sqrt env r a (etaPosition r a userSeq) with
      | ok res0 =>
        rw [h1] at h
        simp only [Except.ok.injEq] at h
        exact Or.inr (Or.inl ⟨hp, res0, Or.inl rfl, h.symm⟩)
      | error e1 =>
        rw [h1] at h
        simp only [] at h
        cases h2 : calculateCurrentRateETA env r a (etaPosition r a userSeq) with
        | ok res0 =>
          rw [h2] at h
          simp only [Except.ok.injEq] at h
          exact Or.inr (Or.inl ⟨hp, res0, Or.inr (Or.inl ⟨⟨e1, rfl⟩, rfl⟩), h.symm⟩)
        | error e2 =>
          rw [h2] at h
          simp only [] at h
          cases h3 : calculateStaticETA env a (etaPosition r a userSeq) with
          | ok res0 =>
            rw [h3] at h
            simp only [Except.ok.injEq] at h
            exact Or.inr (Or.inl ⟨hp, res0,
              Or.inr (Or.inr ⟨⟨e1, rfl⟩, ⟨e2, rfl⟩, rfl⟩), h.symm⟩)
          | error e3 =>
            rw [h3] at h
            simp only [Except.ok.injEq] at h
            exact Or.inr (Or.inr ⟨hp, ⟨e3, rfl⟩, h.symm⟩)

/-! ## C15: the immediate result -/

/-- C15: when the read of `release_seq` reaches Redis and the position
`seq - release_seq` (on `int64`) is at most 0, `CalculateETA` returns estimated
wait 0, confidence 1.0, method `immediate` and next poll interval 0, whatever the
event ring, the release rate and the square-root function. -/
theorem CalculateETA_immediate (sqrt : Rat → Rat) (env : Env) (r : Redis) (activity : Activity)
    (userSeq : Int) (hup : env.redisErr .etaGetReleaseSeq = none)
    (hpos : etaPosition r activity userSeq ≤ 0) :
    CalculateETA sqrt env r activity userSeq =
      .ok { EstimatedWaitSeconds := 0, EstimatedWaitTime := env.now, Confidence := 1,
            NextPollInterval := 0, Method := "immediate" } := by
  unfold CalculateETA
  rw [etaGetCurrentReleaseSeq_up env r _ _ hup]
  simp only []
  unfold etaPosition at hpos
  rw [if_pos hpos]

/-- C15 (witness): with `release_seq = 3`, the client with sequence number 1 of
activity 1 gets the immediate result. -/
theorem CalculateETA_immediate_witness :
    etaPosition demoReleased.redis demoActivity 1 ≤ 0 ∧
    CalculateETA (fun x => x) (demoEnv 3000000000) demoReleased.redis demoActivity 1 =
      .ok { EstimatedWaitSeconds := 0, EstimatedWaitTime := 3000000000, Confidence := 1,
            NextPollInterval := 0, Method := "immediate" } :=
  ⟨by decide!,
   CalculateETA_immediate (fun x => x) (demoEnv 3000000000) demoReleased.redis demoActivity 1
    rfl (by decide!)⟩

/-! ## C16: range of the confidence -/

/-- C16 (counterexample): for the client with sequence number 1 and
`release_seq = 3`, `CalculateETA` returns confidence 1, which is above 0.9. -/
theorem CalculateETA_immediate_confidence_above_range :
    CalculateETA (fun x => x) (demoEnv 3000000000) demoReleased.redis demoActivity 1 =
      .ok { EstimatedWaitSeconds := 0, EstimatedWaitTime := 3000000000, Confidence := 1,
            NextPollInterval := 0, Method := "immediate" } ∧
    ¬ ((1 : Rat) ≤ 9 / 10) := by
  decide!

/-- C16 (amended): for every input, a result of `CalculateETA` has confidence 1.0
and method `immediate` when the position is at most 0, and a confidence in the
closed interval from 0.3 to 0.9 when the position is positive. -/
theorem CalculateETA_confidence (sqrt : Rat → Rat) (env : Env) (r : Redis) (activity : Activity)
    (userSeq : Int) (res : ETAResult)
    (h : CalculateETA sqrt env r activity userSeq = .ok res) :
    (etaPosition r activity userSeq ≤ 0 → res.Confidence = 1 ∧ res.Method = "immediate") ∧
    (0 < etaPosition r activity userSeq →
      3 / 10 ≤ res.Confidence ∧ res.Confidence ≤ 9 / 10) := by
  rcases CalculateETA_ok_inv sqrt env r activity userSeq res h with
    ⟨hp, hres⟩ | ⟨hp, res0, hm, hres⟩ | ⟨hp, _, hres⟩
  · subst hres
    exact ⟨fun _ => ⟨rfl, rfl⟩, fun h0 => absurd h0 (by omega)⟩
  · subst hres
    refine ⟨fun h0 => absurd h0 (by omega), fun _ => ?_⟩
    rcases hm with h1 | ⟨_, h2⟩ | ⟨_, _, h3⟩
    · obtain ⟨_, hlo, hhi, _⟩ := calculateHistoricalETA_ok _ _ _ _ _ _ h1
      exact ⟨hlo, hhi⟩
    · obtain ⟨_, hc, _⟩ := calculateCurrentRateETA_ok _ _ _ _ _ h2
      show 3 / 10 ≤ res0.Confidence ∧ res0.Confidence ≤ 9 / 10
      rw [hc]
      norm_num
    · obtain ⟨_, _, hc, _⟩ := calculateStaticETA_ok _ _ _ _ h3
      show 3 / 10 ≤ res0.Confidence ∧ res0.Confidence ≤ 9 / 10
      rw [hc]
      norm_num
  · subst hres
    refine ⟨fun h0 => absurd h0 (by omega), fun _ => ?_⟩
    simp only [calculateBasicETA]
    norm_num

/-- C16 (witness): in `demoQueued` the client with sequence number 2 (position 2)
gets a result whose confidence 0.5 lies between 0.3 and 0.9. -/
theorem CalculateETA_confidence_witness :
    0 < etaPosition demoQueued.redis demoActivity 2 ∧
    CalculateETA (fun x => x) (demoEnv 2000000000) demoQueued.redis demoActivity 2 =
      .ok { EstimatedWaitSeconds := 0, EstimatedWaitTime := 2000000000, Confidence := 1 / 2,
            NextPollInterval := 0, Method := "static" } ∧
    (3 : Rat) / 10 ≤ 1 / 2 ∧ (1 : Rat) / 2 ≤ 9 / 10 :=
  ⟨by decide!, by decide!,
   (CalculateETA_confidence (fun x => x) (demoEnv 2000000000) demoQueued.redis demoActivity 2
    { EstimatedWaitSeconds := 0, EstimatedWaitTime := 2000000000, Confidence := 1 / 2,
      NextPollInterval := 0, Method := "static" } (by decide!)).2 (by decide!)⟩

/-! ## C17: the next poll interval of a result -/

/-- C17 (counterexample): in `demoQueued` the client with sequence number 2 has
position 2 and, at release rate 10, estimated wait 0 by the static method; the
activity's poll interval is 2000, so `min(cap(0), 2000) = 1000`, but the returned
next poll interval is 0. -/
theorem CalculateETA_zero_eta_polls_immediately :
    0 < etaPosition demoQueued.redis demoActivity 2 ∧
    demoActivity.Config.PollInterval = 2000 ∧
    CalculateETA (fun x => x) (demoEnv 2000000000) demoQueued.redis demoActivity 2 =
      .ok { EstimatedWaitSeconds := 0, EstimatedWaitTime := 2000000000, Confidence := 1 / 2,
            NextPollInterval := 0, Method := "static" } ∧
    (0 : Int) ≠ min 1000 2000 := by
  decide!

/-- The table of `calculatePollInterval` in closed form. -/
theorem calculatePollInterval_eq (e p : Int) :
    calculatePollInterval e p =
      (if e ≤ 0 then 0
       else min (if e ≤ 30 then 1000 else if e ≤ 120 then 2000 else if e ≤ 300 then 5000
                 else if e ≤ 600 then 10000 else 30000) p) := by
  unfold calculatePollInterval minInt
  repeat' split
  all_goals omega

/-- The cap of the poll interval does not decrease with the estimated wait. -/
theorem pollCap_mono (e1 e2 : Int) (he : e1 ≤ e2) :
    (if e1 ≤ 30 then (1000 : Int) else if e1 ≤ 120 then 2000 else if e1 ≤ 300 then 5000
      else if e1 ≤ 600 then 10000 else 30000) ≤
    (if e2 ≤ 30 then (1000 : Int) else if e2 ≤ 120 then 2000 else if e2 ≤ 300 then 5000
      else if e2 ≤ 600 then 10000 else 30000) := by
  split_ifs <;> omega

/-- C17 (amended): for every result of `CalculateETA` with position above 0
produced by the historical, current-rate or static method, with estimated wait
`e` and poll interval `p` of the activity, the next poll interval is 0 when
`e ≤ 0` and otherwise `min(cap(e), p)`, where `cap(e)` is 1000 for `e ≤ 30`, 2000
for `e ≤ 120`, 5000 for `e ≤ 300`, 10000 for `e ≤ 600` and 30000 above. -/
theorem CalculateETA_next_poll (sqrt : Rat → Rat) (env : Env) (r : Redis) (activity : Activity)
    (userSeq : Int) (res : ETAResult)
    (h : CalculateETA sqrt env r activity userSeq = .ok res)
    (hpos : 0 < etaPosition r activity userSeq)
    (hmethod : res.Method = "historical" ∨ res.Method = "current_rate" ∨
      res.Method = "static") :
    res.NextPollInterval =
      (if res.EstimatedWaitSeconds ≤ 0 then 0
       else min (if res.EstimatedWaitSeconds ≤ 30 then 1000
                 else if res.EstimatedWaitSeconds ≤ 120 then 2000
                 else if res.EstimatedWaitSeconds ≤ 300 then 5000
                 else if res.EstimatedWaitSeconds ≤ 600 then 10000
                 else 30000) activity.Config.PollInterval) := by
  rcases CalculateETA_ok_inv sqrt env r activity userSeq res h with
    ⟨hp, _⟩ | ⟨_, res0, _, hres⟩ | ⟨_, _, hres⟩
  · omega
  · subst hres
    exact calculatePollInterval_eq _ _
  · subst hres
    simp [calculateBasicETA] at hmethod

/-- C17 (witness): in `demoQueued` the client with sequence number 500 of
activity 1 has position 500 and gets the static result with estimated wait 50,
whose next poll interval is `min(2000, 2000) = 2000`. -/
theorem CalculateETA_next_poll_witness :
    0 < etaPosition demoQueued.redis demoActivity 500 ∧
    CalculateETA (fun x => x) (demoEnv 2000000000) demoQueued.redis demoActivity 500 =
      .ok { EstimatedWaitSeconds := 50, EstimatedWaitTime := 52000000000, Confidence := 1 / 2,
            NextPollInterval := 2000, Method := "static" } ∧
    (2000 : Int) = (if (50 : Int) ≤ 0 then 0
       else min (if (50 : Int) ≤ 30 then 1000 else if (50 : Int) ≤ 120 then 2000
                 else if (50 : Int) ≤ 300 then 5000 else if (50 : Int) ≤ 600 then 10000
                 else 30000) demoActivity.Config.PollInterval) :=
  ⟨by decide!, by decide!,
   CalculateETA_next_poll (fun x => x) (demoEnv 2000000000) demoQueued.redis demoActivity 500
    { EstimatedWaitSeconds := 50, EstimatedWaitTime := 52000000000, Confidence := 1 / 2,
      NextPollInterval := 2000, Method := "static" } (by decide!) (by decide!)
    (Or.inr (Or.inr rfl))⟩

/-! ## C18: the adaptive poll interval -/

/-- C18: for every poll interval `p ≥ 0` and estimated waits `e1 ≤ e2`,
`calculatePollInterval e1 p ≤ calculatePollInterval e2 p ≤ p`. -/
theorem calculatePollInterval_monotone_bounded (e1 e2 p : Int) (hp : 0 ≤ p) (he : e1 ≤ e2) :
    calculatePollInterval e1 p ≤ calculatePollInterval e2 p ∧ calculatePollInterval e2 p ≤ p := by
  rw [calculatePollInterval_eq e1 p, calculatePollInterval_eq e2 p]
  have hcap := pollCap_mono e1 e2 he
  have hnn : (0 : Int) ≤ min (if e2 ≤ 30 then (1000 : Int) else if e2 ≤ 120 then 2000
      else if e2 ≤ 300 then 5000 else if e2 ≤ 600 then 10000 else 30000) p := by
    apply le_min _ hp
    split_ifs <;> norm_num
  by_cases h1 : e1 ≤ 0
  · rw [if_pos h1]
    by_cases h2 : e2 ≤ 0
    · rw [if_pos h2]
      exact ⟨le_refl _, hp⟩
    · rw [if_neg h2]
      exact ⟨hnn, min_le_right _ _⟩
  · have h2 : ¬ e2 ≤ 0 := by omega
    rw [if_neg h1, if_neg h2]
    exact ⟨min_le_min hcap (le_refl _), min_le_right _ _⟩

/-- C18 (witness): with poll interval 2000, the estimated waits 20 and 400 give
the intervals 1000 and 2000. -/
theorem calculatePollInterval_monotone_bounded_witness :
    (0 : Int) ≤ 2000 ∧ (20 : Int) ≤ 400 ∧
    calculatePollInterval 20 2000 ≤ calculatePollInterval 400 2000 ∧
    calculatePollInterval 400 2000 ≤ 2000 :=
  ⟨by decide, by decide,
   calculatePollInterval_monotone_bounded 20 400 2000 (by decide) (by decide)⟩

/-! ## Lemmas about the fallback chain of the ETA calculator -/

theorem getHistoricalReleaseData_ok (env : Env) (r : Redis) (t : String) (a : Int)
    (duration : Int) (data : List ReleaseEvent)
    (h : getHistoricalReleaseData env r t a duration = .ok data) :
    data = eventsYoungerThan env r t a duration := by
  unfold getHistoricalReleaseData at h
  split at h
  · simp at h
  · simp only [Except.ok.injEq] at h
    exact h.symm

theorem calculateHistoricalETA_few (sqrt : Rat → Rat) (env : Env) (r : Redis) (a : Activity)
    (position : Int)
    (h : (eventsYoungerThan env r a.TenantID a.ID (3600 * 1000000000)).length < 3) :
    ∃ e, calculateHistoricalETA sqrt env r a position = .error e := by
  cases hres : calculateHistoricalETA sqrt env r a position with
  | error e => exact ⟨e, rfl⟩
  | ok res =>
    obtain ⟨_, _, _, data, hd, hlen⟩ := calculateHistoricalETA_ok _ _ _ _ _ _ hres
    rw [getHistoricalReleaseData_ok _ _ _ _ _ _ hd] at hlen
    omega

theorem calculateCurrentRateETA_few (env : Env) (r : Redis) (a : Activity) (position : Int)
    (h : (eventsYoungerThan env r a.TenantID a.ID (300 * 1000000000)).length < 2) :
    ∃ e, calculateCurrentRateETA env r a position = .error e := by
  cases hres : calculateCurrentRateETA env r a position with
  | error e => exact ⟨e, rfl⟩
  | ok res =>
    obtain ⟨_, _, data, hd, hlen⟩ := calculateCurrentRateETA_ok _ _ _ _ _ hres
    rw [getHistoricalReleaseData_ok _ _ _ _ _ _ hd] at hlen
    omega

/-! ## C19: fallback to the static method -/

/-- C19 (counterexample): two inputs with release rate above 0, position above 0
and fewer than three events within the last hour. First, activity 1 has release
rate 10; after two ticks its ring holds two events; the client with sequence
number 3 has position 1, and `CalculateETA` returns the method `current_rate`
with confidence 0.6, not `static` with confidence 0.5. Second, with release rate
3, an empty ring and position `9007199254740995 = 2^53 + 3`, the method is
`static` but the estimated wait is `3002399751580332`, one more than
`floor(position / release_rate) = 3002399751580331`: the conversion of the
position to `float64` rounds it to `2^53 + 4`. -/
theorem CalculateETA_few_events_not_static_floor :
    (0 < demoActivity.Config.ReleaseRate ∧
     0 < etaPosition demoTwoEvents.redis demoActivity 3 ∧
     (eventsYoungerThan (demoEnv 1300000000) demoTwoEvents.redis "t" 1
       (3600 * 1000000000)).length = 2 ∧
     CalculateETA (fun x => x) (demoEnv 1300000000) demoTwoEvents.redis demoActivity 3 =
       .ok { EstimatedWaitSeconds := 0, EstimatedWaitTime := 1300000000, Confidence := 6 / 10,
             NextPollInterval := 0, Method := "current_rate" }) ∧
    (0 < demoActivityRate3.Config.ReleaseRate ∧
     etaPosition Redis.empty demoActivityRate3 9007199254740995 = 9007199254740995 ∧
     (eventsYoungerThan (demoEnv 0) Redis.empty "t" 1 (3600 * 1000000000)).length = 0 ∧
     (CalculateETA (fun x => x) (demoEnv 0) Redis.empty demoActivityRate3
       9007199254740995).map (fun res => (res.Method, res.EstimatedWaitSeconds)) =
       .ok ("static", 3002399751580332) ∧
     (9007199254740995 : Int) / demoActivityRate3.Config.ReleaseRate = 3002399751580331) := by
  decide!

/-- C19 (amended): for every activity with release rate above 0, position above
0 and below `2^53`, a ring holding fewer than 3 events within the last hour and
fewer than 2 events within the last five minutes, and a readable `release_seq`,
`CalculateETA` returns the method `static` with estimated wait
`floor(position / release_rate)` and confidence 0.5
(`9007199254740992 = 2^53`). -/
theorem CalculateETA_static_when_few_events (sqrt : Rat → Rat) (env : Env) (r : Redis)
    (activity : Activity) (userSeq : Int)
    (hup : env.redisErr .etaGetReleaseSeq = none)
    (hrate : 0 < activity.Config.ReleaseRate)
    (hpos : 0 < etaPosition r activity userSeq)
    (hposb : etaPosition r activity userSeq < 9007199254740992)
    (hhour : (eventsYoungerThan env r activity.TenantID activity.ID
      (3600 * 1000000000)).length < 3)
    (hrecent : (eventsYoungerThan env r activity.TenantID activity.ID
      (300 * 1000000000)).length < 2) :
    ∃ res, CalculateETA sqrt env r activity userSeq = .ok res ∧
      res.Method = "static" ∧
      res.EstimatedWaitSeconds = etaPosition r activity userSeq / activity.Config.ReleaseRate ∧
      res.Confidence = 5 / 10 := by
  obtain ⟨e1, h1⟩ := calculateHistoricalETA_few sqrt env r activity
    (etaPosition r activity userSeq) hhour
  obtain ⟨e2, h2⟩ := calculateCurrentRateETA_few env r activity
    (etaPosition r activity userSeq) hrecent
  have h3 : calculateStaticETA env activity (etaPosition r activity userSeq) =
      .ok { EstimatedWaitSeconds :=
              etaPosition r activity userSeq / activity.Config.ReleaseRate,
            EstimatedWaitTime := env.now + wrap64
              (etaPosition r activity userSeq / activity.Config.ReleaseRate * 1000000000),
            Confidence := 5 / 10, NextPollInterval := 0, Method := "static" } := by
    unfold calculateStaticETA
    rw [if_neg (by omega)]
    simp only [f64_quotient_pos_rate _ _ (le_of_lt hpos) hposb hrate]
  unfold CalculateETA
  rw [etaGetCurrentReleaseSeq_up env r _ _ hup]
  simp only []
  have hp : ¬ wrap64 (userSeq - releaseSeqOf r activity.TenantID activity.ID) ≤ 0 := by
    unfold etaPosition at hpos
    omega
  unfold etaPosition at h1 h2 h3
  rw [if_neg hp, h1]
  simp only []
  rw [h2]
  simp only []
  rw [h3]
  unfold etaPosition
  exact ⟨_, rfl, rfl, rfl, rfl⟩

/-- C19 (witness): in `demoQueued`, whose ring is empty, the client with sequence
number 500 of activity 1 (release rate 10) has position 500 and gets the static
result with estimated wait 50. -/
theorem CalculateETA_static_when_few_events_witness :
    0 < etaPosition demoQueued.redis demoActivity 500 ∧
    (eventsYoungerThan (demoEnv 2000000000) demoQueued.redis "t" 1
      (3600 * 1000000000)).length < 3 ∧
    ∃ res, CalculateETA (fun x => x) (demoEnv 2000000000) demoQueued.redis demoActivity 500 =
        .ok res ∧
      res.Method = "static" ∧
      res.EstimatedWaitSeconds =
        etaPosition demoQueued.redis demoActivity 500 / demoActivity.Config.ReleaseRate ∧
      res.Confidence = 5 / 10 :=
  ⟨by decide!, by decide!,
   CalculateETA_static_when_few_events (fun x => x) (demoEnv 2000000000) demoQueued.redis
    demoActivity 500 rfl (by decide) (by decide!) (by decide!) (by decide!) (by decide!)⟩

/-! ## Lemmas about the enter handler and its matcher -/

theorem bytesOf_append (a b : String) :
    Sha256.bytesOf (a ++ b) = Sha256.bytesOf a ++ Sha256.bytesOf b := by
  simp [Sha256.bytesOf, String.data_append]

theorem containsBytes_prefix (p t : List Nat) : handlers.containsBytes (p ++ t) p = true := by
  unfold handlers.containsBytes
  cases t with
  | nil => simp
  | cons x t => simp

theorem enterErrorCode_not_found (e : String) :
    handlers.enterErrorCode ("activity not found: " ++ e) = (404, "ACTIVITY_NOT_FOUND") := by
  have h : handlers.contains ("activity not found: " ++ e) "activity not found" = true := by
    unfold handlers.contains
    have hs : "activity not found: " ++ e = "activity not found" ++ (": " ++ e) := by
      rw [← String.append_assoc]
      rfl
    rw [hs, bytesOf_append]
    exact containsBytes_prefix _ _
  unfold handlers.enterErrorCode
  rw [if_pos h]

theorem enterErrorCode_internal (msg : String)
    (h1 : handlers.contains msg "activity not found" = false)
    (h2 : handlers.contains msg "activity is not active" = false)
    (h3 : handlers.contains msg "rate limit exceeded" = false)
    (h4 : handlers.contains msg "user already in queue" = false) :
    handlers.enterErrorCode msg = (500, "INTERNAL_ERROR") := by
  unfold handlers.enterErrorCode
  simp [h1, h2, h3, h4]

theorem handler_of_service_error (env : Env) (c : handlers.GinContext EnterQueueRequest)
    (r : Redis) (req0 : EnterQueueRequest) (msg : String) (r1 : Redis)
    (hb : c.bind = .ok req0)
    (h : EnterQueue env { req0 with IPAddress := handlers.getClientIP c } r = (.error msg, r1)) :
    (handlers.EnterQueue env c r).1 =
      { status := (handlers.enterErrorCode msg).1,
        body := handlers.errorBody (handlers.enterErrorCode msg).2 msg c.requestID } := by
  unfold handlers.EnterQueue
  rw [hb]
  simp only []
  rw [h]

theorem containsSubstring_iff (s p : List Nat) :
    handlers.containsSubstring s p = true ↔ p <:+: s := by
  unfold handlers.containsSubstring
  constructor
  · intro h
    split at h
    · simp at h
    · rw [List.any_eq_true] at h
      obtain ⟨i, _, hi⟩ := h
      have hp : (s.drop i).take p.length = p := by simpa using hi
      have key : s.take i ++ (s.drop i).take p.length ++ (s.drop i).drop p.length = s := by
        rw [List.append_assoc, List.take_append_drop, List.take_append_drop]
      rw [hp] at key
      exact ⟨s.take i, (s.drop i).drop p.length, key⟩
  · rintro ⟨a, b, rfl⟩
    have hlen : ¬ (a ++ p ++ b).length < p.length := by
      simp only [List.length_append]
      omega
    rw [if_neg hlen, List.any_eq_true]
    refine ⟨a.length, ?_, ?_⟩
    · simp only [List.mem_range, List.length_append]
      omega
    · simp [List.append_assoc]

theorem containsBytes_iff (s p : List Nat) :
    handlers.containsBytes s p = true ↔ p <:+: s := by
  constructor
  · intro h
    unfold handlers.containsBytes at h
    simp only [Bool.and_eq_true, Bool.or_eq_true, decide_eq_true_eq, beq_iff_eq] at h
    obtain ⟨_, h | ⟨_, (h | h) | h⟩⟩ := h
    · rw [h]
    · rw [← h]
      exact (List.take_prefix _ _).isInfix
    · rw [← h]
      exact (List.drop_suffix _ _).isInfix
    · exact (containsSubstring_iff s p).mp h
  · intro h
    have hle := h.length_le
    unfold handlers.containsBytes
    simp only [Bool.and_eq_true, Bool.or_eq_true, decide_eq_true_eq, beq_iff_eq]
    refine ⟨hle, ?_⟩
    by_cases heq : s = p
    · exact Or.inl heq
    · right
      refine ⟨?_, Or.inr ((containsSubstring_iff s p).mpr h)⟩
      rcases Nat.lt_or_ge p.length s.length with hlt | hge
      · exact hlt
      · exact absurd (h.eq_of_length (le_antisymm hle hge)).symm heq

theorem infix_append_cases (pre m p : List Nat) (h : p <:+: pre ++ m) :
    p <:+: m ∨ ∃ k, k < pre.length ∧ p <+: pre.drop k ++ m := by
  induction pre with
  | nil => exact Or.inl (by simpa using h)
  | cons x pre ih =>
    rw [List.cons_append, List.infix_cons_iff] at h
    rcases h with h | h
    · exact Or.inr ⟨0, by simp, by simpa using h⟩
    · rcases ih h with h1 | ⟨k, hk, h1⟩
      · exact Or.inl h1
      · exact Or.inr ⟨k + 1, by simp [hk], by simpa using h1⟩

theorem prefix_agrees (suf m p : List Nat) (h : p <+: suf ++ m) :
    (suf.zip p).all (fun x => x.1 == x.2) = true := by
  induction suf generalizing p with
  | nil => simp
  | cons a suf ih =>
    cases p with
    | nil => simp
    | cons b p =>
      rw [List.cons_append, List.cons_prefix_cons] at h
      simp only [List.zip_cons_cons, List.all_cons, Bool.and_eq_true, beq_iff_eq]
      exact ⟨h.1.symm, ih p h.2⟩

/-- A phrase that no tail of the prefix `pre` agrees with can only occur in
`pre ++ m` inside `m`. -/
theorem contains_append_false (pre m p : String)
    (hchk : ∀ k, k < (Sha256.bytesOf pre).length →
      (((Sha256.bytesOf pre).drop k).zip (Sha256.bytesOf p)).all (fun x => x.1 == x.2) = false)
    (hm : handlers.contains m p = false) :
    handlers.contains (pre ++ m) p = false := by
  unfold handlers.contains at *
  rw [bytesOf_append]
  cases hc : handlers.containsBytes (Sha256.bytesOf pre ++ Sha256.bytesOf m) (Sha256.bytesOf p)
  · rfl
  · rcases infix_append_cases _ _ _ ((containsBytes_iff _ _).mp hc) with h | ⟨k, hk, h⟩
    · rw [(containsBytes_iff _ _).mpr h] at hm
      exact absurd hm (by simp)
    · have := prefix_agrees _ _ _ h
      rw [hchk k hk] at this
      exact absurd this (by simp)

theorem redisIncrBy_error_text (env : Env) (c : RedisCall) (r : Redis) (k : String) (d : Int)
    (e : RedisError) (r1 : Redis) (h : redisIncrBy env c r k d = (.error e, r1)) :
    e.msg = "ERR increment or decrement would overflow" ∨ env.redisErr c = some e.msg := by
  unfold redisIncrBy at h
  split at h
  · rename_i m hm
    simp only [Prod.mk.injEq, Except.error.injEq] at h
    right
    rw [← h.1, hm]
    rfl
  · unfold Redis.incrBy at h
    simp only [] at h
    split at h
    · simp at h
    · simp only [Prod.mk.injEq, Except.error.injEq] at h
      left
      rw [← h.1]
      rfl

theorem checkIPThrottle_error_forms (env : Env) (r : Redis) (t : String) (a : Int)
    (ip : String) (e : String) (r1 : Redis)
    (h : checkIPThrottle env r t a ip = (.error e, r1)) :
    e = "rate limit exceeded" ∨
    ∃ m, e = "throttle check failed: " ++ m ∧
      (m = "ERR increment or decrement would overflow" ∨ env.redisErr .throttleIncr = some m) := by
  unfold checkIPThrottle at h
  split at h
  · simp at h
  · simp only [] at h
    rcases hi : redisIncrBy env .throttleIncr r
      (keys.IPThrottleKey t a (hashIP ip)) 1 with ⟨o, r0⟩
    rw [hi] at h
    cases o with
    | error e0 =>
      simp only [Prod.mk.injEq, Except.error.injEq] at h
      exact Or.inr ⟨e0.msg, h.1.symm, redisIncrBy_error_text _ _ _ _ _ _ _ hi⟩
    | ok count =>
      simp only [] at h
      split at h
      · simp only [Prod.mk.injEq, Except.error.injEq] at h
        exact Or.inl h.1.symm
      · simp at h

theorem checkUserDedupe_error_forms (env : Env) (r : Redis) (t : String) (a : Int)
    (u : String) (e : String) (r1 : Redis)
    (h : checkUserDedupe env r t a u = (.error e, r1)) :
    e = "user already in queue" ∨
    ∃ m, e = "dedupe check failed: " ++ m ∧ env.redisErr .dedupeIsMember = some m := by
  unfold checkUserDedupe at h
  simp only [] at h
  split at h
  · rename_i m hm
    simp only [Prod.mk.injEq, Except.error.injEq] at h
    exact Or.inr ⟨m, h.1.symm, hm⟩
  · split at h
    · simp only [Prod.mk.injEq, Except.error.injEq] at h
      exact Or.inl h.1.symm
    · simp at h

theorem assignSequenceNumber_error_text (env : Env) (r : Redis) (t : String) (a : Int)
    (sid : String) (e : RedisError) (r3 : Redis)
    (h : assignSequenceNumber env r t a sid = (.error e, r3)) :
    e.msg = "ERR increment or decrement would overflow" ∨
      env.redisErr .assignExec = some e.msg := by
  unfold assignSequenceNumber at h
  simp only [] at h
  rcases hi : redisIncrBy env .assignExec r (keys.QueueSeqKey t a) 1 with ⟨o, r1⟩
  rw [hi] at h
  cases o with
  | error e0 =>
    simp only [Prod.mk.injEq, Except.error.injEq] at h
    rw [← h.1]
    exact redisIncrBy_error_text _ _ _ _ _ _ _ hi
  | ok seq => simp at h

/-- The error messages of `EnterQueue`: the wrapped lookup error, one of the three
fixed messages, or a store error behind one of three prefixes. -/
theorem EnterQueue_error_forms (env : Env) (req : EnterQueueRequest) (r : Redis)
    (msg : String) (r1 : Redis) (h : EnterQueue env req r = (.error msg, r1)) :
    (∃ e, getActivity env req.ActivityID = .error e ∧ msg = "activity not found: " ++ e) ∨
    msg = "activity is not active" ∨ msg = "rate limit exceeded" ∨
    msg = "user already in queue" ∨
    ∃ pre m, (pre = "throttle check failed: " ∨ pre = "dedupe check failed: " ∨
        pre = "failed to assign sequence number: ") ∧ msg = pre ++ m ∧
      (m = "ERR increment or decrement would overflow" ∨ ∃ call, env.redisErr call = some m) := by
  unfold EnterQueue at h
  split at h
  · rename_i e he
    simp only [Prod.mk.injEq, Except.error.injEq] at h
    exact Or.inl ⟨e, he, h.1.symm⟩
  · rename_i a hdb
    split at h
    · simp only [Prod.mk.injEq, Except.error.injEq] at h
      exact Or.inr (Or.inl h.1.symm)
    · simp only [] at h
      split at h
      · simp at h
      · rcases e1 : checkIPThrottle env r a.TenantID req.ActivityID req.IPAddress with ⟨o1, r2⟩
        rw [e1] at h
        cases o1 with
        | error e =>
          simp only [Prod.mk.injEq, Except.error.injEq] at h
          rcases checkIPThrottle_error_forms _ _ _ _ _ _ _ e1 with h1 | ⟨m, hm, hs⟩
          · exact Or.inr (Or.inr (Or.inl (h.1.symm.trans h1)))
          · refine Or.inr (Or.inr (Or.inr (Or.inr ⟨_, m, Or.inl rfl, h.1.symm.trans hm, ?_⟩)))
            rcases hs with hs | hs
            · exact Or.inl hs
            · exact Or.inr ⟨_, hs⟩
        | ok u1 =>
          simp only [] at h
          rcases e2 : checkUserDedupe env r2 a.TenantID req.ActivityID req.UserHash with ⟨o2, r3⟩
          rw [e2] at h
          cases o2 with
          | error e =>
            simp only [Prod.mk.injEq, Except.error.injEq] at h
            rcases checkUserDedupe_error_forms _ _ _ _ _ _ _ e2 with h1 | ⟨m, hm, hs⟩
            · exact Or.inr (Or.inr (Or.inr (Or.inl (h.1.symm.trans h1))))
            · exact Or.inr (Or.inr (Or.inr (Or.inr
                ⟨_, m, Or.inr (Or.inl rfl), h.1.symm.trans hm, Or.inr ⟨_, hs⟩⟩)))
          | ok u2 =>
            simp only [] at h
            rcases e3 : assignSequenceNumber env r3 a.TenantID req.ActivityID
              (generateSessionID env req.UserHash req.ActivityID) with ⟨o3, r4⟩
            rw [e3] at h
            cases o3 with
            | error e =>
              simp only [Prod.mk.injEq, Except.error.injEq] at h
              refine Or.inr (Or.inr (Or.inr (Or.inr
                ⟨_, e.msg, Or.inr (Or.inr rfl), h.1.symm, ?_⟩)))
              rcases assignSequenceNumber_error_text _ _ _ _ _ _ _ e3 with hs | hs
              · exact Or.inl hs
              · exact Or.inr ⟨_, hs⟩
            | ok seq => simp at h

/-- A store error whose text contains none of the four matched phrases is
answered with 500 `INTERNAL_ERROR`: the prefix put before the text by the service
cannot complete a phrase. -/
theorem enter_store_fault_internal (env : Env) (c : handlers.GinContext EnterQueueRequest)
    (r : Redis) (req0 : EnterQueueRequest) (msg : String) (r1 : Redis)
    (hb : c.bind = .ok req0)
    (h : EnterQueue env { req0 with IPAddress := handlers.getClientIP c } r = (.error msg, r1))
    (hfound : ∃ a, getActivity env req0.ActivityID = .ok a)
    (hn1 : msg ≠ "activity is not active") (hn2 : msg ≠ "rate limit exceeded")
    (hn3 : msg ≠ "user already in queue")
    (hbenign : ∀ call m, env.redisErr call = some m →
      handlers.contains m "activity not found" = false ∧
      handlers.contains m "activity is not active" = false ∧
      handlers.contains m "rate limit exceeded" = false ∧
      handlers.contains m "user already in queue" = false) :
    (handlers.EnterQueue env c r).1 =
      { status := 500, body := handlers.errorBody "INTERNAL_ERROR" msg c.requestID } := by
  rw [handler_of_service_error env c r req0 _ _ hb h]
  obtain ⟨a, ha⟩ := hfound
  rcases EnterQueue_error_forms _ _ _ _ _ h with
    ⟨e, he, _⟩ | h1 | h1 | h1 | ⟨pre, m, hpre, hmsg, hm⟩
  · rw [ha] at he
    simp at he
  · exact absurd h1 hn1
  · exact absurd h1 hn2
  · exact absurd h1 hn3
  · have hb4 : handlers.contains m "activity not found" = false ∧
        handlers.contains m "activity is not active" = false ∧
        handlers.contains m "rate limit exceeded" = false ∧
        handlers.contains m "user already in queue" = false := by
      rcases hm with hm | ⟨call, hm⟩
      · rw [hm]
        decide!
      · exact hbenign call m hm
    obtain ⟨b1, b2, b3, b4⟩ := hb4
    rw [hmsg]
    rcases hpre with hp | hp | hp <;> subst hp
    · rw [enterErrorCode_internal _
        (contains_append_false _ _ _ (by decide!) b1)
        (contains_append_false _ _ _ (by decide!) b2)
        (contains_append_false _ _ _ (by decide!) b3)
        (contains_append_false _ _ _ (by decide!) b4)]
    · rw [enterErrorCode_internal _
        (contains_append_false _ _ _ (by decide!) b1)
        (contains_append_false _ _ _ (by decide!) b2)
        (contains_append_false _ _ _ (by decide!) b3)
        (contains_append_false _ _ _ (by decide!) b4)]
    · rw [enterErrorCode_internal _
        (contains_append_false _ _ _ (by decide!) b1)
        (contains_append_false _ _ _ (by decide!) b2)
        (contains_append_false _ _ _ (by decide!) b3)
        (contains_append_false _ _ _ (by decide!) b4)]

/-! ## C20: HTTP status and code of a failed enter -/

/-- What the enter handler answers, by the failure of the service: for every
well-formed enter request, a failed activity lookup (an absent row as well as an
unreachable registry) is answered with 404 `ACTIVITY_NOT_FOUND`, an activity that
is not live with 409 `ACTIVITY_NOT_ACTIVE`, an exceeded throttle with 429
`RATE_LIMIT_EXCEEDED`, a user already in the dedupe set with 409
`USER_ALREADY_IN_QUEUE`, and every service error whose message contains none of
the four matched phrases with 500 `INTERNAL_ERROR`. -/
theorem enter_handler_error_mapping (env : Env) (c : handlers.GinContext EnterQueueRequest)
    (r : Redis) (req0 : EnterQueueRequest) (hb : c.bind = .ok req0) :
    (∀ e, getActivity env req0.ActivityID = .error e →
      (handlers.EnterQueue env c r).1 =
        { status := 404,
          body := handlers.errorBody "ACTIVITY_NOT_FOUND" ("activity not found: " ++ e)
            c.requestID }) ∧
    (∀ a, getActivity env req0.ActivityID = .ok a → isActivityActive env a = false →
      (handlers.EnterQueue env c r).1 =
        { status := 409,
          body := handlers.errorBody "ACTIVITY_NOT_ACTIVE" "activity is not active"
            c.requestID }) ∧
    (∀ a r1, getActivity env req0.ActivityID = .ok a → isActivityActive env a = true →
      rejoinSeq env r a { req0 with IPAddress := handlers.getClientIP c } = none →
      checkIPThrottle env r a.TenantID req0.ActivityID (handlers.getClientIP c) =
        (.error "rate limit exceeded", r1) →
      (handlers.EnterQueue env c r).1 =
        { status := 429,
          body := handlers.errorBody "RATE_LIMIT_EXCEEDED" "rate limit exceeded"
            c.requestID }) ∧
    (∀ a r1, getActivity env req0.ActivityID = .ok a → isActivityActive env a = true →
      rejoinSeq env r a { req0 with IPAddress := handlers.getClientIP c } = none →
      checkIPThrottle env r a.TenantID req0.ActivityID (handlers.getClientIP c) =
        (.ok (), r1) →
      env.redisErr .dedupeIsMember = none →
      req0.UserHash ∈ r1.sets (keys.UserDedupeKey a.TenantID req0.ActivityID) →
      (handlers.EnterQueue env c r).1 =
        { status := 409,
          body := handlers.errorBody "USER_ALREADY_IN_QUEUE" "user already in queue"
            c.requestID }) ∧
    (∀ msg r1,
      EnterQueue env { req0 with IPAddress := handlers.getClientIP c } r = (.error msg, r1) →
      handlers.contains msg "activity not found" = false →
      handlers.contains msg "activity is not active" = false →
      handlers.contains msg "rate limit exceeded" = false →
      handlers.contains msg "user already in queue" = false →
      (handlers.EnterQueue env c r).1 =
        { status := 500,
          body := handlers.errorBody "INTERNAL_ERROR" msg c.requestID }) := by
  refine ⟨?_, ?_, ?_, ?_, ?_⟩
  · intro e he
    have h : EnterQueue env { req0 with IPAddress := handlers.getClientIP c } r =
        (.error ("activity not found: " ++ e), r) := by
      unfold EnterQueue
      simp only []
      rw [he]
    rw [handler_of_service_error env c r req0 _ _ hb h, enterErrorCode_not_found]
  · intro a ha hna
    have h : EnterQueue env { req0 with IPAddress := handlers.getClientIP c } r =
        (.error "activity is not active", r) := by
      unfold EnterQueue
      simp only []
      rw [ha]
      simp [hna]
    rw [handler_of_service_error env c r req0 _ _ hb h]
    have : handlers.enterErrorCode "activity is not active" = (409, "ACTIVITY_NOT_ACTIVE") := by
      decide!
    rw [this]
  · intro a r1 ha hact hrj hthr
    have h : EnterQueue env { req0 with IPAddress := handlers.getClientIP c } r =
        (.error "rate limit exceeded", r1) := by
      unfold EnterQueue
      simp only []
      rw [ha]
      simp only [hact, hrj, hthr]
      simp
    rw [handler_of_service_error env c r req0 _ _ hb h]
    have : handlers.enterErrorCode "rate limit exceeded" = (429, "RATE_LIMIT_EXCEEDED") := by
      decide!
    rw [this]
  · intro a r1 ha hact hrj hthr hup hmem
    have hd : checkUserDedupe env r1 a.TenantID req0.ActivityID req0.UserHash =
        (.error "user already in queue", r1) := by
      unfold checkUserDedupe
      simp only []
      rw [hup]
      simp [hmem]
    have h : EnterQueue env { req0 with IPAddress := handlers.getClientIP c } r =
        (.error "user already in queue", r1) := by
      unfold EnterQueue
      simp only []
      rw [ha]
      simp only [hact, hrj, hthr, hd]
      simp
    rw [handler_of_service_error env c r req0 _ _ hb h]
    have : handlers.enterErrorCode "user already in queue" = (409, "USER_ALREADY_IN_QUEUE") := by
      decide!
    rw [this]
  · intro msg r1 h h1 h2 h3 h4
    rw [handler_of_service_error env c r req0 _ _ hb h,
      enterErrorCode_internal msg h1 h2 h3 h4]

/-- An enter request for the absent activity 2 is answered with 404
`ACTIVITY_NOT_FOUND`; an enter request for activity 1 whose sequence assignment
fails with `connection refused` is answered with 500 `INTERNAL_ERROR`. -/
theorem enter_handler_error_mapping_witness :
    (handlers.EnterQueue (demoEnv 1000000000) (demoCtx 2 "u9") demoQueued.redis).1 =
      { status := 404,
        body := handlers.errorBody "ACTIVITY_NOT_FOUND"
          "activity not found: sql: no rows in result set" "req-1" } ∧
    (handlers.EnterQueue (demoFaultEnv 1000000000 .assignExec "connection refused")
      (demoCtx 1 "u9") demoQueued.redis).1 =
      { status := 500,
        body := handlers.errorBody "INTERNAL_ERROR"
          "failed to assign sequence number: connection refused" "req-1" } :=
  ⟨(enter_handler_error_mapping (demoEnv 1000000000) (demoCtx 2 "u9") demoQueued.redis
      { ActivityID := 2, UserHash := "u9", Fingerprint := "", IPAddress := "" } rfl).1
      "sql: no rows in result set" rfl,
   (enter_handler_error_mapping (demoFaultEnv 1000000000 .assignExec "connection refused")
      (demoCtx 1 "u9") demoQueued.redis
      { ActivityID := 1, UserHash := "u9", Fingerprint := "", IPAddress := "" } rfl).2.2.2.2
      "failed to assign sequence number: connection refused"
      (EnterQueue (demoFaultEnv 1000000000 .assignExec "connection refused")
        { ActivityID := 1, UserHash := "u9", Fingerprint := "", IPAddress := "10.0.0.9" }
        demoQueued.redis).2
      (Prod.ext (by decide!) rfl) (by decide!) (by decide!) (by decide!) (by decide!)⟩

/-! # The properties of the specification, C21 to C30 -/

/-- C20 (failing input): the registry holds activity 1, and its query fails with
`context deadline exceeded`. The failure is none of the four named ones
(activity absent, not live, throttle exceeded, user already queued), so the
claim puts it under 500 `INTERNAL_ERROR`; the handler answers 404
`ACTIVITY_NOT_FOUND`. The same error at the sequence assignment of the same
request is answered 500 `INTERNAL_ERROR`. -/
theorem enter_registry_failure_answered_not_found :
    (demoEnv 1000000000).db 1 = .ok demoActivity ∧
    getActivity (demoRegistryFaultEnv 1000000000 "context deadline exceeded") 1 =
      .error "context deadline exceeded" ∧
    (handlers.EnterQueue (demoRegistryFaultEnv 1000000000 "context deadline exceeded")
      (demoCtx 1 "u8") demoQueued.redis).1 =
      { status := 404,
        body := handlers.errorBody "ACTIVITY_NOT_FOUND"
          "activity not found: context deadline exceeded" "req-1" } ∧
    (handlers.EnterQueue (demoFaultEnv 1000000000 .assignExec "context deadline exceeded")
      (demoCtx 1 "u8") demoQueued.redis).1 =
      { status := 500,
        body := handlers.errorBody "INTERNAL_ERROR"
          "failed to assign sequence number: context deadline exceeded" "req-1" } := by
  decide!

/-! ## C21: outages of the registry and of the counter store -/

/-- C21 (failing input): with the registry unreachable (`connection refused`),
enter and status answer 404 `ACTIVITY_NOT_FOUND`; with the registry up, the
binding of the session stored and equal to the submitted sequence number, and
the read of the binding failing because the counter store is unreachable, status
answers 400 `INVALID_SEQUENCE`; the same outage at the read of `queue_seq` is
answered 500 `INTERNAL_ERROR`. -/
theorem outage_answered_as_absence :
    (handlers.EnterQueue (demoDownEnv 1000000000) (demoCtx 1 "u9") demoQueued.redis).1 =
      { status := 404,
        body := handlers.errorBody "ACTIVITY_NOT_FOUND"
          "activity not found: dial tcp 127.0.0.1:5432: connect: connection refused"
          "req-1" } ∧
    handlers.GetQueueStatus (demoDownEnv 2000000000) (demoStatusCtx demoStatusReq2)
        demoQueued.redis =
      { status := 404,
        body := handlers.errorBody "ACTIVITY_NOT_FOUND"
          "activity not found: dial tcp 127.0.0.1:5432: connect: connection refused"
          "req-1" } ∧
    demoQueued.redis.ints (keys.UserQueueKey "t" 1 demoStatusReq2.SessionID) =
      some demoStatusReq2.Seq ∧
    handlers.GetQueueStatus
        (demoFaultEnv 2000000000 .getExistingSeq
          "dial tcp 127.0.0.1:6379: connect: connection refused")
        (demoStatusCtx demoStatusReq2) demoQueued.redis =
      { status := 400,
        body := handlers.errorBody "INVALID_SEQUENCE" "invalid sequence number" "req-1" } ∧
    handlers.GetQueueStatus
        (demoFaultEnv 2000000000 .getCurrentQueueSeq
          "dial tcp 127.0.0.1:6379: connect: connection refused")
        (demoStatusCtx demoStatusReq2) demoQueued.redis =
      { status := 500,
        body := handlers.errorBody "INTERNAL_ERROR"
          ("failed to get queue length: " ++
            "dial tcp 127.0.0.1:6379: connect: connection refused") "req-1" } := by
  decide!

/-! ## C22: time range of a created activity -/

/-- C22 (failing input): a create request with `end_at = start_at` (both 1000 s)
is accepted: the service returns the new id, the row is inserted and the handler
answers 201; a request with `end_at` one nanosecond before `start_at` is refused
with `end_at must be after start_at` (400 `INVALID_TIME_RANGE`) and inserts
nothing. -/
theorem CreateActivity_accepts_empty_window :
    CreateActivity demoInsert (demoCreateReq 1000000000000 1000000000000) [] =
      (.ok { ID := 7, CreatedAt := 5000000000 },
       [(7, { demoCreateReq 1000000000000 1000000000000 with
              Config := { ReleaseRate := 10, MaxConcurrent := 0, EnableThrottle := false,
                          PollInterval := 2000 } })]) ∧
    (handlers.CreateActivity demoInsert
      (demoCreateCtx (demoCreateReq 1000000000000 1000000000000)) []).1 =
      { status := 201,
        body := [("success", .bool true),
                 ("data", .createData { ID := 7, CreatedAt := 5000000000 })] } ∧
    handlers.CreateActivity demoInsert
      (demoCreateCtx (demoCreateReq 1000000000000 999999999999)) [] =
      ({ status := 400,
         body := handlers.errorBody "INVALID_TIME_RANGE" "end_at must be after start_at"
           "req-1" }, []) := by
  decide!

/-! ## C23: the key schema -/

theorem digitChar_spec (k : Nat) (hk : k < 10) :
    (Nat.digitChar k).isDigit = true ∧ (Nat.digitChar k).toNat - 48 = k := by
  interval_cases k <;> decide

theorem decimalValue_append (l : List Char) (c : Char) :
    decimalValue (l ++ [c]) = decimalValue l * 10 + (c.toNat - 48) := by
  simp [decimalValue, List.foldl_append]

theorem toDigitsCore_spec (fuel : Nat) : ∀ (n : Nat) (ds : List Char), n < fuel →
    ∃ pre, Nat.toDigitsCore 10 fuel n ds = pre ++ ds ∧ decimalValue pre = n ∧
      (∀ c ∈ pre, c.isDigit = true) ∧ pre ≠ [] := by
  induction fuel with
  | zero => intro n ds h; omega
  | succ fuel ih =>
    intro n ds h
    have hd := digitChar_spec (n % 10) (Nat.mod_lt _ (by norm_num))
    unfold Nat.toDigitsCore
    simp only []
    by_cases h0 : n / 10 = 0
    · rw [if_pos h0]
      refine ⟨[Nat.digitChar (n % 10)], rfl, ?_, ?_, by simp⟩
      · simp only [decimalValue, List.foldl_cons, List.foldl_nil]
        omega
      · intro c hc
        simp only [List.mem_singleton] at hc
        rw [hc]
        exact hd.1
    · rw [if_neg h0]
      obtain ⟨pre, hpre, hval, hdig, _⟩ := ih (n / 10) (Nat.digitChar (n % 10) :: ds) (by omega)
      refine ⟨pre ++ [Nat.digitChar (n % 10)], ?_, ?_, ?_, by simp⟩
      · rw [hpre]
        simp
      · rw [decimalValue_append, hval]
        omega
      · intro c hc
        rcases List.mem_append.mp hc with hc | hc
        · exact hdig c hc
        · simp only [List.mem_singleton] at hc
          rw [hc]
          exact hd.1

/-- The decimal digits of a natural number: they are digits, at least one, and
they write the number. -/
theorem toDigits_spec (n : Nat) :
    decimalValue (Nat.toDigits 10 n) = n ∧ (∀ c ∈ Nat.toDigits 10 n, c.isDigit = true) ∧
      Nat.toDigits 10 n ≠ [] := by
  obtain ⟨pre, hpre, hval, hdig, hne⟩ := toDigitsCore_spec (n + 1) n [] (by omega)
  unfold Nat.toDigits
  rw [hpre, List.append_nil]
  exact ⟨hval, hdig, hne⟩

/-- The characters of `fmtInt a`: a minus sign for a negative number, then the
decimal digits of the absolute value. -/
theorem fmtInt_data (a : Int) :
    (fmtInt a).data = (if a < 0 then ['-'] else []) ++ Nat.toDigits 10 a.natAbs := by
  cases a with
  | ofNat m =>
    have : ¬ (Int.ofNat m < 0) := by simp
    rw [if_neg this]
    rfl
  | negSucc m =>
    have : Int.negSucc m < 0 := Int.negSucc_lt_zero m
    rw [if_pos this]
    rfl

theorem isDigit_ne (c : Char) (h : c.isDigit = true) : c ≠ ':' ∧ c ≠ '-' := by
  constructor
  · intro hc
    rw [hc] at h
    exact absurd h (by decide)
  · intro hc
    rw [hc] at h
    exact absurd h (by decide)

theorem fmtInt_no_colon (a : Int) : ':' ∉ (fmtInt a).data := by
  rw [fmtInt_data]
  intro h
  rcases List.mem_append.mp h with h | h
  · split at h
    · simp at h
    · simp at h
  · exact (isDigit_ne _ ((toDigits_spec a.natAbs).2.1 _ h)).1 rfl

theorem fmtInt_injective (a b : Int) (h : fmtInt a = fmtInt b) : a = b := by
  have hd := congrArg String.data h
  rw [fmtInt_data, fmtInt_data] at hd
  obtain ⟨va, da, nea⟩ := toDigits_spec a.natAbs
  obtain ⟨vb, db, neb⟩ := toDigits_spec b.natAbs
  have hhead : ∀ n : Nat, ∀ l, '-' :: l ≠ Nat.toDigits 10 n := by
    intro n l hl
    have := (toDigits_spec n).2.1 '-' (by rw [← hl]; exact List.mem_cons_self _ _)
    exact (isDigit_ne _ this).2 rfl
  by_cases ha : a < 0 <;> by_cases hb : b < 0
  · simp only [if_pos ha, if_pos hb, List.singleton_append, List.cons.injEq, true_and] at hd
    have : a.natAbs = b.natAbs := by rw [← va, ← vb, hd]
    omega
  · simp only [if_pos ha, if_neg hb, List.singleton_append, List.nil_append] at hd
    exact absurd hd (hhead _ _)
  · simp only [if_neg ha, if_pos hb, List.singleton_append, List.nil_append] at hd
    exact absurd hd.symm (hhead _ _)
  · simp only [if_neg ha, if_neg hb, List.nil_append] at hd
    have : a.natAbs = b.natAbs := by rw [← va, ← vb, hd]
    omega

theorem split_at_first {α : Type} (c : α) : ∀ (x1 x2 z1 z2 : List α), c ∉ x1 → c ∉ x2 →
    x1 ++ c :: z1 = x2 ++ c :: z2 → x1 = x2 ∧ z1 = z2 := by
  intro x1
  induction x1 with
  | nil =>
    intro x2 z1 z2 _ h2 h
    cases x2 with
    | nil => simpa using h
    | cons y ys =>
      simp only [List.nil_append, List.cons_append, List.cons.injEq] at h
      exact absurd (List.mem_cons_self _ _) (h.1 ▸ h2)
  | cons a as ih =>
    intro x2 z1 z2 h1 h2 h
    cases x2 with
    | nil =>
      simp only [List.nil_append, List.cons_append, List.cons.injEq] at h
      exact absurd (List.mem_cons_self _ _) (h.1 ▸ h1)
    | cons y ys =>
      simp only [List.cons_append, List.cons.injEq] at h
      obtain ⟨e1, e2⟩ := ih ys z1 z2 (fun hm => h1 (List.mem_cons_of_mem _ hm))
        (fun hm => h2 (List.mem_cons_of_mem _ hm)) h.2
      exact ⟨by rw [h.1, e1], e2⟩

theorem split_at_last {α : Type} (c : α) (x1 x2 z1 z2 : List α) (h1 : c ∉ z1) (h2 : c ∉ z2)
    (h : x1 ++ c :: z1 = x2 ++ c :: z2) : x1 = x2 ∧ z1 = z2 := by
  have hr := congrArg List.reverse h
  simp only [List.reverse_append, List.reverse_cons, List.append_assoc,
    List.singleton_append] at hr
  obtain ⟨e1, e2⟩ := split_at_first c z1.reverse z2.reverse x1.reverse x2.reverse
    (by simpa using h1) (by simpa using h2) hr
  exact ⟨List.reverse_injective e2, List.reverse_injective e1⟩

/-- C23: for every tenant string `t`, activity id `a` and string `x`, each key
function returns its literal prefix, `t`, a colon, `a` rendered in decimal (a
minus sign for a negative id, then the decimal digits of the absolute value)
and, for the three-argument keys, a colon and `x`; the seven examples of
`keys_test.go` evaluate to the expected strings. -/
theorem key_schema (t : String) (a : Int) (x : String) :
    (keys.UserQueueKey t a x = "user:queue:" ++ t ++ ":" ++ fmtInt a ++ ":" ++ x ∧
     keys.QueueSeqKey t a = "queue:seq:" ++ t ++ ":" ++ fmtInt a ∧
     keys.ReleaseSeqKey t a = "release:seq:" ++ t ++ ":" ++ fmtInt a ∧
     keys.ActiveUsersKey t a = "active:users:" ++ t ++ ":" ++ fmtInt a ∧
     keys.IPThrottleKey t a x = "throttle:ip:" ++ t ++ ":" ++ fmtInt a ++ ":" ++ x ∧
     keys.UserDedupeKey t a = "dedupe:user:" ++ t ++ ":" ++ fmtInt a ∧
     keys.MetricsKey t a x = "metrics:" ++ t ++ ":" ++ fmtInt a ++ ":" ++ x) ∧
    ((fmtInt a).data = (if a < 0 then ['-'] else []) ++ Nat.toDigits 10 a.natAbs ∧
     decimalValue (Nat.toDigits 10 a.natAbs) = a.natAbs ∧
     (∀ c ∈ Nat.toDigits 10 a.natAbs, c.isDigit = true) ∧
     Nat.toDigits 10 a.natAbs ≠ []) ∧
    (keys.UserQueueKey "tenant1" 123 "session456" = "user:queue:tenant1:123:session456" ∧
     keys.QueueSeqKey "tenant1" 123 = "queue:seq:tenant1:123" ∧
     keys.ReleaseSeqKey "tenant1" 123 = "release:seq:tenant1:123" ∧
     keys.ActiveUsersKey "tenant1" 123 = "active:users:tenant1:123" ∧
     keys.IPThrottleKey "tenant1" 123 "iphash789" = "throttle:ip:tenant1:123:iphash789" ∧
     keys.UserDedupeKey "tenant1" 123 = "dedupe:user:tenant1:123" ∧
     keys.MetricsKey "tenant1" 123 "enter_total" = "metrics:tenant1:123:enter_total") := by
  refine ⟨⟨rfl, rfl, rfl, rfl, rfl, rfl, rfl⟩, ⟨fmtInt_data a, toDigits_spec a.natAbs⟩, ?_⟩
  decide

/-! ## C24: format of session ids and IP hashes -/

theorem round_length (st : List Nat) (kw : Nat × Nat) :
    (Sha256.round st kw).length = st.length := by
  unfold Sha256.round
  split <;> simp

theorem foldl_round_length (l : List (Nat × Nat)) : ∀ st : List Nat,
    (l.foldl Sha256.round st).length = st.length := by
  induction l with
  | nil => intro st; rfl
  | cons kw l ih =>
    intro st
    rw [List.foldl_cons, ih, round_length]

theorem compress_length (h block : List Nat) : (Sha256.compress h block).length = h.length := by
  unfold Sha256.compress
  simp only [List.length_zipWith, foldl_round_length]
  simp

theorem foldl_compress_length (bl : List (List Nat)) : ∀ h : List Nat,
    (bl.foldl Sha256.compress h).length = h.length := by
  induction bl with
  | nil => intro h; rfl
  | cons b bl ih =>
    intro h
    rw [List.foldl_cons, ih, compress_length]

theorem length_flatMap_const {α β : Type} (f : α → List β) (n : Nat)
    (hf : ∀ a, (f a).length = n) : ∀ l : List α, (l.flatMap f).length = n * l.length := by
  intro l
  induction l with
  | nil => simp
  | cons a l ih =>
    rw [List.flatMap_cons, List.length_append, ih, hf, List.length_cons]
    ring

/-- The digest has 32 bytes. -/
theorem sum256_length (msg : List Nat) : (Sha256.sum256 msg).length = 32 := by
  unfold Sha256.sum256
  simp only []
  have h4 : ∀ w : Nat,
      ([(w >>> 24) % 256, (w >>> 16) % 256, (w >>> 8) % 256, w % 256] : List Nat).length = 4 :=
    fun _ => rfl
  rw [length_flatMap_const _ 4 h4, foldl_compress_length]
  rfl

theorem hexDigit_lower (n : Nat) : isLowerHexDigit (Sha256.hexDigit n) = true := by
  by_cases h : n < 16
  · interval_cases n <;> decide
  · unfold Sha256.hexDigit
    rw [List.getD_eq_default _ _ (by simpa using h)]
    decide

theorem hexEncode_length (bs : List Nat) : (Sha256.hexEncode bs).data.length = 2 * bs.length := by
  unfold Sha256.hexEncode
  have h2 : ∀ b : Nat,
      ([Sha256.hexDigit (b / 16), Sha256.hexDigit (b % 16)] : List Char).length = 2 :=
    fun _ => rfl
  exact length_flatMap_const _ 2 h2 bs

theorem hexEncode_lower (bs : List Nat) :
    ∀ c ∈ (Sha256.hexEncode bs).data, isLowerHexDigit c = true := by
  intro c hc
  unfold Sha256.hexEncode at hc
  simp only [List.mem_flatMap, List.mem_cons, List.mem_singleton, List.not_mem_nil,
    or_false] at hc
  obtain ⟨b, _, hb | hb⟩ := hc
  · rw [hb]
    exact hexDigit_lower _
  · rw [hb]
    exact hexDigit_lower _

/-- The first 16 characters of the hexadecimal digest of any message: exactly 16
lowercase hexadecimal digits. -/
theorem hex16_format (msg : List Nat) :
    (String.mk ((Sha256.hexEncode (Sha256.sum256 msg)).data.take 16)).length = 16 ∧
    ∀ c ∈ (String.mk ((Sha256.hexEncode (Sha256.sum256 msg)).data.take 16)).data,
      isLowerHexDigit c = true := by
  constructor
  · show ((Sha256.hexEncode (Sha256.sum256 msg)).data.take 16).length = 16
    rw [List.length_take, hexEncode_length, sum256_length]
    rfl
  · intro c hc
    exact hexEncode_lower _ c (List.mem_of_mem_take hc)

/-- C24: for every user hash, activity id, clock reading and IP string,
`generateSessionID` and `hashIP` each return exactly 16 characters (so a
non-empty string), all lowercase hexadecimal digits; `generateSessionID` is the
same for two clock readings with the same quotient `Unix() / 3600` of Go, which
for readings at or after the Unix epoch is `floor(now / 3600)`. -/
theorem session_id_format (env : Env) (userHash : String) (activityID : Int) (ip : String) :
    ((generateSessionID env userHash activityID).length = 16 ∧
      generateSessionID env userHash activityID ≠ "" ∧
      ∀ c ∈ (generateSessionID env userHash activityID).data, isLowerHexDigit c = true) ∧
    ((hashIP ip).length = 16 ∧ hashIP ip ≠ "" ∧
      ∀ c ∈ (hashIP ip).data, isLowerHexDigit c = true) ∧
    (∀ env2 : Env,
      Int.tdiv (unixSeconds env2.now) 3600 = Int.tdiv (unixSeconds env.now) 3600 →
      generateSessionID env2 userHash activityID = generateSessionID env userHash activityID) ∧
    (∀ env2 : Env, 0 ≤ env.now → 0 ≤ env2.now →
      unixSeconds env2.now / 3600 = unixSeconds env.now / 3600 →
      generateSessionID env2 userHash activityID = generateSessionID env userHash activityID) := by
  have hne : ∀ s : String, s.length = 16 → s ≠ "" := by
    intro s hs he
    rw [he] at hs
    exact absurd hs (by decide)
  refine ⟨?_, ?_, ?_, ?_⟩
  · have h := hex16_format (Sha256.bytesOf (userHash ++ ":" ++ fmtInt activityID ++ ":" ++
      fmtInt (Int.tdiv (unixSeconds env.now) 3600)))
    exact ⟨h.1, hne _ h.1, h.2⟩
  · have h := hex16_format (Sha256.bytesOf (ip ++ "salt"))
    exact ⟨h.1, hne _ h.1, h.2⟩
  · intro env2 h
    exact generateSessionID_same_hour env env2 userHash activityID h
  · intro env2 h1 h2 h
    apply generateSessionID_same_hour env env2 userHash activityID
    have u1 : 0 ≤ unixSeconds env.now := by unfold unixSeconds; omega
    have u2 : 0 ≤ unixSeconds env2.now := by unfold unixSeconds; omega
    rw [Int.tdiv_eq_ediv u1 (by norm_num), Int.tdiv_eq_ediv u2 (by norm_num)]
    exact h

/-- C24 (witness): the session ids of user `u1` for activity 1 at 1 s and at
3599 s, both in hour 0, are the same 16 hexadecimal digits. -/
theorem session_id_format_witness :
    generateSessionID (demoEnv 3599000000000) "u1" 1 =
      generateSessionID (demoEnv 1000000000) "u1" 1 ∧
    (generateSessionID (demoEnv 1000000000) "u1" 1).length = 16 ∧
    generateSessionID (demoEnv 1000000000) "u1" 1 = "51e59c8e6354b474" :=
  ⟨(session_id_format (demoEnv 1000000000) "u1" 1 "").2.2.2 (demoEnv 3599000000000)
      (by decide) (by decide) (by decide),
   (session_id_format (demoEnv 1000000000) "u1" 1 "").1.1, by decide!⟩

/-! ## C25: an enter request that fails to bind -/

/-- C25 (failing input): an enter request whose body lacks `user_hash` fails to
bind; the handler answers 400 with the fields `error` (`INVALID_REQUEST`),
`message` and `request_id`, the body has no field `success`, and the store is
left as it was. -/
theorem enter_bind_error_has_no_success_field :
    (handlers.EnterQueue (demoEnv 1000000000) demoMissingUserHashCtx demoQueued.redis).1 =
      { status := 400,
        body := [("error", .str "INVALID_REQUEST"),
                 ("message", .str "field validation for UserHash failed on the required tag"),
                 ("request_id", .str "req-1")] } ∧
    (handlers.EnterQueue (demoEnv 1000000000) demoMissingUserHashCtx
      demoQueued.redis).1.body.lookup "success" = none ∧
    (handlers.EnterQueue (demoEnv 1000000000) demoMissingUserHashCtx
      demoQueued.redis).1.body.lookup "error" = some (.str "INVALID_REQUEST") ∧
    (handlers.EnterQueue (demoEnv 1000000000) demoMissingUserHashCtx
      demoQueued.redis).2 = demoQueued.redis :=
  ⟨by decide!, by decide!, by decide!, rfl⟩

/-! ## C26: one tick of the scheduler -/

theorem schedGetCurrentQueueSeq_up (env : Env) (r : Redis) (t : String) (a : Int)
    (hup : env.redisErr .schedGetQueueSeq = none) :
    schedGetCurrentQueueSeq env r t a = .ok (queueSeqOf r t a) := by
  unfold schedGetCurrentQueueSeq redisGet queueSeqOf
  rw [hup]
  cases r.ints (keys.QueueSeqKey t a) <;> rfl

theorem getCurrentReleaseSeq_up (env : Env) (r : Redis) (t : String) (a : Int)
    (hup : env.redisErr .schedGetReleaseSeq = none) :
    getCurrentReleaseSeq env r t a = .ok (releaseSeqOf r t a) := by
  unfold getCurrentReleaseSeq redisGet releaseSeqOf
  rw [hup]
  cases r.ints (keys.ReleaseSeqKey t a) <;> rfl

/-- The count of one tick: the credit floored at 1 and capped by the queue
length. -/
theorem tick_count_eq (credit qlen : Int) :
    min64 (if credit ≤ 0 then 1 else credit) qlen = min (max 1 credit) qlen := by
  unfold min64
  split_ifs <;> omega

theorem updateReleaseSeq_up (env : Env) (r : Redis) (t : String) (a : Int) (v : Int)
    (hw : env.redisErr .schedSetReleaseSeq = none) :
    updateReleaseSeq env r t a v = (none, r.setEx (keys.ReleaseSeqKey t a) v (24 * 3600)) := by
  unfold updateReleaseSeq redisSetEx
  rw [hw]

theorem performRelease_idle (env : Env) (task : SchedulerTask) (r : Redis)
    (hlive : isActivityStillActive env task.ActivityID = true)
    (hq : env.redisErr .schedGetQueueSeq = none)
    (hr : env.redisErr .schedGetReleaseSeq = none)
    (hlen : wrap64 (queueSeqOf r task.TenantID task.ActivityID -
      releaseSeqOf r task.TenantID task.ActivityID) ≤ 0) :
    performRelease env task r = (.ok (), task, r) := by
  unfold performRelease
  rw [hlive, schedGetCurrentQueueSeq_up _ _ _ _ hq, getCurrentReleaseSeq_up _ _ _ _ hr]
  simp only [Bool.not_true, Bool.false_eq_true, if_false]
  rw [if_pos hlen]

theorem performRelease_release (env : Env) (task : SchedulerTask) (r : Redis)
    (hlive : isActivityStillActive env task.ActivityID = true)
    (hq : env.redisErr .schedGetQueueSeq = none)
    (hr : env.redisErr .schedGetReleaseSeq = none)
    (hw : env.redisErr .schedSetReleaseSeq = none)
    (count : Int)
    (hcount : count = min64
      (if expectedReleases task.ReleaseRate (timeSub env.now task.LastRelease) ≤ 0 then 1
        else expectedReleases task.ReleaseRate (timeSub env.now task.LastRelease))
      (wrap64 (queueSeqOf r task.TenantID task.ActivityID -
        releaseSeqOf r task.TenantID task.ActivityID)))
    (hlen : 0 < wrap64 (queueSeqOf r task.TenantID task.ActivityID -
      releaseSeqOf r task.TenantID task.ActivityID)) :
    (performRelease env task r).1 = .ok () ∧
    (performRelease env task r).2.1 =
      { task with LastRelease := env.now,
                  TotalReleased :=
                    wrap64 (releaseSeqOf r task.TenantID task.ActivityID + count) } ∧
    releaseSeqOf (performRelease env task r).2.2 task.TenantID task.ActivityID =
      wrap64 (releaseSeqOf r task.TenantID task.ActivityID + count) := by
  have hpos : 0 < count := by
    rw [hcount]
    unfold min64
    split_ifs <;> omega
  unfold performRelease
  rw [hlive, schedGetCurrentQueueSeq_up _ _ _ _ hq, getCurrentReleaseSeq_up _ _ _ _ hr]
  simp only [Bool.not_true, Bool.false_eq_true, if_false]
  rw [if_neg (by omega), ← hcount, if_neg (by omega), updateReleaseSeq_up _ _ _ _ _ hw]
  simp only []
  refine ⟨trivial, trivial, ?_⟩
  unfold releaseSeqOf
  rw [updateReleaseMetrics_ints_release _ _ _ _ _ _ (keyHead_ReleaseSeqKey _ _),
    recordReleaseEvent_ints]
  simp [Redis.setEx, upd]

/-- C26 (counterexample): the task of activity 1 with rate 100 per second ticks
0.29 s after its last release on a queue of length 100. The claimed count is
`min(max(1, floor(100 × 0.29)), 100) = 29`; the tick moves `release_seq` from 0
to 28: in `float64` arithmetic `0.29` is `0.28999999999999998` and the product
with 100 rounds to `28.999999999999996`, which converts to 28. -/
theorem performRelease_float_credit_below_floor :
    isActivityStillActive (demoEnv 1290000000) demoTaskRate100.ActivityID = true ∧
    demoTaskRate100.ReleaseRate = 100 ∧
    timeSub (demoEnv 1290000000).now demoTaskRate100.LastRelease = 290000000 ∧
    queueSeqOf demoLongQueue "t" 1 - releaseSeqOf demoLongQueue "t" 1 = 100 ∧
    releaseSeqOf demoLongQueue "t" 1 = 0 ∧
    min (max 1 ((100 * 290000000 : Int) / 1000000000)) 100 = 29 ∧
    (performRelease (demoEnv 1290000000) demoTaskRate100 demoLongQueue).1 = .ok () ∧
    releaseSeqOf (performRelease (demoEnv 1290000000) demoTaskRate100 demoLongQueue).2.2
      "t" 1 = 28 := by
  decide!

/-- C26 (amended): for a task whose activity is live, with the reads and the write
of the tick reaching Redis and `queue_seq`, `release_seq` and their difference
within `int64`, let `qlen = queue_seq - release_seq`, `d` the time since
`last_release`, `credit = int64(float64(rate) * d.Seconds())` computed in `float64`
arithmetic, and `count = min(max(1, credit), qlen)`. If `qlen ≤ 0` the tick
leaves `release_seq` and the task (so `last_release`) unchanged; otherwise
`1 ≤ count ≤ qlen` for every rate, the tick writes `release_seq + count` and sets
`last_release` to now. For a rate above 0 and `d ≥ 0` the credit is at most
`(1 + 2^-50) * rate * d` and, when that bound is below `2^63`, more than
`(1 - 2^-50) * rate * d - 1` (`d` in seconds; the statement scales by `10^9`
nanoseconds and by `2^50 = 1125899906842624`). -/
theorem performRelease_tick (env : Env) (task : SchedulerTask) (r : Redis)
    (hlive : isActivityStillActive env task.ActivityID = true)
    (hq : env.redisErr .schedGetQueueSeq = none)
    (hr : env.redisErr .schedGetReleaseSeq = none)
    (hw : env.redisErr .schedSetReleaseSeq = none)
    (hqs : isInt64 (queueSeqOf r task.TenantID task.ActivityID))
    (hrs : isInt64 (releaseSeqOf r task.TenantID task.ActivityID))
    (hrange : isInt64 (queueSeqOf r task.TenantID task.ActivityID -
      releaseSeqOf r task.TenantID task.ActivityID)) :
    (queueSeqOf r task.TenantID task.ActivityID -
        releaseSeqOf r task.TenantID task.ActivityID ≤ 0 →
      performRelease env task r = (.ok (), task, r)) ∧
    (0 < queueSeqOf r task.TenantID task.ActivityID -
        releaseSeqOf r task.TenantID task.ActivityID →
      1 ≤ min (max 1 (expectedReleases task.ReleaseRate (timeSub env.now task.LastRelease)))
          (queueSeqOf r task.TenantID task.ActivityID -
            releaseSeqOf r task.TenantID task.ActivityID) ∧
      min (max 1 (expectedReleases task.ReleaseRate (timeSub env.now task.LastRelease)))
          (queueSeqOf r task.TenantID task.ActivityID -
            releaseSeqOf r task.TenantID task.ActivityID) ≤
        queueSeqOf r task.TenantID task.ActivityID -
          releaseSeqOf r task.TenantID task.ActivityID ∧
      (performRelease env task r).1 = .ok () ∧
      releaseSeqOf (performRelease env task r).2.2 task.TenantID task.ActivityID =
        releaseSeqOf r task.TenantID task.ActivityID +
          min (max 1 (expectedReleases task.ReleaseRate (timeSub env.now task.LastRelease)))
            (queueSeqOf r task.TenantID task.ActivityID -
              releaseSeqOf r task.TenantID task.ActivityID) ∧
      (performRelease env task r).2.1.LastRelease = env.now) ∧
    (0 < task.ReleaseRate → 0 ≤ timeSub env.now task.LastRelease →
      expectedReleases task.ReleaseRate (timeSub env.now task.LastRelease) *
          (1000000000 * 1125899906842624) ≤
        task.ReleaseRate * timeSub env.now task.LastRelease * 1125899906842625 ∧
      (task.ReleaseRate * timeSub env.now task.LastRelease * 1125899906842625 <
          9223372036854775808 * (1000000000 * 1125899906842624) →
        task.ReleaseRate * timeSub env.now task.LastRelease * 1125899906842623 <
          (expectedReleases task.ReleaseRate (timeSub env.now task.LastRelease) + 1) *
            (1000000000 * 1125899906842624))) := by
  have hwrap := wrap64_of_isInt64 _ hrange
  refine ⟨?_, ?_, ?_⟩
  · intro h
    exact performRelease_idle env task r hlive hq hr (by rw [hwrap]; exact h)
  · intro h
    have hc := tick_count_eq
      (expectedReleases task.ReleaseRate (timeSub env.now task.LastRelease))
      (queueSeqOf r task.TenantID task.ActivityID -
        releaseSeqOf r task.TenantID task.ActivityID)
    obtain ⟨h1, h2, h3⟩ := performRelease_release env task r hlive hq hr hw _
      (by rw [hwrap]) (by rw [hwrap]; exact h)
    rw [hc] at h2 h3
    have hb1 : 1 ≤ min (max 1 (expectedReleases task.ReleaseRate
        (timeSub env.now task.LastRelease))) (queueSeqOf r task.TenantID task.ActivityID -
          releaseSeqOf r task.TenantID task.ActivityID) :=
      le_min (le_max_left _ _) (by omega)
    have hb2 := min_le_right (max 1 (expectedReleases task.ReleaseRate
        (timeSub env.now task.LastRelease))) (queueSeqOf r task.TenantID task.ActivityID -
          releaseSeqOf r task.TenantID task.ActivityID)
    refine ⟨hb1, hb2, h1, ?_, ?_⟩
    · rw [h3]
      apply wrap64_of_isInt64
      unfold isInt64 minInt64 maxInt64 at *
      omega
    · rw [h2]
  · intro hrate hd
    exact ⟨expectedReleases_mul_le _ _ hrate hd,
      fun hfit => expectedReleases_mul_gt _ _ hrate hd hfit⟩

/-- C26 (witness): in `demoQueued` (`queue_seq = 3`, `release_seq = 0`) the tick
of 2 s of the task started at 1 s with rate 10 has credit 10, releases
`min(10, 3) = 3` positions and sets `last_release` to 2 s. -/
theorem performRelease_tick_witness :
    queueSeqOf demoQueued.redis "t" 1 - releaseSeqOf demoQueued.redis "t" 1 = 3 ∧
    demoQueued.sched.running.lookup 1 = some demoTask ∧
    expectedReleases demoTask.ReleaseRate
      (timeSub (demoEnv 2000000000).now demoTask.LastRelease) = 10 ∧
    releaseSeqOf (performRelease (demoEnv 2000000000) demoTask demoQueued.redis).2.2 "t" 1 =
      releaseSeqOf demoQueued.redis "t" 1 +
        min (max 1 (expectedReleases demoTask.ReleaseRate
            (timeSub (demoEnv 2000000000).now demoTask.LastRelease)))
          (queueSeqOf demoQueued.redis "t" 1 - releaseSeqOf demoQueued.redis "t" 1) ∧
    (performRelease (demoEnv 2000000000) demoTask demoQueued.redis).2.1.LastRelease =
      2000000000 :=
  ⟨by decide!, by decide!, by decide!,
   ((performRelease_tick (demoEnv 2000000000) demoTask demoQueued.redis (by decide!) rfl rfl rfl
      (by decide!) (by decide!) (by decide!)).2.1 (by decide!)).2.2.2.1,
   ((performRelease_tick (demoEnv 2000000000) demoTask demoQueued.redis (by decide!) rfl rfl rfl
      (by decide!) (by decide!) (by decide!)).2.1 (by decide!)).2.2.2.2⟩

/-! ## C27: reconciliation of the scheduler with the registry -/

theorem lookup_map_rate (l : List (Int × SchedulerTask)) (k : Int)
    (f : SchedulerTask → SchedulerTask) (id : Int) :
    (l.map (fun p => if p.1 == k then (p.1, f p.2) else p)).lookup id =
      if id = k then (l.lookup id).map f else l.lookup id := by
  induction l with
  | nil => simp
  | cons p l ih =>
    obtain ⟨a, t⟩ := p
    simp only [List.map_cons, List.lookup_cons]
    by_cases hak : a = k
    · subst hak
      simp only [beq_self_eq_true, if_true]
      by_cases hid : id = a
      · subst hid
        simp
      · have : (id == a) = false := by simpa using hid
        simp only [List.lookup_cons, this]
        rw [ih]
    · have hak2 : (a == k) = false := by simpa using hak
      simp only [hak2, Bool.false_eq_true, if_false, List.lookup_cons]
      by_cases hid : id = a
      · subst hid
        simp [hak]
      · have : (id == a) = false := by simpa using hid
        simp only [this]
        rw [ih]

theorem lookup_filter_key (l : List (Int × SchedulerTask)) (P : Int → Bool) (id : Int) :
    (l.filter (fun p => P p.1)).lookup id = if P id = true then l.lookup id else none := by
  induction l with
  | nil => simp
  | cons p l ih =>
    obtain ⟨a, t⟩ := p
    by_cases hid : id = a
    · subst hid
      by_cases hp : P id = true
      · simp [List.filter_cons, hp]
      · have hp2 : P id = false := by simpa using hp
        rw [List.filter_cons]
        simp only [hp2, Bool.false_eq_true, if_false]
        rw [ih]
        simp [hp2]
    · have hne : (id == a) = false := by simpa using hid
      rw [List.filter_cons]
      by_cases hpa : P a = true
      · simp only [hpa, if_true, List.lookup_cons, hne]
        rw [ih]
      · have hpa2 : P a = false := by simpa using hpa
        simp only [hpa2, Bool.false_eq_true, if_false, List.lookup_cons, hne]
        rw [ih]

/-- A row leaves the tasks of the other activities as they are. -/
theorem syncActivityRow_other (env : Env) (r : Redis) (rs : ReleaseScheduler)
    (row : ActivityRow) (id : Int) (hne : id ≠ row.ID) :
    (syncActivityRow env r rs row).running.lookup id = rs.running.lookup id := by
  unfold syncActivityRow
  split
  · split
    · unfold startActivityScheduler
      split
      · rfl
      · have : (id == row.ID) = false := by simpa using hne
        simp [List.lookup_cons, this]
    · rfl
  · split
    · simp only []
      refine (lookup_map_rate rs.running row.ID
        (fun t => { t with ReleaseRate := row.Config.ReleaseRate }) id).trans ?_
      rw [if_neg hne]
    · rfl

/-- What a row does to the task of its own activity. -/
theorem syncActivityRow_self (env : Env) (r : Redis) (rs : ReleaseScheduler)
    (row : ActivityRow) :
    (rs.running.lookup row.ID = none → 0 < row.Config.ReleaseRate →
      ∃ task, (syncActivityRow env r rs row).running.lookup row.ID = some task ∧
        task.ReleaseRate = row.Config.ReleaseRate) ∧
    (rs.running.lookup row.ID = none → ¬ 0 < row.Config.ReleaseRate →
      (syncActivityRow env r rs row).running.lookup row.ID = none) ∧
    (∀ task, rs.running.lookup row.ID = some task →
      (syncActivityRow env r rs row).running.lookup row.ID =
        some { task with ReleaseRate := row.Config.ReleaseRate }) := by
  refine ⟨?_, ?_, ?_⟩
  · intro hnone hpos
    unfold syncActivityRow
    rw [hnone]
    simp only []
    rw [if_pos (by omega)]
    unfold startActivityScheduler
    rw [hnone]
    simp only [List.lookup_cons, beq_self_eq_true]
    exact ⟨_, rfl, rfl⟩
  · intro hnone hpos
    unfold syncActivityRow
    rw [hnone]
    simp only []
    rw [if_neg (by omega)]
    exact hnone
  · intro task hsome
    unfold syncActivityRow
    rw [hsome]
    simp only []
    split
    · simp only []
      refine (lookup_map_rate rs.running row.ID
        (fun t => { t with ReleaseRate := row.Config.ReleaseRate }) row.ID).trans ?_
      rw [if_pos rfl, hsome]
      rfl
    · rename_i heq
      have heq2 : task.ReleaseRate = row.Config.ReleaseRate := by
        by_contra hc
        exact heq hc
      rw [hsome, ← heq2]

/-- The task of a row after the row depends on the task map only through the
task of that activity before the row. -/
theorem syncActivityRow_congr (env : Env) (r : Redis) (rs1 rs2 : ReleaseScheduler)
    (row : ActivityRow) (h : rs1.running.lookup row.ID = rs2.running.lookup row.ID) :
    (syncActivityRow env r rs1 row).running.lookup row.ID =
      (syncActivityRow env r rs2 row).running.lookup row.ID := by
  obtain ⟨a1, b1, c1⟩ := syncActivityRow_self env r rs1 row
  obtain ⟨a2, b2, c2⟩ := syncActivityRow_self env r rs2 row
  cases h1 : rs1.running.lookup row.ID with
  | some task => rw [c1 task h1, c2 task (h ▸ h1)]
  | none =>
    have h2 : rs2.running.lookup row.ID = none := h ▸ h1
    by_cases hpos : 0 < row.Config.ReleaseRate
    · unfold syncActivityRow
      rw [h1, h2]
      simp only []
      rw [if_pos (by omega), if_pos (by omega)]
      unfold startActivityScheduler
      rw [h1, h2]
      simp [List.lookup_cons]
    · rw [b1 h1 hpos, b2 h2 hpos]

/-- The loop over rows with distinct ids: an activity without a row keeps its
task, and the task of an activity with a row is what its row alone makes of it. -/
theorem syncRows_lookup (env : Env) (r : Redis) : ∀ (rows : List ActivityRow)
    (rs : ReleaseScheduler), (rows.map (fun row => row.ID)).Nodup →
    (∀ id, id ∉ rows.map (fun row => row.ID) →
      (rows.foldl (syncActivityRow env r) rs).running.lookup id = rs.running.lookup id) ∧
    (∀ row ∈ rows, (rows.foldl (syncActivityRow env r) rs).running.lookup row.ID =
      (syncActivityRow env r rs row).running.lookup row.ID) := by
  intro rows
  induction rows with
  | nil =>
    intro rs _
    exact ⟨fun _ _ => rfl, fun row hrow => absurd hrow (List.not_mem_nil _)⟩
  | cons r0 rest ih =>
    intro rs hnd
    rw [List.map_cons, List.nodup_cons] at hnd
    obtain ⟨ih1, ih2⟩ := ih (syncActivityRow env r rs r0) hnd.2
    constructor
    · intro id hid
      rw [List.map_cons, List.mem_cons, not_or] at hid
      rw [List.foldl_cons, ih1 id hid.2, syncActivityRow_other env r rs r0 id hid.1]
    · intro row hrow
      rw [List.foldl_cons]
      rcases List.mem_cons.mp hrow with h0 | hin
      · rw [h0, ih1 r0.ID hnd.1]
      · have hne : row.ID ≠ r0.ID := by
          intro he
          apply hnd.1
          rw [← he]
          exact List.mem_map_of_mem _ hin
        rw [ih2 row hin]
        exact syncActivityRow_congr env r _ _ row (syncActivityRow_other env r rs r0 row.ID hne)

/-- C27: after a reconciliation whose query succeeded, the scanned rows having
distinct activity ids: every remaining task belongs to an activity with a
scanned row; every scanned activity with release rate above 0 has a task; a
scanned activity with release rate 0 (or below) that had no task has none; and the
in-memory rate of the task of every scanned activity is the rate of its row. -/
theorem syncActiveActivities_reconciles (env : Env) (r : Redis)
    (rows : List (Except String ActivityRow)) (rs : ReleaseScheduler)
    (hnd : ((scannedRows rows).map (fun row => row.ID)).Nodup) :
    (syncActiveActivities env r (.ok rows) rs).1 = .ok () ∧
    (∀ id task, (syncActiveActivities env r (.ok rows) rs).2.running.lookup id = some task →
      ∃ row ∈ scannedRows rows, row.ID = id) ∧
    (∀ row ∈ scannedRows rows, 0 < row.Config.ReleaseRate →
      ∃ task, (syncActiveActivities env r (.ok rows) rs).2.running.lookup row.ID = some task) ∧
    (∀ row ∈ scannedRows rows, row.Config.ReleaseRate ≤ 0 →
      rs.running.lookup row.ID = none →
      (syncActiveActivities env r (.ok rows) rs).2.running.lookup row.ID = none) ∧
    (∀ row ∈ scannedRows rows, ∀ task,
      (syncActiveActivities env r (.ok rows) rs).2.running.lookup row.ID = some task →
      task.ReleaseRate = row.Config.ReleaseRate) := by
  obtain ⟨h1, h2⟩ := syncRows_lookup env r (scannedRows rows) rs hnd
  have hlook : ∀ id, (syncActiveActivities env r (.ok rows) rs).2.running.lookup id =
      if ((scannedRows rows).map (fun row => row.ID)).contains id = true then
        ((scannedRows rows).foldl (syncActivityRow env r) rs).running.lookup id
      else none := by
    intro id
    unfold syncActiveActivities
    simp only []
    exact lookup_filter_key _ (fun k => ((scannedRows rows).map (fun row => row.ID)).contains k) id
  have hin : ∀ row ∈ scannedRows rows,
      (syncActiveActivities env r (.ok rows) rs).2.running.lookup row.ID =
        (syncActivityRow env r rs row).running.lookup row.ID := by
    intro row hrow
    have hc : ((scannedRows rows).map (fun row => row.ID)).contains row.ID = true := by
      have hm : row.ID ∈ (scannedRows rows).map (fun row => row.ID) :=
        List.mem_map_of_mem _ hrow
      simpa using hm
    rw [hlook, if_pos hc, h2 row hrow]
  refine ⟨rfl, ?_, ?_, ?_, ?_⟩
  · intro id task hl
    rw [hlook] at hl
    split at hl
    · rename_i hc
      have hm : id ∈ (scannedRows rows).map (fun row => row.ID) := by simpa using hc
      exact List.mem_map.mp hm
    · simp at hl
  · intro row hrow hpos
    rw [hin row hrow]
    obtain ⟨a, _, c⟩ := syncActivityRow_self env r rs row
    cases hb : rs.running.lookup row.ID with
    | none =>
      obtain ⟨task, ht, _⟩ := a hb hpos
      exact ⟨task, ht⟩
    | some task => exact ⟨_, c task hb⟩
  · intro row hrow hzero hnone
    rw [hin row hrow]
    exact (syncActivityRow_self env r rs row).2.1 hnone (by omega)
  · intro row hrow task hl
    rw [hin row hrow] at hl
    obtain ⟨a, b, c⟩ := syncActivityRow_self env r rs row
    cases hb : rs.running.lookup row.ID with
    | none =>
      by_cases hpos : 0 < row.Config.ReleaseRate
      · obtain ⟨task1, ht, hr⟩ := a hb hpos
        rw [ht] at hl
        rw [← Option.some.inj hl]
        exact hr
      · rw [b hb hpos] at hl
        simp at hl
    | some task0 =>
      rw [c task0 hb] at hl
      rw [← Option.some.inj hl]

/-- C27 (witness): reconciling the scheduler of `demoQueued` (one task, activity
1, rate 10) with `demoRows` leaves the task of activity 1 with rate 5, no task
for activity 2 (rate 0) and a task for activity 3 with rate 7. -/
theorem syncActiveActivities_reconciles_witness :
    ((scannedRows demoRows).map (fun row => row.ID)).Nodup ∧
    ((syncActiveActivities (demoEnv 3000000000) demoQueued.redis (.ok demoRows)
      demoQueued.sched).2.running.lookup 1).map (fun t => t.ReleaseRate) = some 5 ∧
    (syncActiveActivities (demoEnv 3000000000) demoQueued.redis (.ok demoRows)
      demoQueued.sched).2.running.lookup 2 = none ∧
    (∃ task, (syncActiveActivities (demoEnv 3000000000) demoQueued.redis (.ok demoRows)
      demoQueued.sched).2.running.lookup 3 = some task) :=
  ⟨by decide!, by decide!, by decide!,
   (syncActiveActivities_reconciles (demoEnv 3000000000) demoQueued.redis demoRows
      demoQueued.sched (by decide!)).2.2.1
      { ID := 3, TenantID := "t",
        Config := { ReleaseRate := 7, MaxConcurrent := 0, EnableThrottle := false,
                    PollInterval := 2000 } } (by decide!) (by decide)⟩

/-! ## C28: separation of tenants and activities by the keys -/

theorem two_part_key_inj (p t1 t2 : String) (a1 a2 : Int)
    (h : p ++ t1 ++ ":" ++ fmtInt a1 = p ++ t2 ++ ":" ++ fmtInt a2) : t1 = t2 ∧ a1 = a2 := by
  have hd := congrArg String.data h
  simp only [String.data_append, List.append_assoc, List.append_cancel_left_eq] at hd
  simp only [List.singleton_append] at hd
  obtain ⟨e1, e2⟩ := split_at_last ':' _ _ _ _ (fmtInt_no_colon a1) (fmtInt_no_colon a2) hd
  exact ⟨String.ext e1, fmtInt_injective _ _ (String.ext e2)⟩

/-- C28 (counterexample): the session binding of tenant `x`, activity 1, session
`2:y` and the session binding of tenant `x:1`, activity 2, session `y` have the
same key `user:queue:x:1:2:y`. -/
theorem UserQueueKey_collision :
    keys.UserQueueKey "x" 1 "2:y" = keys.UserQueueKey "x:1" 2 "y" ∧
    keys.UserQueueKey "x" 1 "2:y" = "user:queue:x:1:2:y" ∧
    "x" ≠ "x:1" ∧ (1 : Int) ≠ 2 ∧ "2:y" ≠ "y" := by
  decide

/-- C28 (amended): for all tenant strings (possibly containing a colon) and
activity ids, equal `QueueSeqKey`s have equal tenants and activity ids; for all
tenant strings, activity ids and session strings such that neither session
string contains a colon, or neither tenant string contains a colon, equal
`UserQueueKey`s have equal tenants, activity ids and session strings. -/
theorem keys_separate (t1 t2 : String) (a1 a2 : Int) (s1 s2 : String) :
    (keys.QueueSeqKey t1 a1 = keys.QueueSeqKey t2 a2 → t1 = t2 ∧ a1 = a2) ∧
    ((':' ∉ s1.data ∧ ':' ∉ s2.data) ∨ (':' ∉ t1.data ∧ ':' ∉ t2.data) →
      keys.UserQueueKey t1 a1 s1 = keys.UserQueueKey t2 a2 s2 →
      t1 = t2 ∧ a1 = a2 ∧ s1 = s2) := by
  constructor
  · intro h
    exact two_part_key_inj "queue:seq:" t1 t2 a1 a2 h
  · intro hc h
    unfold keys.UserQueueKey at h
    have hd := congrArg String.data h
    simp only [String.data_append, List.append_assoc, List.append_cancel_left_eq] at hd
    simp only [List.singleton_append] at hd
    rcases hc with ⟨c1, c2⟩ | ⟨c1, c2⟩
    · have hd2 : (t1.data ++ ':' :: (fmtInt a1).data) ++ ':' :: s1.data =
          (t2.data ++ ':' :: (fmtInt a2).data) ++ ':' :: s2.data := by
        simpa [List.append_assoc] using hd
      obtain ⟨e1, e2⟩ := split_at_last ':' _ _ _ _ c1 c2 hd2
      obtain ⟨e3, e4⟩ := split_at_last ':' _ _ _ _ (fmtInt_no_colon a1) (fmtInt_no_colon a2) e1
      exact ⟨String.ext e3, fmtInt_injective _ _ (String.ext e4), String.ext e2⟩
    · obtain ⟨e1, e2⟩ := split_at_first ':' _ _ _ _ c1 c2 hd
      obtain ⟨e3, e4⟩ := split_at_first ':' _ _ _ _ (fmtInt_no_colon a1) (fmtInt_no_colon a2) e2
      exact ⟨String.ext e1, fmtInt_injective _ _ (String.ext e3), String.ext e4⟩

/-- C28 (witness): the key `user:queue:x:1:2:y` read with a session string free
of colons determines tenant `x:1`, activity 2 and session `y`. -/
theorem keys_separate_witness :
    ':' ∉ "y".data ∧
    (∀ t2 a2 s2, ':' ∉ s2.data →
      keys.UserQueueKey "x:1" 2 "y" = keys.UserQueueKey t2 a2 s2 →
      "x:1" = t2 ∧ (2 : Int) = a2 ∧ "y" = s2) :=
  ⟨by decide, fun t2 a2 s2 hs h =>
    (keys_separate "x:1" t2 2 a2 "y" s2).2 (Or.inl ⟨by decide, hs⟩) h⟩

/-! ## C29: keys read by the admin snapshot -/

/-- For every tenant and activity, the four keys read by the admin snapshot
differ from the keys of the schema that the admission engine and the scheduler
write. -/
theorem admin_keys_differ (t : String) (a : Int) :
    "t:" ++ t ++ ":a:" ++ fmtInt a ++ ":queue_seq" ≠ keys.QueueSeqKey t a ∧
    "t:" ++ t ++ ":a:" ++ fmtInt a ++ ":release_seq" ≠ keys.ReleaseSeqKey t a ∧
    "t:" ++ t ++ ":a:" ++ fmtInt a ++ ":active_users" ≠ keys.ActiveUsersKey t a ∧
    "t:" ++ t ++ ":a:" ++ fmtInt a ++ ":metrics:enter_total" ≠
      keys.MetricsKey t a "enter_total" := by
  refine ⟨?_, ?_, ?_, ?_⟩ <;>
  · intro h
    have := congrArg String.data h
    simp [keys.QueueSeqKey, keys.ReleaseSeqKey, keys.ActiveUsersKey, keys.MetricsKey,
      String.data_append] at this

/-- C29 (failing input): in `demoQueued` three users have entered activity 1 of
tenant `t`: the live counter `queue_seq`, under `keys.QueueSeqKey`, is 3 and the
metric `enter_total`, under `keys.MetricsKey`, is 3; after the tick of 2 s the
live cursor `release_seq` is 3. The admin snapshot reads the keys
`t:t:a:1:queue_seq`, `t:t:a:1:release_seq` and `t:t:a:1:metrics:enter_total`,
which nothing writes, and reports 0 for all of them. -/
theorem admin_snapshot_reads_other_keys :
    queueSeqOf demoReleased.redis "t" 1 = 3 ∧
    releaseSeqOf demoReleased.redis "t" 1 = 3 ∧
    demoReleased.redis.ints (keys.MetricsKey "t" 1 "enter_total") = some 3 ∧
    (demoReleased.redis.hlls (keys.ActiveUsersKey "t" 1)).length = 3 ∧
    getQueueMetrics (demoEnv 3000000000) demoReleased.redis "t" 1 =
      .ok { QueueSeq := 0, ReleaseSeq := 0, QueueLength := 0, ActiveUsers := 0 } ∧
    (getRealtimeStats (demoEnv 3000000000) demoReleased.redis "t" 1).EnterTotal = 0 ∧
    keys.QueueSeqKey "t" 1 = "queue:seq:t:1" ∧
    keys.ReleaseSeqKey "t" 1 = "release:seq:t:1" ∧
    keys.ActiveUsersKey "t" 1 = "active:users:t:1" ∧
    keys.MetricsKey "t" 1 "enter_total" = "metrics:t:1:enter_total" := by
  decide!

/-! ## C30: the matcher of the handlers -/

theorem goSlice_ok (s : List Nat) (lo hi : Nat) (h1 : lo ≤ hi) (h2 : hi ≤ s.length) :
    handlers.goSlice s (lo : Int) (hi : Int) = some ((s.drop lo).take (hi - lo)) := by
  unfold handlers.goSlice
  have h : (0 : Int) ≤ (lo : Int) ∧ (lo : Int) ≤ (hi : Int) ∧ (hi : Int) ≤ (s.length : Int) := by
    omega
  rw [if_pos h]
  have e1 : (lo : Int).toNat = lo := by omega
  have e2 : ((hi : Int) - (lo : Int)).toNat = hi - lo := by omega
  rw [e1, e2]

theorem containsSubstringChecked_eq (s p : List Nat) (h : p.length ≤ s.length) :
    handlers.containsSubstringChecked s p = some (handlers.containsSubstring s p) := by
  unfold handlers.containsSubstringChecked handlers.containsSubstring
  rw [if_neg (by omega)]
  have hn : ((s.length : Int) - (p.length : Int) + 1).toNat = s.length - p.length + 1 := by
    omega
  rw [hn]
  have key : ∀ l : List Nat, (∀ i ∈ l, i + p.length ≤ s.length) →
      l.foldr (fun (i : Nat) rest =>
        match handlers.goSlice s (i : Int) ((i : Int) + (p.length : Int)) with
        | none => none
        | some w => if w == p then some true else rest) (some false) =
      some (l.any (fun i => (s.drop i).take p.length == p)) := by
    intro l
    induction l with
    | nil => intro _; rfl
    | cons i l ih =>
      intro hl
      have hi : i + p.length ≤ s.length := hl i (List.mem_cons_self _ _)
      have hs : handlers.goSlice s (i : Int) ((i : Int) + (p.length : Int)) =
          some ((s.drop i).take p.length) := by
        have := goSlice_ok s i (i + p.length) (by omega) hi
        simpa using this
      simp only [List.foldr_cons, List.any_cons, hs]
      rw [ih (fun j hj => hl j (List.mem_cons_of_mem _ hj))]
      cases h1 : (List.take p.length (List.drop i s) == p) <;> simp
  apply key
  intro i hi
  rw [List.mem_range] at hi
  omega

theorem containsChecked_eq (s p : List Nat) :
    handlers.containsChecked s p = some (handlers.containsBytes s p) := by
  unfold handlers.containsChecked handlers.containsBytes
  by_cases h1 : s.length ≥ p.length
  · rw [if_pos h1]
    by_cases h2 : s = p
    · simp [h2]
    · have h2b : (s == p) = false := by simpa using h2
      rw [h2b]
      by_cases h3 : s.length > p.length
      · have hs1 : handlers.goSlice s 0 (p.length : Int) = some (s.take p.length) := by
          have := goSlice_ok s 0 p.length (by omega) (by omega)
          simpa using this
        have hs2 : handlers.goSlice s ((s.length : Int) - (p.length : Int)) (s.length : Int) =
            some (s.drop (s.length - p.length)) := by
          have := goSlice_ok s (s.length - p.length) s.length (by omega) (le_refl _)
          have e : ((s.length - p.length : Nat) : Int) = (s.length : Int) - (p.length : Int) := by
            omega
          rw [e] at this
          rw [this]
          congr 1
          apply List.take_of_length_le
          simp
        simp only [if_pos h3, hs1, hs2, Bool.false_eq_true, if_false]
        rw [containsSubstringChecked_eq s p (by omega)]
        cases ha : (List.take p.length s == p) <;>
          cases hb : (List.drop (s.length - p.length) s == p) <;> simp [h1, h3]
      · simp [h1, h3]
  · simp [h1]

/-- C30: for all Go strings `s` and `substr`, the matcher `contains(s, substr)`
evaluates without any slice expression going out of range, and it returns true
if and only if the bytes of `substr` occur contiguously in the bytes of `s`; in
particular it is true for the empty `substr` and false when `substr` is longer
than `s`. -/
theorem contains_iff_substring (s substr : String) :
    handlers.containsChecked (Sha256.bytesOf s) (Sha256.bytesOf substr) =
      some (handlers.contains s substr) ∧
    (handlers.contains s substr = true ↔
      ∃ a b, a ++ Sha256.bytesOf substr ++ b = Sha256.bytesOf s) ∧
    handlers.contains s "" = true ∧
    ((Sha256.bytesOf s).length < (Sha256.bytesOf substr).length →
      handlers.contains s substr = false) := by
  refine ⟨containsChecked_eq _ _, containsBytes_iff _ _, ?_, ?_⟩
  · exact (containsBytes_iff _ _).mpr ⟨[], Sha256.bytesOf s, by simp [Sha256.bytesOf]⟩
  · intro hlen
    cases hc : handlers.contains s substr
    · rfl
    · have := ((containsBytes_iff _ _).mp hc).length_le
      omega

end Fluxgate
